import Mathlib

/-!
Coscheduling: group index, task classifier, group cache and gang admission plugin.

A shallow embedding of `pkg/api` (task classifier, `Job` group index), of
`pkg/plugins/gang` (the `PreFilter` and `Permit` checkpoints) and of `pkg/cache`
(the event handlers and the reconciliation step), followed by the properties of
these definitions.

Conventions of the embedding.

* Go maps keyed by task id (`taskMap`) are association lists without duplicate
  keys (`AList`); `len` is the number of entries and a map read is `AList.lookup`.
  Equality of association lists is finer than equality of maps (it also compares
  the order of the entries), so a proved equality is an equality of maps, and
  differences between maps are always shown on `lookup`.  The status index
  `map[TaskStatus]taskMap` is a function `TaskStatus → Option taskMap`, where
  `none` is an absent bucket.
* Pointers to tasks are replaced by the task values; an in-place update of a
  `*Job` becomes a function returning the updated `Job`.
* `int32` counters are integers.  Every counter is the size of a collection of
  pods or tasks held in memory, so it stays far below `2^31` and the Go
  arithmetic is exact.
* Kubernetes string-typed constants (`v1.PodRunning`, ...) are the strings the
  Kubernetes API declares for them.
* The host framework is represented by what the plugin reads from it: the pods
  parked in the waiting pool, the pods of the placement snapshot, the pods known
  to the API server and the group definition lister.  A call of `Allow` on a
  parked pod is recorded in the result of `Permit`.
* The label selector of the two listings is the one `labels.SelectorFromSet` of
  `k8s.io/apimachinery` builds: the requirement "group label = name" when the
  name is a valid label value, and the selector that matches every pod when it
  is not.  Label values of pods are valid label values, so the properties that
  count the pods carrying the label of a group are stated for such names.
* The group map `jobs` of the cache is an association list as well; a handler
  that changes a group through the pointer `sc.jobs[id]` stores the changed
  group under `id`.  A handler returns the cache after the call together with
  the error it reported, if any (messages are shortened to their fixed part).
* The reconciliation step reads the clock (`metav1.Now()`) as a parameter and
  `reflect.DeepEqual` on two statuses is equality of the values (Go's difference
  between a nil and an empty slice of conditions is not represented).  The
  assignment `podGroup.Status = status` changes the object held by the lister;
  whether the definition reference of the group is that same object is a
  parameter of a run.
-/

namespace Coscheduling

/-! ## Kubernetes objects -/

/-- Constant `v1.PodPending`. -/
def PodPending : String := "Pending"
/-- Constant `v1.PodRunning`. -/
def PodRunning : String := "Running"
/-- Constant `v1.PodSucceeded`. -/
def PodSucceeded : String := "Succeeded"
/-- Constant `v1.PodFailed`. -/
def PodFailed : String := "Failed"
/-- Constant `v1.PodUnknown`. -/
def PodUnknown : String := "Unknown"
/-- Constant `v1.PodScheduled` (a pod condition type). -/
def PodScheduled : String := "PodScheduled"
/-- Constant `v1.ConditionFalse`. -/
def ConditionFalse : String := "False"
/-- Constant `v1.ConditionTrue`. -/
def ConditionTrue : String := "True"
/-- Constant `v1.PodReasonUnschedulable`. -/
def PodReasonUnschedulable : String := "Unschedulable"
/-- Modelled from the spec: the well-known grouping label key
(`schedulingv1alpha1.GroupNameLabelKey`), whose declaration is not among the sources.
No definition below depends on the particular string. -/
def GroupNameLabelKey : String := "scheduling.caicloud.io/group-name"

/-- The fields of `v1.PodCondition` read by the classifier. -/
structure PodCondition where
  CondType : String
  Status : String
  Reason : String
deriving DecidableEq, Repr

/-- The fields of `v1.PodSpec` read by the program. -/
structure PodSpec where
  NodeName : String
  SchedulerName : String
deriving DecidableEq, Repr

/-- The fields of `v1.PodStatus` read by the program. -/
structure PodStatus where
  Phase : String
  Conditions : List PodCondition
deriving DecidableEq, Repr

/-- A `v1.Pod`: object metadata (inlined, as Go embeds it), spec and status.
`Labels` is the label map, read with `List.lookup`; `DeletionTimestamp` is a nullable
pointer. -/
structure Pod where
  UID : String
  Name : String
  Namespace : String
  ResourceVersion : String
  Labels : List (String × String)
  DeletionTimestamp : Option Nat
  Spec : PodSpec
  Status : PodStatus
deriving DecidableEq, Repr

/-! ## `pkg/api`: task status and classifier -/

/-- Modelled from the spec: the `TaskStatus` enumeration of `pkg/api`, whose declaration
is not among the sources (`Pending, Bound, Running, Releasing, Succeeded, Failed,
Unschedulable, Unknown`). -/
inductive TaskStatus where
  | Pending
  | Bound
  | Running
  | Releasing
  | Succeeded
  | Failed
  | Unschedulable
  | Unknown
deriving DecidableEq, Repr

open TaskStatus

/-- All statuses, the key space of the status index. -/
def allStatuses : List TaskStatus :=
  [Pending, Bound, Running, Releasing, Succeeded, Failed, Unschedulable, Unknown]

/-- `isPodUnschedulable` of `helpers.go`. -/
def isPodUnschedulable : List PodCondition → Bool
  | [] => false
  | cond :: conditions =>
    if cond.CondType = PodScheduled ∧ cond.Status = ConditionFalse ∧
        cond.Reason = PodReasonUnschedulable then true
    else isPodUnschedulable conditions

/-- `getTaskStatus` of `helpers.go`: the `switch` on the pod phase. -/
def getTaskStatus (pod : Pod) : TaskStatus :=
  if pod.Status.Phase = PodRunning then
    if pod.DeletionTimestamp ≠ none then Releasing else Running
  else if pod.Status.Phase = PodPending then
    if pod.DeletionTimestamp ≠ none then Releasing
    else if pod.Spec.NodeName.length = 0 then
      if isPodUnschedulable pod.Status.Conditions then Unschedulable else Pending
    else Bound
  else if pod.Status.Phase = PodUnknown then Unknown
  else if pod.Status.Phase = PodSucceeded then Succeeded
  else if pod.Status.Phase = PodFailed then Failed
  else Unknown

/-- `AllocatedStatus` of `helpers.go`. -/
def AllocatedStatus (status : TaskStatus) : Bool :=
  match status with
  | Bound => true
  | Running => true
  | _ => false

/-! ## `pkg/api`: tasks and jobs -/

abbrev TaskID := String
abbrev JobID := String

/-- `GetJobID` of `job.go`: `<namespace>/<label value>` for a non-empty group label. -/
def GetJobID (pod : Pod) : JobID :=
  if pod.Labels.length ≠ 0 then
    match pod.Labels.lookup GroupNameLabelKey with
    | some gn => if gn.length ≠ 0 then pod.Namespace ++ "/" ++ gn else ""
    | none => ""
  else ""

/-- `Task` of `job.go`. -/
structure Task where
  UID : TaskID
  Job : JobID
  Name : String
  Namespace : String
  Status : TaskStatus
  NodeName : String
  Pod : Pod
deriving DecidableEq, Repr

/-- `NewTask` of `job.go`. -/
def NewTask (pod : Pod) : Task :=
  { UID := pod.UID
    Job := GetJobID pod
    Name := pod.Name
    Namespace := pod.Namespace
    NodeName := pod.Spec.NodeName
    Status := getTaskStatus pod
    Pod := pod }

/-- Go type `taskMap` (`map[TaskID]*Task`). -/
abbrev taskMap := AList (fun _ : TaskID => Task)

/-- Go `len(tasks)` for a `taskMap`. -/
def taskMap.len (tasks : taskMap) : Nat := tasks.entries.length

/-- The fields of `PodGroupCondition` (`types.go`). -/
structure PodGroupCondition where
  CondType : String
  Status : String
  TransitionID : String
  LastTransitionTime : Nat
  Reason : String
  Message : String
deriving DecidableEq, Repr

/-- `PodGroupSpec` of `types.go`. -/
structure PodGroupSpec where
  MinMember : Int
deriving DecidableEq, Repr

/-- `PodGroupStatus` of `types.go`. -/
structure PodGroupStatus where
  Phase : String
  Conditions : List PodGroupCondition
  Running : Int
  Succeeded : Int
  Failed : Int
deriving DecidableEq, Repr

/-- `PodGroup` of `types.go`, with the object metadata the program reads. -/
structure PodGroup where
  Name : String
  Namespace : String
  ResourceVersion : String
  CreationTimestamp : Nat
  Spec : PodGroupSpec
  Status : PodGroupStatus
deriving DecidableEq, Repr

/-- `Job` of `job.go`. -/
structure Job where
  UID : JobID
  Name : String
  Namespace : String
  TaskStatusIndex : TaskStatus → Option taskMap
  Tasks : taskMap
  MinAvailable : Int
  CreationTimestamp : Nat
  PodGroup : Option Coscheduling.PodGroup

/-- `addTaskIndex` of `job.go`: create the bucket if absent, then store the task in it. -/
def Job.addTaskIndex (job : Job) (task : Task) : Job :=
  let tasks : taskMap :=
    match job.TaskStatusIndex task.Status with
    | some tasks => tasks
    | none => ∅
  { job with
    TaskStatusIndex :=
      Function.update job.TaskStatusIndex task.Status (some (tasks.insert task.UID task)) }

/-- `AddTask` of `job.go`. -/
def Job.AddTask (job : Job) (task : Task) : Job :=
  Job.addTaskIndex { job with Tasks := job.Tasks.insert task.UID task } task

/-- `NewJob` of `job.go`: an empty group, then `AddTask` for each given task. -/
def NewJob (uid : JobID) (tasks : List Task) : Job :=
  tasks.foldl Job.AddTask
    { UID := uid
      Name := ""
      Namespace := ""
      TaskStatusIndex := fun _ => none
      Tasks := ∅
      MinAvailable := 0
      CreationTimestamp := 0
      PodGroup := none }

/-- `deleteTaskIndex` of `job.go`: remove the id from the bucket of the task status and
drop the bucket when it became empty. -/
def Job.deleteTaskIndex (job : Job) (task : Task) : Job :=
  match job.TaskStatusIndex task.Status with
  | some tasks =>
    let tasks1 := tasks.erase task.UID
    if taskMap.len tasks1 = 0 then
      { job with TaskStatusIndex := Function.update job.TaskStatusIndex task.Status none }
    else
      { job with
        TaskStatusIndex := Function.update job.TaskStatusIndex task.Status (some tasks1) }
  | none => job

/-- `DeleteTask` of `job.go`: acts on the tracked task found under the id. -/
def Job.DeleteTask (job : Job) (task : Task) : Job :=
  match job.Tasks.lookup task.UID with
  | some t => Job.deleteTaskIndex { job with Tasks := job.Tasks.erase task.UID } t
  | none => job

/-- `UpdateTaskStatus` of `job.go`: delete, set the status field of the task, add. -/
def Job.UpdateTaskStatus (job : Job) (task : Task) (status : TaskStatus) : Job :=
  Job.AddTask (Job.DeleteTask job task) { task with Status := status }

/-- `SetPodGroup` of `job.go`. -/
def Job.SetPodGroup (job : Job) (pg : Coscheduling.PodGroup) : Job :=
  { job with
    Name := pg.Name
    Namespace := pg.Namespace
    MinAvailable := pg.Spec.MinMember
    CreationTimestamp := pg.CreationTimestamp
    PodGroup := some pg }

/-- `UnsetPodGroup` of `job.go`. -/
def Job.UnsetPodGroup (job : Job) : Job :=
  { job with PodGroup := none }

/-- The loop shared by `ValidTaskNum` and `ReadyTaskNum`: range over the buckets present
in the index and add up the sizes of those whose status is selected. -/
def Job.sumBuckets (job : Job) (sel : TaskStatus → Bool) : List TaskStatus → Nat
  | [] => 0
  | status :: rest =>
    match job.TaskStatusIndex status with
    | some tasks =>
      if sel status then taskMap.len tasks + Job.sumBuckets job sel rest
      else Job.sumBuckets job sel rest
    | none => Job.sumBuckets job sel rest

/-- `ValidTaskNum` of `job.go`. -/
def Job.ValidTaskNum (job : Job) : Int :=
  (Job.sumBuckets job
    (fun status => AllocatedStatus status || status == Succeeded || status == Pending)
    allStatuses : Nat)

/-- `ReadyTaskNum` of `job.go`. -/
def Job.ReadyTaskNum (job : Job) : Int :=
  (Job.sumBuckets job (fun status => AllocatedStatus status || status == Succeeded)
    allStatuses : Nat)

/-- `Ready` of `job.go`. -/
def Job.Ready (job : Job) : Bool :=
  decide (job.ReadyTaskNum ≥ job.MinAvailable)

/-! ## Host scheduling framework: the interfaces the plugin consumes -/

namespace framework

/-- Status codes of the host framework (`framework.Code`). -/
inductive Code where
  | Success
  | Error
  | Unschedulable
  | UnschedulableAndUnresolvable
  | Wait
  | Skip
deriving DecidableEq, Repr

/-- A non-nil `*framework.Status`; the nil status (success) is `none : Option Status`. -/
structure Status where
  code : Code
  message : String
deriving DecidableEq, Repr

/-- `framework.NewStatus`. -/
def NewStatus (code : Code) (message : String) : Status :=
  { code := code, message := message }

/-- Values stored in the per-attempt state: the data of this plugin, or data of any
other type. -/
inductive StateData where
  | preFilterStateData (pg : PodGroup)
  | other (tag : String)
deriving DecidableEq, Repr

/-- `framework.CycleState`: the per-attempt scratch store. -/
structure CycleState where
  storage : List (String × StateData)
deriving DecidableEq, Repr

/-- `CycleState.Read`: fails when nothing is stored under the key. -/
def CycleState.Read (c : CycleState) (key : String) : Except String StateData :=
  match c.storage.lookup key with
  | some v => Except.ok v
  | none => Except.error "not found"

/-- `CycleState.Write`: stores the value under the key, replacing an older one. -/
def CycleState.Write (c : CycleState) (key : String) (val : StateData) : CycleState :=
  { storage := (key, val) :: c.storage.filter (fun e => e.1 != key) }

/-- The part of `framework.FrameworkHandle` the plugin reads: the pods parked in the
waiting pool, the pods of the placement snapshot and the pods known to the API server.
The two listings can fail. -/
structure FrameworkHandle where
  waitingPods : List Pod
  snapshotPods : Except String (List Pod)
  clientPods : Except String (List Pod)

/-- `IterateOverWaitingPods`: runs the callback on every parked pod; the variables the
callback closes over are threaded as an accumulator. -/
def FrameworkHandle.IterateOverWaitingPods {σ : Type} (h : FrameworkHandle)
    (callback : σ → Pod → σ) (init : σ) : σ :=
  h.waitingPods.foldl callback init

/-- A character of the class `[A-Za-z0-9]` (library `k8s.io/apimachinery`,
`util/validation`). -/
def isAlphaNumeric (c : Char) : Bool :=
  (decide ('a' ≤ c) && decide (c ≤ 'z')) || (decide ('A' ≤ c) && decide (c ≤ 'Z')) ||
    (decide ('0' ≤ c) && decide (c ≤ '9'))

/-- A character of the class `[-A-Za-z0-9_.]` (library `k8s.io/apimachinery`,
`util/validation`). -/
def isLabelValueChar (c : Char) : Bool :=
  isAlphaNumeric c || c == '-' || c == '_' || c == '.'

/-- `validation.IsValidLabelValue` of the library `k8s.io/apimachinery`, as the verdict
"no error": the value has at most 63 bytes and matches
`(([A-Za-z0-9][-A-Za-z0-9_.]*)?[A-Za-z0-9])?`, i.e. it is empty, or it starts and ends
with an alphanumeric character and has only characters of `[-A-Za-z0-9_.]`.  A value
that matches has one byte per character, so the bound is on the number of characters. -/
def IsValidLabelValue (value : String) : Bool :=
  decide (value.length ≤ 63) &&
    match value.data with
    | [] => true
    | c :: cs =>
      isAlphaNumeric c && isAlphaNumeric (cs.getLastD c) && (c :: cs).all isLabelValueChar

/-- A label selector over the single key `GroupNameLabelKey`, as
`labels.SelectorFromSet` builds it: the requirement "the label is present with this
value", or the selector without requirement. -/
inductive Selector where
  | everything
  | groupNameEquals (value : String)
deriving DecidableEq, Repr

/-- `labels.SelectorFromSet` of the library `k8s.io/apimachinery`, applied to the set
with the single pair `GroupNameLabelKey: name`: `NewRequirement` validates key and value,
and when it fails the selector without requirement is returned in place of an error.  The key is a constant and
a valid qualified name, so `NewRequirement` fails exactly when `name` is not a valid label
value. -/
def SelectorFromSet (name : String) : Selector :=
  if IsValidLabelValue name then Selector.groupNameEquals name else Selector.everything

/-- `Selector.Matches` on the labels of a pod: the selector without requirement matches
every pod, the requirement matches the pods that have the label with that value.  The
API server applies the string form of the selector (`selector.String()`, empty for the
selector without requirement) in the same way. -/
def Selector.Matches (selector : Selector) (pod : Pod) : Bool :=
  match selector with
  | Selector.everything => true
  | Selector.groupNameEquals value => pod.Labels.lookup GroupNameLabelKey == some value

/-- The selector built by `labels.SelectorFromSet` from the single pair
`GroupNameLabelKey: name`, applied to a pod. -/
def selectorMatches (name : String) (pod : Pod) : Bool :=
  (SelectorFromSet name).Matches pod

/-- `SnapshotSharedLister().Pods().FilteredList(filter, selector)`. -/
def FrameworkHandle.FilteredList (h : FrameworkHandle) (filter : Pod → Bool) (name : String) :
    Except String (List Pod) :=
  match h.snapshotPods with
  | Except.ok pods => Except.ok (pods.filter (fun pod => filter pod && selectorMatches name pod))
  | Except.error err => Except.error err

/-- `ClientSet().CoreV1().Pods(ns).List` with the label selector of `name` and
the field selector `metadata.namespace=ns`. -/
def FrameworkHandle.ListPods (h : FrameworkHandle) (ns name : String) :
    Except String (List Pod) :=
  match h.clientPods with
  | Except.ok pods =>
    Except.ok (pods.filter (fun pod => pod.Namespace == ns && selectorMatches name pod))
  | Except.error err => Except.error err

end framework

open framework

/-! ## `pkg/plugins/gang` -/

/-- Plugin name `Name` of `gang.go`. -/
def gangName : String := "Gang"

/-- Constant `preFilterKey` of `gang.go`. -/
def preFilterKey : String := "preFilter" ++ gangName

/-- `time.Second`, in nanoseconds (the unit of `time.Duration`). -/
def timeSecond : Nat := 1000000000

/-- `Gang` of `gang.go`; the lister is `PodGroups(namespace).Get(name)`. -/
structure Gang where
  PodGroupLister : String → String → Except String PodGroup
  Handle : FrameworkHandle

/-- Go map read `pod.Labels[GroupNameLabelKey]`: the empty string when the label is
absent. -/
def groupLabelValue (pod : Pod) : String :=
  (pod.Labels.lookup GroupNameLabelKey).getD ""

/-- `getPodGroup` of `gang.go`. -/
def Gang.getPodGroup (g : Gang) (ns name : String) : Except String PodGroup :=
  g.PodGroupLister ns name

/-- `Skip` of `gang.go`. -/
def Gang.Skip (_g : Gang) (pod : Pod) : Bool :=
  match pod.Labels.lookup GroupNameLabelKey with
  | some _ => false
  | none => true

/-- `getPreFilterStateData` of `gang.go`. -/
def getPreFilterStateData (cycleState : CycleState) : Except String PodGroup :=
  match cycleState.Read preFilterKey with
  | Except.error err => Except.error err
  | Except.ok (StateData.preFilterStateData pg) => Except.ok pg
  | Except.ok (StateData.other tag) =>
    Except.error (tag ++ " convert to *preFilterStateData error")

/-- `calcWaitingPods` of `gang.go`. -/
def Gang.calcWaitingPods (g : Gang) (ns name : String) : Int :=
  g.Handle.IterateOverWaitingPods
    (fun (replica : Int) pod =>
      if pod.Namespace = ns ∧ groupLabelValue pod = name then replica + 1 else replica)
    1

/-- `calcRunningPods` of `gang.go`. -/
def Gang.calcRunningPods (g : Gang) (ns name : String) : Int :=
  match g.Handle.FilteredList
      (fun pod => pod.Namespace == ns &&
        (pod.Status.Phase == PodRunning || pod.Status.Phase == PodSucceeded)) name with
  | Except.error _ => 0
  | Except.ok pods => (pods.length : Int)

/-- `calcTotalPods` of `gang.go`. -/
def Gang.calcTotalPods (g : Gang) (ns name : String) : Int :=
  match g.Handle.ListPods ns name with
  | Except.error _ => 0
  | Except.ok pods => (pods.length : Int)

/-- `PreFilter` of `gang.go`: the returned status and the per-attempt state after the
call. -/
def Gang.PreFilter (g : Gang) (cycleState : CycleState) (pod : Pod) :
    Option Status × CycleState :=
  if pod.Labels.length = 0 then (none, cycleState)
  else
    match pod.Labels.lookup GroupNameLabelKey with
    | some pgName =>
      if pgName.length ≠ 0 then
        match g.getPodGroup pod.Namespace pgName with
        | Except.error err => (some (NewStatus Code.UnschedulableAndUnresolvable err), cycleState)
        | Except.ok pg =>
          if g.calcTotalPods pg.Namespace pg.Name < pg.Spec.MinMember then
            (some (NewStatus Code.UnschedulableAndUnresolvable
              ("The total pods of PodGroup " ++ pgName ++ " less than minMember " ++
                toString pg.Spec.MinMember)), cycleState)
          else (none, cycleState.Write preFilterKey (StateData.preFilterStateData pg))
      else (none, cycleState)
    | none => (none, cycleState)

/-- What a `Permit` call returns and does: the status, the timeout (nanoseconds) and the
parked pods on which it called `Allow`. -/
structure PermitResult where
  status : Option Status
  timeout : Nat
  allowed : List Pod
deriving DecidableEq, Repr

/-- `Permit` of `gang.go`. -/
def Gang.Permit (g : Gang) (cycleState : CycleState) (pod : Pod) : PermitResult :=
  if g.Skip pod then { status := none, timeout := 0, allowed := [] }
  else
    match getPreFilterStateData cycleState with
    | Except.error err =>
      { status := some (NewStatus Code.Error err), timeout := 0, allowed := [] }
    | Except.ok stateData =>
      let waitingPods := g.calcWaitingPods stateData.Namespace stateData.Name
      let runningPods := g.calcRunningPods stateData.Namespace stateData.Name
      if waitingPods + runningPods < stateData.Spec.MinMember then
        { status := some (NewStatus Code.Wait ""), timeout := 10 * timeSecond, allowed := [] }
      else
        { status := none
          timeout := 0
          allowed :=
            g.Handle.IterateOverWaitingPods
              (fun (allowed : List Pod) p =>
                if groupLabelValue p = stateData.Name then allowed ++ [p] else allowed)
              [] }

/-! ## `pkg/cache`: the group cache and its event handlers -/

/-- The argument of an event handler (Go `interface{}`): a pod, a group definition, a
`cache.DeletedFinalStateUnknown` wrapping another object, or a value of any other
type. -/
inductive Obj where
  | pod (pod : Pod)
  | podGroup (podGroup : PodGroup)
  | deletedFinalStateUnknown (key : String) (obj : Obj)
  | other (tag : String)

/-- `schedulerCache` of `cache.go`: the fields the handlers read and write.  `jobs` is the
Go map `map[api.JobID]*api.Job`; a write through the pointer `sc.jobs[id]` stores the
updated group under `id`.  The position of an entry in the list carries no meaning. -/
structure schedulerCache where
  schedulerName : String
  jobs : AList (fun _ : JobID => Job)

/-- What a handler leaves behind: the cache after the call and the error it reported
with `klog.Errorf`, if any. -/
abbrev HandlerResult := schedulerCache × Option String

/-- `getJobID` of `event_handlers.go`. -/
def getJobID (podGroup : PodGroup) : JobID :=
  podGroup.Namespace ++ "/" ++ podGroup.Name

/-- `getOrCreateJob` of `event_handlers.go`: the cache after the call and the group the
returned pointer refers to (`none` for the nil pointer); the group is stored under
`task.Job`. -/
def schedulerCache.getOrCreateJob (sc : schedulerCache) (task : Task) :
    schedulerCache × Option Job :=
  if task.Job.length = 0 then (sc, none)
  else
    match sc.jobs.lookup task.Job with
    | some job => (sc, some job)
    | none =>
      ({ sc with jobs := sc.jobs.insert task.Job (NewJob task.Job []) },
        some (NewJob task.Job []))

/-- `addTask` of `event_handlers.go`. -/
def schedulerCache.addTask (sc : schedulerCache) (task : Task) : HandlerResult :=
  match sc.getOrCreateJob task with
  | (sc1, some job) => ({ sc1 with jobs := sc1.jobs.insert task.Job (job.AddTask task) }, none)
  | (sc1, none) => (sc1, none)

/-- `addPod` of `event_handlers.go`. -/
def schedulerCache.addPod (sc : schedulerCache) (pod : Pod) : HandlerResult :=
  sc.addTask (NewTask pod)

/-- `deleteTask` of `event_handlers.go`. -/
def schedulerCache.deleteTask (sc : schedulerCache) (task : Task) : HandlerResult :=
  if task.Job.length ≠ 0 then
    match sc.jobs.lookup task.Job with
    | some job => ({ sc with jobs := sc.jobs.insert task.Job (job.DeleteTask task) }, none)
    | none =>
      (sc, some ("failed to find Job <" ++ task.Job ++ "> for Task " ++ task.Namespace ++
        "/" ++ task.Name))
  else (sc, none)

/-- `deletePod` of `event_handlers.go`: the tracked task with the same id, if the group
of the pod has one, replaces the freshly built task. -/
def schedulerCache.deletePod (sc : schedulerCache) (pod : Pod) : HandlerResult :=
  let task := NewTask pod
  let task :=
    match sc.jobs.lookup task.Job with
    | some job =>
      match job.Tasks.lookup task.UID with
      | some t => t
      | none => task
    | none => task
  sc.deleteTask task

/-- `updatePod` of `event_handlers.go`. -/
def schedulerCache.updatePod (sc : schedulerCache) (oldPod newPod : Pod) : HandlerResult :=
  match sc.deletePod oldPod with
  | (sc1, some err) => (sc1, some err)
  | (sc1, none) => sc1.addPod newPod

/-- `setPodGroup` of `event_handlers.go`. -/
def schedulerCache.setPodGroup (sc : schedulerCache) (podGroup : PodGroup) : schedulerCache :=
  let job := getJobID podGroup
  let sc1 : schedulerCache :=
    match sc.jobs.lookup job with
    | some _ => sc
    | none => { sc with jobs := sc.jobs.insert job (NewJob job []) }
  match sc1.jobs.lookup job with
  | some j => { sc1 with jobs := sc1.jobs.insert job (j.SetPodGroup podGroup) }
  | none => sc1

/-- `deletePodGroup` of `event_handlers.go`. -/
def schedulerCache.deletePodGroup (sc : schedulerCache) (jobID : JobID) : HandlerResult :=
  match sc.jobs.lookup jobID with
  | none => (sc, some ("cannot found job: " ++ jobID))
  | some job => ({ sc with jobs := sc.jobs.insert jobID job.UnsetPodGroup }, none)

/-- `AddPod` of `event_handlers.go`. -/
def schedulerCache.AddPod (sc : schedulerCache) (obj : Obj) : HandlerResult :=
  match obj with
  | Obj.pod pod => sc.addPod pod
  | _ => (sc, some "Cannot convert to *v1.Pod")

/-- `UpdatePod` of `event_handlers.go`. -/
def schedulerCache.UpdatePod (sc : schedulerCache) (oldObj newObj : Obj) : HandlerResult :=
  match oldObj with
  | Obj.pod oldPod =>
    match newObj with
    | Obj.pod newPod =>
      if oldPod.ResourceVersion = newPod.ResourceVersion then (sc, none)
      else sc.updatePod oldPod newPod
    | _ => (sc, some "Cannot convert newObj to *v1.Pod")
  | _ => (sc, some "Cannot convert oldObj to *v1.Pod")

/-- `DeletePod` of `event_handlers.go`. -/
def schedulerCache.DeletePod (sc : schedulerCache) (obj : Obj) : HandlerResult :=
  match obj with
  | Obj.pod pod => sc.deletePod pod
  | Obj.deletedFinalStateUnknown _ (Obj.pod pod) => sc.deletePod pod
  | _ => (sc, some "Cannot convert to *v1.Pod")

/-- `AddPodGroup` of `event_handlers.go`. -/
def schedulerCache.AddPodGroup (sc : schedulerCache) (obj : Obj) : HandlerResult :=
  match obj with
  | Obj.podGroup podGroup => (sc.setPodGroup podGroup, none)
  | _ => (sc, some "Cannot convert to *schedulingv1.PodGroup")

/-- `UpdatePodGroup` of `event_handlers.go`. -/
def schedulerCache.UpdatePodGroup (sc : schedulerCache) (oldObj newObj : Obj) :
    HandlerResult :=
  match oldObj with
  | Obj.podGroup oldPg =>
    match newObj with
    | Obj.podGroup newPg =>
      if oldPg.ResourceVersion = newPg.ResourceVersion then (sc, none)
      else (sc.setPodGroup newPg, none)
    | _ => (sc, some "Cannot convert newObj to *schedulingv1.PodGroup")
  | _ => (sc, some "Cannot convert oldObj to *schedulingv1.PodGroup")

/-- `DeletePodGroup` of `event_handlers.go`. -/
def schedulerCache.DeletePodGroup (sc : schedulerCache) (obj : Obj) : HandlerResult :=
  match obj with
  | Obj.podGroup podGroup => sc.deletePodGroup (getJobID podGroup)
  | Obj.deletedFinalStateUnknown _ (Obj.podGroup podGroup) =>
    sc.deletePodGroup (getJobID podGroup)
  | _ => (sc, some "Cannot convert to *schedulingv1.PodGroup")

/-- The cache built by `NewSchedulerCache`: no group is tracked. -/
def NewSchedulerCache (schedulerName : String) : schedulerCache :=
  { schedulerName := schedulerName, jobs := ∅ }

/-! ## `pkg/cache`: the reconciliation step -/

/-- Constant `PodGroupPending` of `types.go`. -/
def PodGroupPending : String := "Pending"
/-- Constant `PodGroupRunning` of `types.go`. -/
def PodGroupRunning : String := "Running"
/-- Constant `PodGroupUnschedulable` of `types.go`. -/
def PodGroupUnschedulable : String := "Unschedulable"
/-- Constant `PodGroupScheduled` of `types.go`. -/
def PodGroupScheduled : String := "Scheduled"

/-- `removePodGroupCondition` of `event_handlers.go`. -/
def removePodGroupCondition : List PodGroupCondition → String → List PodGroupCondition
  | [], _ => []
  | cond :: conditions, conditionType =>
    if cond.CondType = conditionType then removePodGroupCondition conditions conditionType
    else cond :: removePodGroupCondition conditions conditionType

/-- Go `strings.Split(key, "/")` on the characters of the key. -/
def splitSlash : List Char → List (List Char)
  | [] => [[]]
  | c :: cs =>
    if c = '/' then [] :: splitSlash cs
    else
      match splitSlash cs with
      | [] => [[c]]
      | part :: parts => (c :: part) :: parts

/-- `cache.SplitMetaNamespaceKey` of client-go. -/
def SplitMetaNamespaceKey (key : String) : Except String (String × String) :=
  match splitSlash key.data with
  | [name] => Except.ok ("", String.mk name)
  | [ns, name] => Except.ok (String.mk ns, String.mk name)
  | _ => Except.error ("unexpected key format: " ++ key)

/-- The tasks of a bucket of the status index (none for an absent bucket), as
`for _, task := range job.TaskStatusIndex[status]` visits them. -/
def Job.bucketTasks (job : Job) (status : TaskStatus) : List Task :=
  match job.TaskStatusIndex status with
  | some tasks => tasks.entries.map (fun e => e.2)
  | none => []

/-- Go `len(job.TaskStatusIndex[status])`: zero for an absent bucket. -/
def Job.bucketLen (job : Job) (status : TaskStatus) : Nat :=
  match job.TaskStatusIndex status with
  | some tasks => taskMap.len tasks
  | none => 0

/-- The `Unschedulable` condition built by `syncPodGroupStatus`. -/
def unschedulableCondition (tasks : List String) (now : Nat) : PodGroupCondition :=
  { CondType := PodGroupUnschedulable
    Reason := "Unschedulable"
    Status := ConditionTrue
    TransitionID := ""
    LastTransitionTime := now
    Message := "There are `" ++ String.intercalate "," tasks ++
      "` tasks which are unschedulable" }

/-- The `Scheduled` condition built by `syncPodGroupStatus`. -/
def scheduledCondition (now : Nat) : PodGroupCondition :=
  { CondType := PodGroupScheduled
    Reason := "Scheduled"
    Status := ConditionTrue
    TransitionID := ""
    LastTransitionTime := now
    Message := "PodGroup can be scheduled" }

/-- The status recomputed by the body of the loop of `syncPodGroupStatus` (`cache.go`,
lines 148 to 186) from the group and the status of the fetched definition; `now` is the
reading of the clock (`metav1.Now()`). -/
def recomputeStatus (job : Job) (fetched : PodGroupStatus) (now : Nat) : PodGroupStatus :=
  let status1 : PodGroupStatus :=
    if job.bucketLen Unschedulable > 0 then
      { fetched with
        Conditions :=
          removePodGroupCondition fetched.Conditions PodGroupUnschedulable ++
            [unschedulableCondition ((job.bucketTasks Unschedulable).map (fun t => t.Name)) now] }
    else fetched
  let status2 : PodGroupStatus :=
    if job.Ready then
      { status1 with
        Phase := PodGroupRunning
        Conditions :=
          removePodGroupCondition
            (removePodGroupCondition status1.Conditions PodGroupUnschedulable)
            PodGroupScheduled ++ [scheduledCondition now] }
    else
      { status1 with
        Phase := PodGroupPending
        Conditions := if taskMap.len job.Tasks = 0 then [] else status1.Conditions }
  { status2 with
    Running := (job.bucketLen Running : Nat)
    Succeeded := (job.bucketLen Succeeded : Nat)
    Failed := (job.bucketLen Failed : Nat) }

/-- What one iteration of the loop of `syncPodGroupStatus` does for a group: it skips
the group after a failed key split or lookup, finds the recomputed status equal to
`job.PodGroup.Status`, assigns the recomputed status `status` to the fetched definition
`fetched` and calls `Update` with it in the namespace `ns`, or dereferences the nil
`job.PodGroup`. -/
inductive SyncOutcome where
  | skipped (err : String)
  | unchanged
  | writeBack (ns : String) (fetched : PodGroup) (status : PodGroupStatus)
  | nilDereference
deriving DecidableEq, Repr

/-- The lister `PodGroups(namespace).Get(name)`. -/
abbrev PodGroupGetter := String → String → Except String PodGroup

/-- One iteration of the loop of `syncPodGroupStatus`; `reflect.DeepEqual` on two
statuses is equality of the values.  The error `Update` may return is only logged and
changes nothing, so it is not part of the outcome. -/
def syncJob (lister : PodGroupGetter) (now : Nat) (jobID : JobID) (job : Job) : SyncOutcome :=
  match SplitMetaNamespaceKey jobID with
  | Except.error err => SyncOutcome.skipped err
  | Except.ok (ns, name) =>
    match lister ns name with
    | Except.error err => SyncOutcome.skipped err
    | Except.ok podGroup =>
      let status := recomputeStatus job podGroup.Status now
      match job.PodGroup with
      | none => SyncOutcome.nilDereference
      | some jobPodGroup =>
        if status ≠ jobPodGroup.Status then SyncOutcome.writeBack job.Namespace podGroup status
        else SyncOutcome.unchanged

/-- The objects a run of `syncPodGroupStatus` works on and what it has done so far: the
cache, the lister, the outcomes of the iterations and whether the run has crashed on a
nil dereference.  `shared` tells whether a group whose definition reference equals the
fetched definition refers to the very object the lister holds, as it does when the
reference was set from the object the informer stores. -/
structure SyncRun where
  shared : Bool
  cache : schedulerCache
  lister : PodGroupGetter
  outcomes : List (JobID × SyncOutcome)
  crashed : Bool

/-- The lister after the assignment `podGroup.Status = status` to the object it holds
for `ns` and `name`. -/
def assignStatus (lister : PodGroupGetter) (ns name : String) (status : PodGroupStatus) :
    PodGroupGetter :=
  fun ns1 name1 =>
    if ns1 = ns ∧ name1 = name then
      match lister ns1 name1 with
      | Except.ok podGroup => Except.ok { podGroup with Status := status }
      | Except.error err => Except.error err
    else lister ns1 name1

/-- The effect of a write-back on the objects: the assignment `podGroup.Status = status`
changes the object the lister holds, and the group sees the new status as well when its
definition reference is that same object. -/
def assignFetched (run : SyncRun) (jobID : JobID) (job : Job) (fetched : PodGroup)
    (status : PodGroupStatus) : SyncRun :=
  match SplitMetaNamespaceKey jobID with
  | Except.ok (ns, name) =>
    { run with
      lister := assignStatus run.lister ns name status
      cache :=
        if run.shared ∧ job.PodGroup = some fetched then
          { run.cache with
            jobs := run.cache.jobs.insert jobID
              { job with PodGroup := some { fetched with Status := status } } }
        else run.cache }
  | Except.error _ => run

/-- One iteration of the loop of `syncPodGroupStatus` together with its effect on the
objects; a nil dereference ends the run. -/
def syncIteration (now : Nat) (run : SyncRun) (entry : Sigma fun _ : JobID => Job) : SyncRun :=
  if run.crashed then run
  else
    match syncJob run.lister now entry.1 entry.2 with
    | SyncOutcome.nilDereference =>
      { run with
        outcomes := run.outcomes ++ [(entry.1, SyncOutcome.nilDereference)]
        crashed := true }
    | SyncOutcome.writeBack ns fetched status =>
      assignFetched
        { run with
          outcomes := run.outcomes ++ [(entry.1, SyncOutcome.writeBack ns fetched status)] }
        entry.1 entry.2 fetched status
    | outcome => { run with outcomes := run.outcomes ++ [(entry.1, outcome)] }

/-- `syncPodGroupStatus` of `cache.go`: the loop over the tracked groups. -/
def syncPodGroupStatus (shared : Bool) (sc : schedulerCache) (lister : PodGroupGetter)
    (now : Nat) : SyncRun :=
  sc.jobs.entries.foldl (syncIteration now)
    { shared := shared, cache := sc, lister := lister, outcomes := [], crashed := false }

/-! ## Notions used to state the properties -/

/-- The entry of task id `k` in bucket `s` of the status index, if the bucket exists
and has one (Go `job.TaskStatusIndex[s][k]`). -/
def Job.bucketEntry (job : Job) (s : TaskStatus) (k : TaskID) : Option Task :=
  match job.TaskStatusIndex s with
  | some tasks => tasks.lookup k
  | none => none

/-- The status index is a status-partition of the member mapping: every member is in
the bucket of its current status, in no other bucket, and every bucket entry is a
member. -/
structure Job.StatusPartition (job : Job) : Prop where
  member_in_bucket : ∀ k t, job.Tasks.lookup k = some t → job.bucketEntry t.Status k = some t
  member_in_no_other : ∀ k t s, job.Tasks.lookup k = some t → s ≠ t.Status →
    job.bucketEntry s k = none
  entry_is_member : ∀ s k t, job.bucketEntry s k = some t → job.Tasks.lookup k = some t

/-- The member mapping is keyed by task id: every task is stored under its own `UID`. -/
def Job.KeyedByUID (job : Job) : Prop :=
  ∀ k t, job.Tasks.lookup k = some t → t.UID = k

/-- Number of members whose status satisfies `sel`, counted on the member mapping. -/
def Job.countMembers (job : Job) (sel : TaskStatus → Bool) : Nat :=
  job.Tasks.entries.countP (fun e => sel e.2.Status)

/-- The statuses counted by `ValidTaskNum`, as the data model lists them. -/
def validStatuses : List TaskStatus := [Bound, Running, Succeeded, Pending]

/-- The statuses counted by `ReadyTaskNum`, as the data model lists them. -/
def readyStatuses : List TaskStatus := [Bound, Running, Succeeded]

/-- A pod satisfies the "cannot be scheduled" condition when one of its conditions has
type `PodScheduled`, status `False` and reason `Unschedulable`. -/
def HasUnschedulableCondition (pod : Pod) : Prop :=
  ∃ c ∈ pod.Status.Conditions,
    c.CondType = PodScheduled ∧ c.Status = ConditionFalse ∧ c.Reason = PodReasonUnschedulable

/-- The pod carries the group label with the value `name`. -/
def carriesGroupLabel (name : String) (pod : Pod) : Bool :=
  pod.Labels.lookup GroupNameLabelKey == some name

/-- The count `waitingPods` of the Permit decision, in the words of the specification:
one (the current pod) plus the number of parked pods in the namespace of the group that
carry the label of the group. -/
def specWaitingPods (h : FrameworkHandle) (pg : PodGroup) : Int :=
  1 + (h.waitingPods.countP
    (fun p => decide (p.Namespace = pg.Namespace) && carriesGroupLabel pg.Name p) : Nat)

/-- The count `runningPods` of the Permit decision, in the words of the specification:
the number of snapshot pods in the namespace of the group that carry its label and whose
phase is Running or Succeeded.  A failed listing shows no pod. -/
def specRunningPods (h : FrameworkHandle) (pg : PodGroup) : Int :=
  match h.snapshotPods with
  | Except.ok pods =>
    (pods.countP (fun p => decide (p.Namespace = pg.Namespace) && carriesGroupLabel pg.Name p &&
      decide (p.Status.Phase = PodRunning ∨ p.Status.Phase = PodSucceeded)) : Nat)
  | Except.error _ => 0

/-- The host parks a pod in the waiting pool. -/
def Gang.park (g : Gang) (pod : Pod) : Gang :=
  { g with Handle := { g.Handle with waitingPods := g.Handle.waitingPods ++ [pod] } }

/-- The result of a `Permit` call is the status `Wait`. -/
def PermitResult.isWait (r : PermitResult) : Bool :=
  match r.status with
  | some st => st.code == Code.Wait
  | none => false

/-- The scenario of pods calling `Permit` one after another, each with its own
per-attempt state: the host parks every pod that receives `Wait` in the waiting pool
before the next call.  Returns the results of the calls in order. -/
def permitInTurn (g : Gang) : List (CycleState × Pod) → List PermitResult
  | [] => []
  | call :: rest =>
    let r := g.Permit call.1 call.2
    r :: permitInTurn (if r.isWait then g.park call.2 else g) rest

/-- The result of a `Permit` call that makes the pod wait. -/
def waitResult : PermitResult :=
  { status := some (NewStatus Code.Wait ""), timeout := 10 * timeSecond, allowed := [] }

/-- The group tracked under `id`, or the empty group `NewJob(id)` the handlers create
when none is tracked. -/
def schedulerCache.jobOrNew (sc : schedulerCache) (id : JobID) : Job :=
  match sc.jobs.lookup id with
  | some job => job
  | none => NewJob id []

/-- Every tracked task is stored under its own id in the group whose id it records:
a task found under key `k` in the group tracked under `id` has `UID = k` and
`Job = id`.  The handlers only store tasks this way. -/
def schedulerCache.TasksWellKeyed (sc : schedulerCache) : Prop :=
  ∀ id job k t, sc.jobs.lookup id = some job → job.Tasks.lookup k = some t →
    t.UID = k ∧ t.Job = id

/-! ## Concrete values used in examples -/

/-- A pod named `name` in namespace `ns` with the given phase, placement and deletion
marker, carrying the group label `g1`. -/
def examplePod (name phase node : String) (deleted : Option Nat) : Pod :=
  { UID := name
    Name := name
    Namespace := "ns"
    ResourceVersion := "1"
    Labels := [(GroupNameLabelKey, "g1")]
    DeletionTimestamp := deleted
    Spec := { NodeName := node, SchedulerName := "coscheduler" }
    Status := { Phase := phase, Conditions := [] } }

/-- A pending pod without placement that carries an unschedulable condition and,
optionally, a deletion marker. -/
def exampleUnschedulablePod (deleted : Option Nat) : Pod :=
  { examplePod "u" PodPending "" deleted with
    Status :=
      { Phase := PodPending
        Conditions :=
          [{ CondType := PodScheduled, Status := ConditionFalse,
             Reason := PodReasonUnschedulable }] } }

/-- A task of group `ns/g1` with id `uid` and status `s`. -/
def exampleTask (uid : String) (s : TaskStatus) : Task :=
  { UID := uid
    Job := "ns/g1"
    Name := uid
    Namespace := "ns"
    Status := s
    NodeName := ""
    Pod := examplePod uid PodPending "" none }

/-- A group definition `ns/g1` with the given quorum. -/
def examplePodGroup (minMember : Int) : PodGroup :=
  { Name := "g1"
    Namespace := "ns"
    ResourceVersion := "1"
    CreationTimestamp := 0
    Spec := { MinMember := minMember }
    Status := { Phase := "", Conditions := [], Running := 0, Succeeded := 0, Failed := 0 } }

/-- The group of the `Ready` example: quorum 3, two members `Bound`, one `Running`, one
`Failed`. -/
def exampleReadyJob : Job :=
  (NewJob "ns/g1" [exampleTask "a" Bound, exampleTask "b" Bound, exampleTask "c" Running,
    exampleTask "d" Failed]).SetPodGroup (examplePodGroup 3)

/-- A group with the single member `a`, which is `Pending`. -/
def exampleSingletonJob : Job := NewJob "ns/g1" [exampleTask "a" Pending]

/-- A group with an empty member mapping whose index holds an empty `Pending` bucket. -/
def exampleEmptyBucketJob : Job :=
  { NewJob "ns/g1" [] with
    TaskStatusIndex := fun s => if s = Pending then some ∅ else none }

/-- A group whose only member is stored under the key `a` although its `UID` is `b`. -/
def exampleMiskeyedJob : Job :=
  { NewJob "ns/g1" [] with
    Tasks := AList.singleton "a" (exampleTask "b" Running)
    TaskStatusIndex := fun s =>
      if s = Running then some (AList.singleton "a" (exampleTask "b" Running)) else none }

/-- The group obtained from an empty one by adding task `a` as `Running` and then
adding the same id again as `Pending`, without a delete in between. -/
def exampleDoubleAddJob : Job :=
  NewJob "ns/g1" [exampleTask "a" Running, exampleTask "a" Pending]

/-- The per-attempt state after a successful PreFilter for the group definition. -/
def exampleState (pg : PodGroup) : CycleState :=
  { storage := [(preFilterKey, StateData.preFilterStateData pg)] }

/-- A plugin instance whose lister knows the group `ns/g1` with the given quorum, with the
given waiting pool, an empty placement snapshot and the given pods at the API server. -/
def exampleGang (minMember : Int) (parked known : List Pod) : Gang :=
  { PodGroupLister := fun ns name =>
      if ns = "ns" ∧ name = "g1" then Except.ok (examplePodGroup minMember)
      else Except.error "not found"
    Handle :=
      { waitingPods := parked
        snapshotPods := Except.ok []
        clientPods := Except.ok known } }

/-- Pending pod A of group `ns/g1`. -/
def podA : Pod := examplePod "A" PodPending "" none

/-- Pending pod B of group `ns/g1`. -/
def podB : Pod := examplePod "B" PodPending "" none

/-- Pending pod C of group `ns/g1`. -/
def podC : Pod := examplePod "C" PodPending "" none

/-- Pod A of group `ns/g1` in phase Running, placed on `node1`, at version `2`. -/
def podARunning : Pod :=
  { examplePod "A" PodRunning "node1" none with ResourceVersion := "2" }

/-- A pod with the id of pod A that carries no label. -/
def podAUnlabelled : Pod :=
  { examplePod "A" PodPending "" none with Labels := [] }

/-- The cache after the add event of the pending pod A: group `ns/g1` tracks A as
`Pending`. -/
def exampleCacheWithA : schedulerCache :=
  ((NewSchedulerCache "coscheduler").AddPod (Obj.pod podA)).1

/-- The group `ns/g1` of `exampleCacheWithA`: its only member is pod A, `Pending`. -/
def exampleJobWithA : Job := (NewJob "ns/g1" []).AddTask (NewTask podA)

/-- A group with quorum 5 built by adding `b` as `Unschedulable`, adding the id `a` as
`Unschedulable` and again as `Pending`, and deleting `a`: the only member is `b`, and
the `Unschedulable` bucket still holds an entry for `a`. -/
def exampleStaleEntryJob : Job :=
  (Job.DeleteTask
    (NewJob "ns/g1" [exampleTask "b" Unschedulable, exampleTask "a" Unschedulable,
      exampleTask "a" Pending])
    (exampleTask "a" Pending)).SetPodGroup (examplePodGroup 5)

/-- A group with quorum 5 built by adding the id `a` as `Unschedulable` and again as
`Pending` and deleting `a`: it has no member, and the `Unschedulable` bucket still holds
an entry for `a`. -/
def exampleStaleOnlyJob : Job :=
  (Job.DeleteTask
    (NewJob "ns/g1" [exampleTask "a" Unschedulable, exampleTask "a" Pending])
    (exampleTask "a" Pending)).SetPodGroup (examplePodGroup 5)

/-- A lister that knows the definition `ns/g1` with the given quorum. -/
def exampleLister (minMember : Int) : PodGroupGetter :=
  fun ns name =>
    if ns = "ns" ∧ name = "g1" then Except.ok (examplePodGroup minMember)
    else Except.error "not found"

/-- The cache after the add events of the running pod A and of the definition `ns/g1`
with quorum 1: the group is ready. -/
def exampleReadyCache : schedulerCache :=
  (((NewSchedulerCache "coscheduler").AddPod (Obj.pod podARunning)).1.AddPodGroup
    (Obj.podGroup (examplePodGroup 1))).1

/-- The status written back for `exampleReadyCache` by a run at clock reading `now`. -/
def exampleReadyStatus (now : Nat) : PodGroupStatus :=
  { Phase := PodGroupRunning
    Conditions := [scheduledCondition now]
    Running := 1
    Succeeded := 0
    Failed := 0 }

/-! ## Sequences of calls and events -/

/-- A call of one of the three operations that change the members of a group. -/
inductive JobCall where
  | AddTask (task : Task)
  | DeleteTask (task : Task)
  | UpdateTaskStatus (task : Task) (status : TaskStatus)

/-- The group after one call. -/
def Job.call (job : Job) : JobCall → Job
  | JobCall.AddTask task => job.AddTask task
  | JobCall.DeleteTask task => job.DeleteTask task
  | JobCall.UpdateTaskStatus task status => job.UpdateTaskStatus task status

/-- The group after a sequence of calls. -/
def Job.calls (job : Job) (calls : List JobCall) : Job :=
  calls.foldl Job.call job

/-- No bucket present in the status index is empty. -/
def Job.NoEmptyBucket (job : Job) : Prop :=
  ∀ s tasks, job.TaskStatusIndex s = some tasks → taskMap.len tasks ≠ 0

/-- An event delivered to one of the six handlers of the cache. -/
inductive Event where
  | AddPod (obj : Obj)
  | UpdatePod (oldObj newObj : Obj)
  | DeletePod (obj : Obj)
  | AddPodGroup (obj : Obj)
  | UpdatePodGroup (oldObj newObj : Obj)
  | DeletePodGroup (obj : Obj)

/-- The handler of the event applied to the cache. -/
def schedulerCache.handle (sc : schedulerCache) : Event → HandlerResult
  | Event.AddPod obj => sc.AddPod obj
  | Event.UpdatePod oldObj newObj => sc.UpdatePod oldObj newObj
  | Event.DeletePod obj => sc.DeletePod obj
  | Event.AddPodGroup obj => sc.AddPodGroup obj
  | Event.UpdatePodGroup oldObj newObj => sc.UpdatePodGroup oldObj newObj
  | Event.DeletePodGroup obj => sc.DeletePodGroup obj

/-- The cache after a sequence of events, handled one after another. -/
def schedulerCache.handleAll (sc : schedulerCache) (events : List Event) : schedulerCache :=
  events.foldl (fun s e => (s.handle e).1) sc

/-- Task id `k` is in the member mapping of the group tracked under `id`. -/
def schedulerCache.MemberOf (sc : schedulerCache) (k : TaskID) (id : JobID) : Prop :=
  ∃ job t, sc.jobs.lookup id = some job ∧ job.Tasks.lookup k = some t

/-- Exclusive ownership: each task id is in the member mapping of at most one group. -/
def schedulerCache.ExclusiveOwnership (sc : schedulerCache) : Prop :=
  ∀ k id1 id2, sc.MemberOf k id1 → sc.MemberOf k id2 → id1 = id2

/-- The event does not hand a task id to a second group: a task-add event is for an id
that is a member of no group other than the group of the added snapshot, and the new id
of a task-update event is a member of no group other than the group of the new snapshot
and, when the old snapshot has the same id and a group, the group of the old snapshot.
Every other event qualifies. -/
def schedulerCache.KeepsOwner (sc : schedulerCache) : Event → Prop
  | Event.AddPod (Obj.pod pod) => ∀ id, sc.MemberOf pod.UID id → id = GetJobID pod
  | Event.UpdatePod (Obj.pod oldPod) (Obj.pod newPod) =>
    ∀ id, sc.MemberOf newPod.UID id →
      id = GetJobID newPod ∨
        (id = GetJobID oldPod ∧ oldPod.UID = newPod.UID ∧ GetJobID oldPod ≠ "")
  | _ => True

/-- Every event of the sequence keeps the owner in the cache state it is handled in. -/
def schedulerCache.KeepsOwnerAll (sc : schedulerCache) : List Event → Prop
  | [] => True
  | e :: events => sc.KeepsOwner e ∧ schedulerCache.KeepsOwnerAll (sc.handle e).1 events

/-- Pod A relabelled to group `g2`. -/
def podAOtherGroup : Pod :=
  { examplePod "A" PodPending "" none with Labels := [(GroupNameLabelKey, "g2")] }

/-- A pending pod whose group label is present with an empty value. -/
def podEmptyLabel : Pod :=
  { examplePod "E" PodPending "" none with Labels := [(GroupNameLabelKey, "")] }

/-- A pending pod of namespace `other` that carries the label `g1`. -/
def podOtherNamespace : Pod :=
  { examplePod "O" PodPending "" none with Namespace := "other" }

/-- The plugin instance `exampleGang minMember parked known` at a time when the listing
of the placement snapshot and the listing at the API server both fail. -/
def exampleGangListingFails (minMember : Int) (parked : List Pod) : Gang :=
  { PodGroupLister := (exampleGang minMember parked []).PodGroupLister
    Handle :=
      { waitingPods := parked
        snapshotPods := Except.error "timeout"
        clientPods := Except.error "timeout" } }

/-- Pod A relabelled to group `g2`, at a later resource version. -/
def podAMoved : Pod :=
  { podAOtherGroup with ResourceVersion := "2" }

/-! ## Observations on the group index operations -/

theorem bucketEntry_addTaskIndex (job : Job) (task : Task) (s : TaskStatus) (k : TaskID) :
    (job.addTaskIndex task).bucketEntry s k =
      if s = task.Status ∧ k = task.UID then some task else job.bucketEntry s k := by
  unfold Job.addTaskIndex Job.bucketEntry
  by_cases hs : s = task.Status
  · subst hs
    by_cases hk : k = task.UID
    · subst hk
      simp
    · cases hb : job.TaskStatusIndex task.Status <;>
        simp [hk, AList.lookup_insert_ne, -AList.insert_empty]
  · simp [hs, Function.update_noteq]

theorem tasks_addTaskIndex (job : Job) (task : Task) :
    (job.addTaskIndex task).Tasks = job.Tasks := rfl

theorem lookup_AddTask (job : Job) (task : Task) (k : TaskID) :
    (job.AddTask task).Tasks.lookup k =
      if k = task.UID then some task else job.Tasks.lookup k := by
  unfold Job.AddTask
  rw [tasks_addTaskIndex]
  by_cases hk : k = task.UID
  · subst hk
    simp
  · simp [hk, AList.lookup_insert_ne]

theorem bucketEntry_AddTask (job : Job) (task : Task) (s : TaskStatus) (k : TaskID) :
    (job.AddTask task).bucketEntry s k =
      if s = task.Status ∧ k = task.UID then some task else job.bucketEntry s k := by
  unfold Job.AddTask
  rw [bucketEntry_addTaskIndex]
  rfl

theorem taskMap_len_eq_zero (tasks : taskMap) :
    taskMap.len tasks = 0 ↔ ∀ k, tasks.lookup k = none := by
  unfold taskMap.len
  constructor
  · intro h k
    rw [AList.lookup_eq_none, AList.mem_keys, AList.keys]
    have : tasks.entries = [] := List.length_eq_zero.mp h
    simp [this, List.keys]
  · intro h
    rw [List.length_eq_zero, List.eq_nil_iff_forall_not_mem]
    intro e he
    have hk : e.1 ∈ tasks := by
      rw [AList.mem_keys, AList.keys, List.mem_keys]
      exact ⟨e.2, he⟩
    have := h e.1
    rw [AList.lookup_eq_none] at this
    exact this hk

theorem bucketEntry_deleteTaskIndex (job : Job) (task : Task) (s : TaskStatus) (k : TaskID) :
    (job.deleteTaskIndex task).bucketEntry s k =
      if s = task.Status ∧ k = task.UID then none else job.bucketEntry s k := by
  unfold Job.deleteTaskIndex
  cases hb : job.TaskStatusIndex task.Status with
  | none =>
    by_cases hs : s = task.Status
    · subst hs
      simp [Job.bucketEntry, hb]
    · simp [hs]
  | some tasks =>
    by_cases hs : s = task.Status
    · subst hs
      by_cases hk : k = task.UID
      · subst hk
        by_cases hl : taskMap.len (tasks.erase task.UID) = 0 <;>
          simp [Job.bucketEntry, hl, AList.lookup_erase]
      · by_cases hl : taskMap.len (tasks.erase task.UID) = 0
        · have h0 := (taskMap_len_eq_zero _).mp hl k
          rw [AList.lookup_erase_ne hk] at h0
          simp [Job.bucketEntry, hl, hk, hb, h0]
        · simp [Job.bucketEntry, hl, hk, hb, AList.lookup_erase_ne hk]
    · by_cases hl : taskMap.len (tasks.erase task.UID) = 0 <;>
        simp [Job.bucketEntry, hl, hs, Function.update_noteq]

theorem tasks_deleteTaskIndex (job : Job) (task : Task) :
    (job.deleteTaskIndex task).Tasks = job.Tasks := by
  unfold Job.deleteTaskIndex
  cases hb : job.TaskStatusIndex task.Status with
  | none => rfl
  | some tasks =>
    by_cases hl : taskMap.len (tasks.erase task.UID) = 0 <;> simp [hl]

theorem DeleteTask_of_not_member (job : Job) (task : Task)
    (h : job.Tasks.lookup task.UID = none) : job.DeleteTask task = job := by
  unfold Job.DeleteTask
  rw [h]

theorem lookup_DeleteTask (job : Job) (task : Task) (k : TaskID) :
    (job.DeleteTask task).Tasks.lookup k =
      if k = task.UID then none else job.Tasks.lookup k := by
  cases ht : job.Tasks.lookup task.UID with
  | none =>
    rw [DeleteTask_of_not_member job task ht]
    by_cases hk : k = task.UID
    · subst hk
      simp [ht]
    · simp [hk]
  | some t =>
    unfold Job.DeleteTask
    rw [ht]
    simp only [tasks_deleteTaskIndex]
    by_cases hk : k = task.UID
    · subst hk
      simp [AList.lookup_erase]
    · simp [hk, AList.lookup_erase_ne hk]

theorem bucketEntry_DeleteTask (job : Job) (task t : Task) (s : TaskStatus) (k : TaskID)
    (ht : job.Tasks.lookup task.UID = some t) :
    (job.DeleteTask task).bucketEntry s k =
      if s = t.Status ∧ k = t.UID then none else job.bucketEntry s k := by
  unfold Job.DeleteTask
  rw [ht]
  simp only [bucketEntry_deleteTaskIndex]
  rfl

theorem StatusPartition.status_eq {job : Job} (hp : job.StatusPartition) {s : TaskStatus}
    {k : TaskID} {t : Task} (h : job.bucketEntry s k = some t) : t.Status = s := by
  by_contra hne
  have hm := hp.entry_is_member s k t h
  have := hp.member_in_no_other k t s hm (fun e => hne e.symm)
  rw [h] at this
  cases this

theorem statusPartition_empty (job : Job) (hi : ∀ s, job.TaskStatusIndex s = none)
    (ht : job.Tasks = ∅) : job.StatusPartition := by
  constructor
  · intro k t h
    simp [ht] at h
  · intro k t s h
    simp [ht] at h
  · intro s k t h
    simp [Job.bucketEntry, hi] at h

theorem statusPartition_AddTask (job : Job) (task : Task) (hp : job.StatusPartition)
    (hpre : ∀ t, job.Tasks.lookup task.UID = some t → t.Status = task.Status) :
    (job.AddTask task).StatusPartition := by
  constructor
  · intro k t h
    rw [lookup_AddTask] at h
    rw [bucketEntry_AddTask]
    by_cases hk : k = task.UID
    · simp only [hk, if_true, Option.some.injEq] at h
      subst h
      simp [hk]
    · simp only [hk, if_false] at h
      simp [hk, hp.member_in_bucket k t h]
  · intro k t s h hs
    rw [lookup_AddTask] at h
    rw [bucketEntry_AddTask]
    by_cases hk : k = task.UID
    · simp only [hk, if_true, Option.some.injEq] at h
      subst h
      have hs1 : ¬ (s = task.Status ∧ k = task.UID) := fun e => hs e.1
      rw [if_neg hs1, hk]
      cases hb : job.bucketEntry s task.UID with
      | none => rfl
      | some t0 =>
        exfalso
        have hm := hp.entry_is_member s _ t0 hb
        have h1 := hpre t0 hm
        have h2 := StatusPartition.status_eq hp hb
        exact hs (h2.symm.trans h1)
    · simp only [hk, if_false] at h
      simp [hk, hp.member_in_no_other k t s h hs]
  · intro s k t h
    rw [bucketEntry_AddTask] at h
    rw [lookup_AddTask]
    by_cases hc : s = task.Status ∧ k = task.UID
    · rw [if_pos hc] at h
      simp [hc.2, h]
    · rw [if_neg hc] at h
      have hm := hp.entry_is_member s k t h
      by_cases hk : k = task.UID
      · exfalso
        subst hk
        have h1 := hpre t hm
        have h2 := StatusPartition.status_eq hp h
        exact hc ⟨h2.symm.trans h1, rfl⟩
      · simp [hk, hm]

theorem keyedByUID_AddTask (job : Job) (task : Task) (hk : job.KeyedByUID) :
    (job.AddTask task).KeyedByUID := by
  intro k t h
  rw [lookup_AddTask] at h
  by_cases hc : k = task.UID
  · simp only [hc, if_true, Option.some.injEq] at h
    rw [← h, hc]
  · simp only [hc, if_false] at h
    exact hk k t h

theorem keyedByUID_DeleteTask (job : Job) (task : Task) (hk : job.KeyedByUID) :
    (job.DeleteTask task).KeyedByUID := by
  intro k t h
  rw [lookup_DeleteTask] at h
  by_cases hc : k = task.UID
  · simp [hc] at h
  · simp only [hc, if_false] at h
    exact hk k t h

theorem statusPartition_DeleteTask (job : Job) (task : Task) (hp : job.StatusPartition)
    (hk : job.KeyedByUID) : (job.DeleteTask task).StatusPartition := by
  cases ht : job.Tasks.lookup task.UID with
  | none =>
    rw [DeleteTask_of_not_member job task ht]
    exact hp
  | some t0 =>
    have hu : t0.UID = task.UID := hk _ _ ht
    constructor
    · intro k t h
      rw [lookup_DeleteTask] at h
      rw [bucketEntry_DeleteTask job task t0 _ _ ht]
      by_cases hc : k = task.UID
      · simp [hc] at h
      · simp only [hc, if_false] at h
        have hc1 : ¬ (t.Status = t0.Status ∧ k = t0.UID) := fun e => hc (e.2.trans hu)
        rw [if_neg hc1]
        exact hp.member_in_bucket k t h
    · intro k t s h hs
      rw [lookup_DeleteTask] at h
      rw [bucketEntry_DeleteTask job task t0 _ _ ht]
      by_cases hc : k = task.UID
      · simp [hc] at h
      · simp only [hc, if_false] at h
        have hc1 : ¬ (s = t0.Status ∧ k = t0.UID) := fun e => hc (e.2.trans hu)
        rw [if_neg hc1]
        exact hp.member_in_no_other k t s h hs
    · intro s k t h
      rw [bucketEntry_DeleteTask job task t0 _ _ ht] at h
      rw [lookup_DeleteTask]
      by_cases hc : s = t0.Status ∧ k = t0.UID
      · rw [if_pos hc] at h
        cases h
      · rw [if_neg hc] at h
        have hm := hp.entry_is_member s k t h
        by_cases hc2 : k = task.UID
        · exfalso
          subst hc2
          rw [ht] at hm
          cases hm
          exact hc ⟨(StatusPartition.status_eq hp h).symm, hu.symm⟩
        · simp [hc2, hm]

theorem statusPartition_UpdateTaskStatus (job : Job) (task : Task) (status : TaskStatus)
    (hp : job.StatusPartition) (hk : job.KeyedByUID) :
    (job.UpdateTaskStatus task status).StatusPartition := by
  unfold Job.UpdateTaskStatus
  apply statusPartition_AddTask _ _ (statusPartition_DeleteTask job task hp hk)
  intro t h
  rw [lookup_DeleteTask] at h
  simp at h

theorem mem_entries_iff_lookup (tasks : taskMap) (e : Sigma fun _ : TaskID => Task) :
    e ∈ tasks.entries ↔ tasks.lookup e.1 = some e.2 := by
  have h := @AList.mem_lookup_iff _ _ _ e.1 e.2 tasks
  rw [Option.mem_def] at h
  exact h.symm

theorem bucket_len_eq_count (job : Job) (hp : job.StatusPartition) (s : TaskStatus) :
    (match job.TaskStatusIndex s with
      | some tasks => taskMap.len tasks
      | none => 0) = job.Tasks.entries.countP (fun e => e.2.Status == s) := by
  cases hb : job.TaskStatusIndex s with
  | none =>
    symm
    rw [List.countP_eq_zero]
    intro e he hs
    have hl := (mem_entries_iff_lookup _ e).mp he
    have hbk := hp.member_in_bucket _ _ hl
    have hs1 : e.2.Status = s := by simpa using hs
    rw [hs1] at hbk
    simp [Job.bucketEntry, hb] at hbk
  | some tasks =>
    show tasks.entries.length = _
    rw [List.countP_eq_length_filter]
    apply List.Perm.length_eq
    rw [List.perm_ext_iff_of_nodup tasks.nodupKeys.nodup
      (List.Nodup.filter _ job.Tasks.nodupKeys.nodup)]
    intro e
    rw [List.mem_filter, mem_entries_iff_lookup, mem_entries_iff_lookup]
    have hbe : job.bucketEntry s e.1 = tasks.lookup e.1 := by
      simp [Job.bucketEntry, hb]
    constructor
    · intro h
      rw [← hbe] at h
      exact ⟨hp.entry_is_member _ _ _ h, by simpa using StatusPartition.status_eq hp h⟩
    · intro h
      have hs1 : e.2.Status = s := by simpa using h.2
      rw [← hbe, ← hs1]
      exact hp.member_in_bucket _ _ h.1

theorem countP_status_cons (l : List (Sigma fun _ : TaskID => Task)) (sel : TaskStatus → Bool)
    (s : TaskStatus) (rest : List TaskStatus) (hs : s ∉ rest) :
    l.countP (fun e => sel e.2.Status && decide (e.2.Status ∈ s :: rest)) =
      (if sel s then l.countP (fun e => e.2.Status == s) else 0) +
        l.countP (fun e => sel e.2.Status && decide (e.2.Status ∈ rest)) := by
  induction l with
  | nil => simp
  | cons e l ih =>
    simp only [List.countP_cons, ih]
    by_cases h1 : e.2.Status = s
    · have h2 : e.2.Status ∉ rest := by
        rw [h1]
        exact hs
      by_cases h3 : sel s = true
      · simp [h1, h3, hs]
        omega
      · simp [h1, h3, hs]
    · by_cases h3 : sel s = true
      · simp [h1, h3]
        omega
      · simp [h1, h3]

theorem sumBuckets_eq_countP (job : Job) (hp : job.StatusPartition) (sel : TaskStatus → Bool)
    (statuses : List TaskStatus) (hn : statuses.Nodup) :
    job.sumBuckets sel statuses =
      job.Tasks.entries.countP (fun e => sel e.2.Status && decide (e.2.Status ∈ statuses)) := by
  induction statuses with
  | nil => simp [Job.sumBuckets]
  | cons s rest ih =>
    rw [List.nodup_cons] at hn
    rw [countP_status_cons _ sel s rest hn.1, ← ih hn.2, ← bucket_len_eq_count job hp s]
    conv_lhs => rw [Job.sumBuckets]
    cases hb : job.TaskStatusIndex s with
    | none => simp
    | some tasks =>
      by_cases h3 : sel s = true <;> simp [h3]

theorem sumBuckets_allStatuses (job : Job) (hp : job.StatusPartition) (sel : TaskStatus → Bool) :
    job.sumBuckets sel allStatuses = job.countMembers sel := by
  rw [sumBuckets_eq_countP job hp sel allStatuses (by decide)]
  unfold Job.countMembers
  apply List.countP_congr
  intro e _
  have : e.2.Status ∈ allStatuses := by
    cases e.2.Status <;> decide
  simp [this]

theorem erase_insert_of_not_mem (tasks : taskMap) (k : TaskID) (t : Task) (h : k ∉ tasks) :
    (tasks.insert k t).erase k = tasks := by
  apply AList.ext
  simp only [AList.erase, AList.insert_entries_of_neg h]
  exact List.kerase_cons_eq rfl

theorem AddTask_DeleteTask_eq (job : Job) (task : Task)
    (h1 : job.Tasks.lookup task.UID = none)
    (h2 : job.bucketEntry task.Status task.UID = none)
    (h3 : ∀ tasks, job.TaskStatusIndex task.Status = some tasks → taskMap.len tasks ≠ 0) :
    (job.AddTask task).DeleteTask task = job := by
  have hm : task.UID ∉ job.Tasks := AList.lookup_eq_none.mp h1
  unfold Job.DeleteTask
  rw [lookup_AddTask, if_pos rfl]
  simp only [Job.AddTask, Job.addTaskIndex, Job.deleteTaskIndex, Function.update_same]
  rw [erase_insert_of_not_mem _ _ _ hm]
  cases hb : job.TaskStatusIndex task.Status with
  | none =>
    simp only []
    have he : ((∅ : taskMap).insert task.UID task).erase task.UID = ∅ :=
      erase_insert_of_not_mem _ _ _ (AList.not_mem_empty _)
    rw [he]
    have hl : taskMap.len (∅ : taskMap) = 0 := rfl
    simp only [hl, if_true, Function.update_idem]
    rw [← hb, Function.update_eq_self]
  | some tasks =>
    simp only []
    have hk : task.UID ∉ tasks := by
      rw [← AList.lookup_eq_none]
      simpa [Job.bucketEntry, hb] using h2
    rw [erase_insert_of_not_mem _ _ _ hk]
    simp only [h3 tasks hb, if_false, Function.update_idem]
    rw [← hb, Function.update_eq_self]

theorem deleteTaskIndex_bucket_none (job : Job) (t : Task)
    (honly : ∀ k, job.bucketEntry t.Status k ≠ none → k = t.UID) :
    (job.deleteTaskIndex t).TaskStatusIndex t.Status = none := by
  unfold Job.deleteTaskIndex
  cases hb : job.TaskStatusIndex t.Status with
  | none => simpa using hb
  | some tasks =>
    have hl : taskMap.len (tasks.erase t.UID) = 0 := by
      rw [taskMap_len_eq_zero]
      intro k
      by_cases hk : k = t.UID
      · rw [hk, AList.lookup_erase]
      · rw [AList.lookup_erase_ne hk]
        by_contra hne
        apply hk
        apply honly
        simpa [Job.bucketEntry, hb] using hne
    simp [hl]

theorem index_AddTask_of_ne (job : Job) (task : Task) (s : TaskStatus) (h : s ≠ task.Status) :
    (job.AddTask task).TaskStatusIndex s = job.TaskStatusIndex s := by
  simp [Job.AddTask, Job.addTaskIndex, Function.update_noteq h]

theorem statusPartition_exampleSingletonJob : exampleSingletonJob.StatusPartition := by
  unfold exampleSingletonJob NewJob
  simp only [List.foldl]
  apply statusPartition_AddTask
  · exact statusPartition_empty _ (fun _ => rfl) rfl
  · intro t h
    simp at h

theorem keyedByUID_exampleSingletonJob : exampleSingletonJob.KeyedByUID := by
  unfold exampleSingletonJob NewJob
  simp only [List.foldl]
  apply keyedByUID_AddTask
  intro k t h
  simp at h

theorem lookup_singleton (a k : TaskID) (t : Task) :
    (AList.singleton a t : taskMap).lookup k = if k = a then some t else none := by
  by_cases h : k = a
  · subst h
    simp [AList.lookup, AList.singleton]
  · have h1 : ¬ a = k := fun e => h e.symm
    simp [AList.lookup, AList.singleton, h, h1, List.dlookup]

theorem statusPartition_exampleMiskeyedJob : exampleMiskeyedJob.StatusPartition := by
  have hT : exampleMiskeyedJob.Tasks = AList.singleton "a" (exampleTask "b" Running) := rfl
  have hB : ∀ s k, exampleMiskeyedJob.bucketEntry s k =
      if s = Running then (AList.singleton "a" (exampleTask "b" Running) : taskMap).lookup k
      else none := by
    intro s k
    by_cases hs : s = Running
    · subst hs
      rfl
    · simp [Job.bucketEntry, exampleMiskeyedJob, hs]
  constructor
  · intro k t h
    rw [hT, lookup_singleton] at h
    by_cases hk : k = "a"
    · simp only [hk, if_true, Option.some.injEq] at h
      subst h
      rw [hB, hk]
      rfl
    · simp [hk] at h
  · intro k t s h hs
    rw [hT, lookup_singleton] at h
    by_cases hk : k = "a"
    · simp only [hk, if_true, Option.some.injEq] at h
      subst h
      rw [hB]
      have : ¬ s = Running := hs
      simp [this]
    · simp [hk] at h
  · intro s k t h
    rw [hB] at h
    rw [hT]
    by_cases hs : s = Running
    · simpa [hs] using h
    · simp [hs] at h

/-! ## Group index: the status-partition invariant -/

/-- C1 (as stated) fails. (1) In the group whose only member `a` is `Pending`,
`AddTask` of a task with id `a` and status `Running` leaves `a` in the `Pending` bucket
too, so the index is no longer a status-partition. (2) When a member is stored under a
key that is not its own id, `DeleteTask` removes the member but not its bucket entry. -/
theorem status_partition_counterexample :
    (exampleSingletonJob.StatusPartition ∧ exampleSingletonJob.KeyedByUID ∧
      exampleSingletonJob.Tasks.lookup "a" = some (exampleTask "a" Pending) ∧
      (exampleSingletonJob.AddTask (exampleTask "a" Running)).Tasks.lookup "a" =
        some (exampleTask "a" Running) ∧
      (exampleSingletonJob.AddTask (exampleTask "a" Running)).bucketEntry Pending "a" =
        some (exampleTask "a" Pending) ∧
      ¬ (exampleSingletonJob.AddTask (exampleTask "a" Running)).StatusPartition) ∧
    (exampleMiskeyedJob.StatusPartition ∧
      (exampleMiskeyedJob.DeleteTask (exampleTask "a" Running)).Tasks.lookup "a" = none ∧
      (exampleMiskeyedJob.DeleteTask (exampleTask "a" Running)).bucketEntry Running "a" =
        some (exampleTask "b" Running) ∧
      ¬ (exampleMiskeyedJob.DeleteTask (exampleTask "a" Running)).StatusPartition) := by
  refine ⟨⟨statusPartition_exampleSingletonJob, keyedByUID_exampleSingletonJob, by decide,
    by decide, by decide, ?_⟩, statusPartition_exampleMiskeyedJob, by decide, by decide, ?_⟩
  · intro h
    have h1 := h.member_in_no_other "a" (exampleTask "a" Running) Pending (by decide)
      (by decide)
    revert h1
    decide
  · intro h
    have h1 := h.entry_is_member Running "a" (exampleTask "b" Running) (by decide)
    revert h1
    decide

/-- C1 (amended). Status-partition invariant: for every group whose member mapping
stores each task under its own id and whose status index is a status-partition of the
member mapping, the groups obtained by `DeleteTask(task)` and by
`UpdateTaskStatus(task, s)` are again of this kind, and so is the group obtained by
`AddTask(task)` provided the id of `task` is not already a member under a different
status. -/
theorem status_partition_preserved (job : Job) (task : Task) (s : TaskStatus)
    (hp : job.StatusPartition) (hk : job.KeyedByUID) :
    ((∀ t, job.Tasks.lookup task.UID = some t → t.Status = task.Status) →
      (job.AddTask task).StatusPartition ∧ (job.AddTask task).KeyedByUID) ∧
    ((job.DeleteTask task).StatusPartition ∧ (job.DeleteTask task).KeyedByUID) ∧
    ((job.UpdateTaskStatus task s).StatusPartition ∧
      (job.UpdateTaskStatus task s).KeyedByUID) :=
  ⟨fun hpre => ⟨statusPartition_AddTask job task hp hpre, keyedByUID_AddTask job task hk⟩,
    ⟨statusPartition_DeleteTask job task hp hk, keyedByUID_DeleteTask job task hk⟩,
    ⟨statusPartition_UpdateTaskStatus job task s hp hk,
      keyedByUID_AddTask _ _ (keyedByUID_DeleteTask job task hk)⟩⟩

theorem status_partition_preserved_witness :
    exampleSingletonJob.StatusPartition ∧ exampleSingletonJob.KeyedByUID ∧
    ((exampleSingletonJob.AddTask (exampleTask "b" Running)).StatusPartition ∧
      (exampleSingletonJob.AddTask (exampleTask "b" Running)).KeyedByUID) ∧
    ((exampleSingletonJob.DeleteTask (exampleTask "b" Running)).StatusPartition ∧
      (exampleSingletonJob.DeleteTask (exampleTask "b" Running)).KeyedByUID) ∧
    ((exampleSingletonJob.UpdateTaskStatus (exampleTask "b" Running) Bound).StatusPartition ∧
      (exampleSingletonJob.UpdateTaskStatus (exampleTask "b" Running) Bound).KeyedByUID) :=
  have h := status_partition_preserved exampleSingletonJob (exampleTask "b" Running) Bound
    statusPartition_exampleSingletonJob keyedByUID_exampleSingletonJob
  ⟨statusPartition_exampleSingletonJob, keyedByUID_exampleSingletonJob,
    h.1 (fun t ht => by
      have hn : exampleSingletonJob.Tasks.lookup (exampleTask "b" Running).UID = none := by
        decide
      rw [hn] at ht
      cases ht), h.2.1, h.2.2⟩

/-- C6. Bucket sums equal member counts: for every group whose status index is a
status-partition of its member mapping, `ValidTaskNum()` equals the number of members
whose status is `Bound`, `Running`, `Succeeded` or `Pending`, and `ReadyTaskNum()` equals
the number of members whose status is `Bound`, `Running` or `Succeeded`. -/
theorem bucket_sums_eq_member_counts (job : Job) (hp : job.StatusPartition) :
    job.ValidTaskNum = job.countMembers (fun s => decide (s ∈ validStatuses)) ∧
    job.ReadyTaskNum = job.countMembers (fun s => decide (s ∈ readyStatuses)) := by
  unfold Job.ValidTaskNum Job.ReadyTaskNum
  rw [sumBuckets_allStatuses job hp, sumBuckets_allStatuses job hp]
  constructor
  · congr 1
    apply List.countP_congr
    intro e _
    cases e.2.Status <;> decide
  · congr 1
    apply List.countP_congr
    intro e _
    cases e.2.Status <;> decide

theorem bucket_sums_eq_member_counts_witness :
    exampleSingletonJob.StatusPartition ∧
    exampleSingletonJob.ValidTaskNum =
      exampleSingletonJob.countMembers (fun s => decide (s ∈ validStatuses)) ∧
    exampleSingletonJob.ReadyTaskNum =
      exampleSingletonJob.countMembers (fun s => decide (s ∈ readyStatuses)) :=
  ⟨statusPartition_exampleSingletonJob,
    bucket_sums_eq_member_counts exampleSingletonJob statusPartition_exampleSingletonJob⟩

/-! ## Group index: round trip and status update -/

/-- C7 (as stated) fails. (1) When the task is already a member, `AddTask` followed by
`DeleteTask` removes it: member `a` of the one-member group is gone afterwards. (2) When
the index holds an empty bucket for the status of the task, the round trip removes that
bucket. -/
theorem AddTask_DeleteTask_counterexample :
    (exampleSingletonJob.Tasks.lookup "a" = some (exampleTask "a" Pending) ∧
      ((exampleSingletonJob.AddTask (exampleTask "a" Pending)).DeleteTask
        (exampleTask "a" Pending)).Tasks.lookup "a" = none ∧
      ((exampleSingletonJob.AddTask (exampleTask "a" Pending)).DeleteTask
        (exampleTask "a" Pending)).Tasks ≠ exampleSingletonJob.Tasks) ∧
    (exampleEmptyBucketJob.TaskStatusIndex Pending = some ∅ ∧
      ((exampleEmptyBucketJob.AddTask (exampleTask "a" Pending)).DeleteTask
        (exampleTask "a" Pending)).TaskStatusIndex Pending = none ∧
      ((exampleEmptyBucketJob.AddTask (exampleTask "a" Pending)).DeleteTask
        (exampleTask "a" Pending)).TaskStatusIndex ≠ exampleEmptyBucketJob.TaskStatusIndex) := by
  refine ⟨⟨by decide, by decide, ?_⟩, rfl, rfl, ?_⟩
  · intro h
    have h1 := congrArg (AList.lookup "a") h
    revert h1
    decide
  · intro h
    have h1 := congrFun h Pending
    have h2 : ((exampleEmptyBucketJob.AddTask (exampleTask "a" Pending)).DeleteTask
        (exampleTask "a" Pending)).TaskStatusIndex Pending = none := rfl
    have h3 : exampleEmptyBucketJob.TaskStatusIndex Pending = some ∅ := rfl
    rw [h2, h3] at h1
    cases h1

/-- C7 (amended). Add/delete round trip: for every group and every task whose id is
present neither in the member mapping nor in the bucket of the status of the task, and
whose status bucket is absent or non-empty, `AddTask(task)` followed by
`DeleteTask(task)` leaves the group, in particular its member mapping and its status
index, exactly as before (no extra empty bucket). -/
theorem AddTask_DeleteTask_round_trip (job : Job) (task : Task)
    (h1 : job.Tasks.lookup task.UID = none)
    (h2 : job.bucketEntry task.Status task.UID = none)
    (h3 : ∀ tasks, job.TaskStatusIndex task.Status = some tasks → taskMap.len tasks ≠ 0) :
    (job.AddTask task).DeleteTask task = job ∧
    ((job.AddTask task).DeleteTask task).Tasks = job.Tasks ∧
    ((job.AddTask task).DeleteTask task).TaskStatusIndex = job.TaskStatusIndex := by
  have h := AddTask_DeleteTask_eq job task h1 h2 h3
  exact ⟨h, by rw [h], by rw [h]⟩

theorem AddTask_DeleteTask_round_trip_witness :
    exampleSingletonJob.Tasks.lookup (exampleTask "b" Pending).UID = none ∧
    exampleSingletonJob.bucketEntry (exampleTask "b" Pending).Status
      (exampleTask "b" Pending).UID = none ∧
    (exampleSingletonJob.AddTask (exampleTask "b" Pending)).DeleteTask
      (exampleTask "b" Pending) = exampleSingletonJob :=
  ⟨by decide, by decide,
    (AddTask_DeleteTask_round_trip exampleSingletonJob (exampleTask "b" Pending) (by decide)
      (by decide) (fun tasks ht => by
        have hb : exampleSingletonJob.TaskStatusIndex (exampleTask "b" Pending).Status =
            some (AList.singleton "a" (exampleTask "a" Pending)) := rfl
        rw [hb] at ht
        cases ht
        decide)).1⟩

/-- C8 (as stated) fails. (1) When the new status equals the old one the bucket the
task occupied is present afterwards although the task was its only entry. (2) In the
group built by adding id `a` twice under different statuses, `UpdateTaskStatus` of the
member to `Bound` leaves the id in the `Running` bucket as well. -/
theorem UpdateTaskStatus_counterexample :
    (exampleSingletonJob.Tasks.lookup "a" = some (exampleTask "a" Pending) ∧
      (exampleSingletonJob.TaskStatusIndex Pending).map (fun tasks => tasks.keys) =
        some ["a"] ∧
      ((exampleSingletonJob.UpdateTaskStatus (exampleTask "a" Pending)
        Pending).TaskStatusIndex Pending).map (fun tasks => tasks.keys) = some ["a"] ∧
      (exampleSingletonJob.UpdateTaskStatus (exampleTask "a" Pending)
        Pending).TaskStatusIndex Pending ≠ none) ∧
    (exampleDoubleAddJob.Tasks.lookup "a" = some (exampleTask "a" Pending) ∧
      (exampleDoubleAddJob.UpdateTaskStatus (exampleTask "a" Pending) Bound).bucketEntry
        Bound "a" = some (exampleTask "a" Bound) ∧
      (exampleDoubleAddJob.UpdateTaskStatus (exampleTask "a" Pending) Bound).bucketEntry
        Running "a" = some (exampleTask "a" Running)) := by
  refine ⟨⟨by decide, by decide, by decide, ?_⟩, by decide, by decide, by decide⟩
  intro h
  have h1 : ((exampleSingletonJob.UpdateTaskStatus (exampleTask "a" Pending)
      Pending).TaskStatusIndex Pending).map (fun tasks => tasks.keys) = some ["a"] := by
    decide
  rw [h] at h1
  cases h1

/-- C8 (amended). For every group whose status index is a status-partition of its
member mapping, member task `t` and status `S`: after `UpdateTaskStatus(t, S)` the id of
`t` appears in bucket `S` and in no other bucket, the member stored under the id is `t`
with `Status` field `S`, and, when `S` differs from the previous status of `t` and `t` was
the only entry of its previous bucket, that bucket is absent from the index. -/
theorem UpdateTaskStatus_post (job : Job) (t : Task) (S : TaskStatus)
    (hp : job.StatusPartition) (hm : job.Tasks.lookup t.UID = some t) :
    (job.UpdateTaskStatus t S).bucketEntry S t.UID = some { t with Status := S } ∧
    (∀ s, s ≠ S → (job.UpdateTaskStatus t S).bucketEntry s t.UID = none) ∧
    (job.UpdateTaskStatus t S).Tasks.lookup t.UID = some { t with Status := S } ∧
    (S ≠ t.Status → (∀ k, job.bucketEntry t.Status k ≠ none → k = t.UID) →
      (job.UpdateTaskStatus t S).TaskStatusIndex t.Status = none) := by
  unfold Job.UpdateTaskStatus
  refine ⟨?_, ?_, ?_, ?_⟩
  · rw [bucketEntry_AddTask]
    simp
  · intro s hs
    rw [bucketEntry_AddTask]
    have hc : ¬ (s = ({ t with Status := S } : Task).Status ∧
        t.UID = ({ t with Status := S } : Task).UID) := fun e => hs e.1
    rw [if_neg hc, bucketEntry_DeleteTask job t t s t.UID hm]
    by_cases hst : s = t.Status
    · simp [hst]
    · have hc2 : ¬ (s = t.Status ∧ t.UID = t.UID) := fun e => hst e.1
      rw [if_neg hc2]
      exact hp.member_in_no_other _ _ _ hm hst
  · rw [lookup_AddTask]
    simp
  · intro hS honly
    rw [index_AddTask_of_ne _ _ _ (fun e => hS e.symm)]
    unfold Job.DeleteTask
    rw [hm]
    exact deleteTaskIndex_bucket_none _ t honly

theorem UpdateTaskStatus_post_witness :
    exampleSingletonJob.StatusPartition ∧
    exampleSingletonJob.Tasks.lookup (exampleTask "a" Pending).UID =
      some (exampleTask "a" Pending) ∧
    (exampleSingletonJob.UpdateTaskStatus (exampleTask "a" Pending) Running).bucketEntry
      Running "a" = some (exampleTask "a" Running) ∧
    (exampleSingletonJob.UpdateTaskStatus (exampleTask "a" Pending)
      Running).TaskStatusIndex Pending = none :=
  have h := UpdateTaskStatus_post exampleSingletonJob (exampleTask "a" Pending) Running
    statusPartition_exampleSingletonJob (by decide)
  ⟨statusPartition_exampleSingletonJob, by decide, h.1,
    h.2.2.2 (by decide) (fun k hk => by
      by_contra hne
      apply hk
      have hb : exampleSingletonJob.bucketEntry (exampleTask "a" Pending).Status k =
          (AList.singleton "a" (exampleTask "a" Pending) : taskMap).lookup k := rfl
      rw [hb, lookup_singleton]
      exact if_neg hne)⟩

/-! ## Task classifier -/

theorem string_length_eq_zero (s : String) : s.length = 0 ↔ s = "" := by
  cases s with
  | mk data =>
    cases data with
    | nil => simp
    | cons c cs => simp [String.length, String.ext_iff]

theorem isPodUnschedulable_of_mem (conditions : List PodCondition) (c : PodCondition)
    (hc : c ∈ conditions)
    (h : c.CondType = PodScheduled ∧ c.Status = ConditionFalse ∧
      c.Reason = PodReasonUnschedulable) :
    isPodUnschedulable conditions = true := by
  induction conditions with
  | nil => cases hc
  | cons d ds ih =>
    unfold isPodUnschedulable
    by_cases hd : d.CondType = PodScheduled ∧ d.Status = ConditionFalse ∧
        d.Reason = PodReasonUnschedulable
    · rw [if_pos hd]
    · rw [if_neg hd]
      rcases List.mem_cons.mp hc with rfl | hmem
      · exact absurd h hd
      · exact ih hmem

/-- C9. Classifier, running phase: a snapshot with phase Running is classified
`Running` when it has no deletion marker and `Releasing` when it has one, whatever its
placement and conditions are. -/
theorem getTaskStatus_running (pod : Pod) (h : pod.Status.Phase = PodRunning) :
    (pod.DeletionTimestamp = none → getTaskStatus pod = Running) ∧
    (pod.DeletionTimestamp ≠ none → getTaskStatus pod = Releasing) := by
  unfold getTaskStatus
  rw [if_pos h]
  constructor
  · intro hd
    simp [hd]
  · intro hd
    simp [hd]

theorem getTaskStatus_running_witness :
    (examplePod "a" PodRunning "node1" (some 5)).Status.Phase = PodRunning ∧
    ((examplePod "a" PodRunning "node1" (some 5)).DeletionTimestamp = none →
      getTaskStatus (examplePod "a" PodRunning "node1" (some 5)) = Running) ∧
    ((examplePod "a" PodRunning "node1" (some 5)).DeletionTimestamp ≠ none →
      getTaskStatus (examplePod "a" PodRunning "node1" (some 5)) = Releasing) :=
  ⟨rfl, getTaskStatus_running (examplePod "a" PodRunning "node1" (some 5)) rfl⟩

/-- C10 (as stated) fails: a pending snapshot with a deletion marker is classified
`Releasing`, both when it has a placement (so not `Bound`) and when it has no placement
and carries an unschedulable condition (so not `Unschedulable`). -/
theorem getTaskStatus_pending_counterexample :
    ((examplePod "a" PodPending "node1" (some 5)).Status.Phase = PodPending ∧
      (examplePod "a" PodPending "node1" (some 5)).Spec.NodeName ≠ "" ∧
      getTaskStatus (examplePod "a" PodPending "node1" (some 5)) = Releasing ∧
      getTaskStatus (examplePod "a" PodPending "node1" (some 5)) ≠ Bound) ∧
    ((exampleUnschedulablePod (some 5)).Status.Phase = PodPending ∧
      (exampleUnschedulablePod (some 5)).Spec.NodeName = "" ∧
      HasUnschedulableCondition (exampleUnschedulablePod (some 5)) ∧
      getTaskStatus (exampleUnschedulablePod (some 5)) = Releasing ∧
      getTaskStatus (exampleUnschedulablePod (some 5)) ≠ Unschedulable) := by
  refine ⟨⟨rfl, by decide, by decide, by decide⟩, rfl, rfl, ?_, by decide, by decide⟩
  exact ⟨_, List.mem_singleton.mpr rfl, rfl, rfl, rfl⟩

/-- C10 (amended). Classifier, pending phase: a snapshot with phase Pending and no
deletion marker is classified `Unschedulable` when it has no placement and an
unschedulable condition is present, and `Bound` when it has a placement. -/
theorem getTaskStatus_pending (pod : Pod) (h : pod.Status.Phase = PodPending)
    (hd : pod.DeletionTimestamp = none) :
    (pod.Spec.NodeName = "" → HasUnschedulableCondition pod →
      getTaskStatus pod = Unschedulable) ∧
    (pod.Spec.NodeName ≠ "" → getTaskStatus pod = Bound) := by
  have hne : ¬ pod.Status.Phase = PodRunning := by
    rw [h]
    decide
  unfold getTaskStatus
  rw [if_neg hne, if_pos h]
  constructor
  · intro hn hu
    obtain ⟨c, hc, hcond⟩ := hu
    have := isPodUnschedulable_of_mem _ c hc hcond
    simp [hd, hn, this]
  · intro hn
    have : ¬ pod.Spec.NodeName.length = 0 := fun e => hn ((string_length_eq_zero _).mp e)
    simp [hd, this]

theorem getTaskStatus_pending_witness :
    (examplePod "a" PodPending "node1" none).Status.Phase = PodPending ∧
    (examplePod "a" PodPending "node1" none).DeletionTimestamp = none ∧
    ((examplePod "a" PodPending "node1" none).Spec.NodeName = "" →
      HasUnschedulableCondition (examplePod "a" PodPending "node1" none) →
      getTaskStatus (examplePod "a" PodPending "node1" none) = Unschedulable) ∧
    ((examplePod "a" PodPending "node1" none).Spec.NodeName ≠ "" →
      getTaskStatus (examplePod "a" PodPending "node1" none) = Bound) :=
  ⟨rfl, rfl, getTaskStatus_pending (examplePod "a" PodPending "node1" none) rfl rfl⟩

/-! ## Quorum queries -/

/-- C5. For every group, `Ready()` is true iff `ReadyTaskNum() >= MinAvailable`; in the
group with `MinAvailable = 3`, two members `Bound`, one `Running` and one `Failed`,
`ReadyTaskNum()` is 3 and `Ready()` is true. -/
theorem Ready_iff_ReadyTaskNum_ge :
    (∀ job : Job, job.Ready = true ↔ job.ReadyTaskNum ≥ job.MinAvailable) ∧
    exampleReadyJob.MinAvailable = 3 ∧
    exampleReadyJob.countMembers (fun s => s == Bound) = 2 ∧
    exampleReadyJob.countMembers (fun s => s == Running) = 1 ∧
    exampleReadyJob.countMembers (fun s => s == Failed) = 1 ∧
    exampleReadyJob.Tasks.entries.length = 4 ∧
    exampleReadyJob.ReadyTaskNum = 3 ∧
    exampleReadyJob.Ready = true := by
  refine ⟨?_, by decide, by decide, by decide, by decide, by decide, by decide, by decide⟩
  intro job
  simp [Job.Ready]

/-! ## Gang plugin: counting -/

theorem foldl_count_eq (c : Pod → Bool) (l : List Pod) (acc : Int) :
    l.foldl (fun (replica : Int) pod => if c pod = true then replica + 1 else replica) acc =
      acc + (l.countP c : Nat) := by
  induction l generalizing acc with
  | nil => simp
  | cons p l ih =>
    rw [List.foldl_cons, ih, List.countP_cons]
    by_cases hp : c p = true
    · simp only [hp, if_true]
      push_cast
      ring
    · simp [hp]

theorem foldl_collect_eq (c : Pod → Bool) (l acc : List Pod) :
    l.foldl (fun (allowed : List Pod) p => if c p = true then allowed ++ [p] else allowed) acc =
      acc ++ l.filter c := by
  induction l generalizing acc with
  | nil => simp
  | cons p l ih =>
    rw [List.foldl_cons, ih]
    by_cases hp : c p = true
    · simp [hp, List.filter_cons]
    · simp [hp, List.filter_cons]

theorem groupLabelValue_eq_iff (pod : Pod) (name : String) (hname : name ≠ "") :
    groupLabelValue pod = name ↔ carriesGroupLabel name pod = true := by
  unfold groupLabelValue carriesGroupLabel
  cases h : pod.Labels.lookup GroupNameLabelKey with
  | none =>
    simp only [Option.getD_none]
    constructor
    · intro e
      exact absurd e.symm hname
    · intro e
      simp at e
  | some v => simp

theorem calcWaitingPods_eq (g : Gang) (pg : PodGroup) (hname : pg.Name ≠ "") :
    g.calcWaitingPods pg.Namespace pg.Name = specWaitingPods g.Handle pg := by
  unfold Gang.calcWaitingPods specWaitingPods FrameworkHandle.IterateOverWaitingPods
  have hfun : (fun (replica : Int) (pod : Pod) =>
      if pod.Namespace = pg.Namespace ∧ groupLabelValue pod = pg.Name then replica + 1
      else replica) =
      (fun (replica : Int) (pod : Pod) =>
        if (decide (pod.Namespace = pg.Namespace) && carriesGroupLabel pg.Name pod) = true
        then replica + 1 else replica) := by
    funext replica pod
    by_cases h1 : pod.Namespace = pg.Namespace
    · by_cases h2 : carriesGroupLabel pg.Name pod = true
      · have := (groupLabelValue_eq_iff pod pg.Name hname).mpr h2
        simp [h1, h2, this]
      · have : ¬ groupLabelValue pod = pg.Name :=
          fun e => h2 ((groupLabelValue_eq_iff pod pg.Name hname).mp e)
        simp [h1, h2, this]
    · simp [h1]
  rw [hfun, foldl_count_eq]

theorem selectorMatches_of_valid (name : String) (pod : Pod)
    (hvalid : IsValidLabelValue name = true) :
    selectorMatches name pod = carriesGroupLabel name pod := by
  simp [selectorMatches, SelectorFromSet, Selector.Matches, carriesGroupLabel, hvalid]

theorem selectorMatches_of_invalid (name : String) (pod : Pod)
    (hvalid : IsValidLabelValue name = false) : selectorMatches name pod = true := by
  simp [selectorMatches, SelectorFromSet, Selector.Matches, hvalid]

theorem calcRunningPods_eq (g : Gang) (pg : PodGroup)
    (hvalid : IsValidLabelValue pg.Name = true) :
    g.calcRunningPods pg.Namespace pg.Name = specRunningPods g.Handle pg := by
  unfold Gang.calcRunningPods specRunningPods FrameworkHandle.FilteredList
  cases h : g.Handle.snapshotPods with
  | error err => rfl
  | ok pods =>
    simp only [List.countP_eq_length_filter]
    congr 2
    apply List.filter_congr
    intro p _
    rw [selectorMatches_of_valid pg.Name p hvalid]
    by_cases h1 : p.Namespace = pg.Namespace <;>
      by_cases h2 : p.Status.Phase = PodRunning <;>
        by_cases h3 : p.Status.Phase = PodSucceeded <;>
          simp [h1, h2, h3]

theorem IsValidLabelValue_examples :
    IsValidLabelValue "g1" = true ∧ IsValidLabelValue "" = true ∧
    IsValidLabelValue "group-1.a_b" = true ∧ IsValidLabelValue "bad name" = false ∧
    IsValidLabelValue "-g1" = false ∧ IsValidLabelValue "g1." = false ∧
    IsValidLabelValue (String.mk (List.replicate 63 'a')) = true ∧
    IsValidLabelValue (String.mk (List.replicate 64 'a')) = false := by
  decide

theorem calcRunningPods_of_invalid (g : Gang) (ns name : String)
    (hvalid : IsValidLabelValue name = false) :
    g.calcRunningPods ns name =
      match g.Handle.snapshotPods with
      | Except.ok pods =>
        ((pods.filter (fun pod => pod.Namespace == ns &&
          (pod.Status.Phase == PodRunning || pod.Status.Phase == PodSucceeded))).length : Int)
      | Except.error _ => 0 := by
  unfold Gang.calcRunningPods FrameworkHandle.FilteredList
  cases h : g.Handle.snapshotPods with
  | error err => rfl
  | ok pods =>
    simp only
    congr 2
    apply List.filter_congr
    intro p _
    rw [selectorMatches_of_invalid name p hvalid, Bool.and_true]

theorem calcTotalPods_of_invalid (g : Gang) (ns name : String)
    (hvalid : IsValidLabelValue name = false) :
    g.calcTotalPods ns name =
      match g.Handle.clientPods with
      | Except.ok pods => ((pods.filter (fun pod => pod.Namespace == ns)).length : Int)
      | Except.error _ => 0 := by
  unfold Gang.calcTotalPods FrameworkHandle.ListPods
  cases h : g.Handle.clientPods with
  | error err => rfl
  | ok pods =>
    simp only
    congr 2
    apply List.filter_congr
    intro p _
    rw [selectorMatches_of_invalid name p hvalid, Bool.and_true]

theorem getPreFilterStateData_of_lookup (cycleState : CycleState) (pg : PodGroup)
    (hst : cycleState.storage.lookup preFilterKey = some (StateData.preFilterStateData pg)) :
    getPreFilterStateData cycleState = Except.ok pg := by
  unfold getPreFilterStateData CycleState.Read
  rw [hst]

theorem Skip_eq_false (g : Gang) (pod : Pod)
    (hlab : pod.Labels.lookup GroupNameLabelKey ≠ none) : g.Skip pod = false := by
  unfold Gang.Skip
  cases h : pod.Labels.lookup GroupNameLabelKey with
  | none => exact absurd h hlab
  | some v => rfl

theorem Permit_eq (g : Gang) (cycleState : CycleState) (pod : Pod) (pg : PodGroup)
    (hlab : pod.Labels.lookup GroupNameLabelKey ≠ none)
    (hst : cycleState.storage.lookup preFilterKey = some (StateData.preFilterStateData pg))
    (hname : pg.Name ≠ "") (hvalid : IsValidLabelValue pg.Name = true) :
    g.Permit cycleState pod =
      if specWaitingPods g.Handle pg + specRunningPods g.Handle pg < pg.Spec.MinMember then
        waitResult
      else
        { status := none
          timeout := 0
          allowed := g.Handle.waitingPods.filter (carriesGroupLabel pg.Name) } := by
  unfold Gang.Permit
  rw [Skip_eq_false g pod hlab, getPreFilterStateData_of_lookup cycleState pg hst]
  simp only [Bool.false_eq_true, if_false, calcWaitingPods_eq g pg hname,
    calcRunningPods_eq g pg hvalid]
  by_cases hlt : specWaitingPods g.Handle pg + specRunningPods g.Handle pg < pg.Spec.MinMember
  · simp only [hlt, if_true]
    rfl
  · simp only [hlt, if_false]
    congr 1
    unfold FrameworkHandle.IterateOverWaitingPods
    have hfun : (fun (allowed : List Pod) (p : Pod) =>
        if groupLabelValue p = pg.Name then allowed ++ [p] else allowed) =
        (fun (allowed : List Pod) (p : Pod) =>
          if carriesGroupLabel pg.Name p = true then allowed ++ [p] else allowed) := by
      funext allowed p
      by_cases h2 : carriesGroupLabel pg.Name p = true
      · simp [h2, (groupLabelValue_eq_iff p pg.Name hname).mpr h2]
      · have : ¬ groupLabelValue p = pg.Name :=
          fun e => h2 ((groupLabelValue_eq_iff p pg.Name hname).mp e)
        simp [h2, this]
    rw [hfun, foldl_collect_eq]
    simp

theorem specWaitingPods_park (g : Gang) (pg : PodGroup) (pod : Pod)
    (hns : pod.Namespace = pg.Namespace) (hl : carriesGroupLabel pg.Name pod = true) :
    specWaitingPods (g.park pod).Handle pg = specWaitingPods g.Handle pg + 1 := by
  unfold specWaitingPods Gang.park
  simp only [List.countP_append, List.countP_cons, List.countP_nil]
  simp [hns, hl]
  ring

theorem specRunningPods_park (g : Gang) (pg : PodGroup) (pod : Pod) :
    specRunningPods (g.park pod).Handle pg = specRunningPods g.Handle pg := rfl

theorem permitInTurn_quorum (pg : PodGroup) (hname : pg.Name ≠ "")
    (hvalid : IsValidLabelValue pg.Name = true) :
    ∀ (calls : List (CycleState × Pod)) (g : Gang), calls ≠ [] →
      (∀ c ∈ calls, c.2.Namespace = pg.Namespace ∧ carriesGroupLabel pg.Name c.2 = true ∧
        c.1.storage.lookup preFilterKey = some (StateData.preFilterStateData pg)) →
      specRunningPods g.Handle pg = 0 →
      specWaitingPods g.Handle pg + calls.length = pg.Spec.MinMember + 1 →
      permitInTurn g calls =
        List.replicate (calls.length - 1) waitResult ++
          [{ status := none
             timeout := 0
             allowed := (g.Handle.waitingPods ++ calls.dropLast.map Prod.snd).filter
               (carriesGroupLabel pg.Name) }] := by
  intro calls
  induction calls with
  | nil =>
    intro g h
    exact absurd rfl h
  | cons c rest ih =>
    intro g _ hmem hrun hq
    have hc := hmem c (List.mem_cons_self _ _)
    have hlab : c.2.Labels.lookup GroupNameLabelKey ≠ none := by
      intro e
      have h2 := hc.2.1
      simp [carriesGroupLabel, e] at h2
    have hP := Permit_eq g c.1 c.2 pg hlab hc.2.2 hname hvalid
    rw [hrun] at hP
    cases rest with
    | nil =>
      have hge : ¬ specWaitingPods g.Handle pg + 0 < pg.Spec.MinMember := by
        simp only [List.length_singleton] at hq
        push_cast at hq
        omega
      rw [if_neg hge] at hP
      simp only [permitInTurn, hP]
      simp
    | cons c1 rest1 =>
      have hlt : specWaitingPods g.Handle pg + 0 < pg.Spec.MinMember := by
        simp only [List.length_cons] at hq
        push_cast at hq
        omega
      rw [if_pos hlt] at hP
      have hw : waitResult.isWait = true := rfl
      rw [permitInTurn]
      simp only [hP, hw, if_true]
      have hq1 : specWaitingPods (g.park c.2).Handle pg + ((c1 :: rest1).length : Int) =
          pg.Spec.MinMember + 1 := by
        rw [specWaitingPods_park g pg c.2 hc.1 hc.2.1]
        simp only [List.length_cons] at hq ⊢
        push_cast at hq ⊢
        omega
      have hrec := ih (g.park c.2) (List.cons_ne_nil _ _)
        (fun d hd => hmem d (List.mem_cons_of_mem _ hd))
        (by rw [specRunningPods_park]; exact hrun) hq1
      rw [hrec]
      simp [Gang.park, List.replicate_succ]

/-! ## Gang plugin: the two checkpoints -/

/-- C2. Gang property over a sequence of Permit calls: for a group definition whose name
is a non-empty valid label value (as the label value of every pod is) and with
`MinMember = n >= 1`, no running or succeeded members in the snapshot and no member
parked initially, if `n` member pods (in the namespace of the group,
carrying its label, each with a per-attempt state holding the definition) call Permit one
after another and every pod that receives Wait is parked, then each of the first `n-1`
calls returns Wait with a 10-second timeout and calls Allow on nobody, and the `n`-th call
returns success and calls Allow on every one of the `n-1` parked pods. -/
theorem gang_property (g : Gang) (pg : PodGroup) (calls : List (CycleState × Pod))
    (hn : pg.Spec.MinMember = calls.length) (hpos : 1 ≤ calls.length)
    (hname : pg.Name ≠ "") (hvalid : IsValidLabelValue pg.Name = true)
    (hmem : ∀ c ∈ calls, c.2.Namespace = pg.Namespace ∧ carriesGroupLabel pg.Name c.2 = true ∧
      c.1.storage.lookup preFilterKey = some (StateData.preFilterStateData pg))
    (hrun : specRunningPods g.Handle pg = 0)
    (hpool : specWaitingPods g.Handle pg = 1) :
    permitInTurn g calls =
      List.replicate (calls.length - 1) waitResult ++
        [{ status := none
           timeout := 0
           allowed := (g.Handle.waitingPods ++ calls.dropLast.map Prod.snd).filter
             (carriesGroupLabel pg.Name) }] ∧
    (∀ c ∈ calls.dropLast,
      c.2 ∈ (g.Handle.waitingPods ++ calls.dropLast.map Prod.snd).filter
        (carriesGroupLabel pg.Name)) ∧
    waitResult.status = some (NewStatus Code.Wait "") ∧
    waitResult.timeout = 10 * 1000000000 ∧ waitResult.allowed = [] := by
  have hne : calls ≠ [] := by
    intro e
    rw [e] at hpos
    simp at hpos
  refine ⟨permitInTurn_quorum pg hname hvalid calls g hne hmem hrun ?_, ?_, rfl, rfl, rfl⟩
  · rw [hpool, hn]
    ring
  · intro c hc
    rw [List.mem_filter]
    refine ⟨List.mem_append_right _ (List.mem_map_of_mem _ hc), ?_⟩
    exact (hmem c (List.dropLast_subset _ hc)).2.1

theorem gang_property_witness :
    IsValidLabelValue (examplePodGroup 3).Name = true ∧
    (examplePodGroup 3).Spec.MinMember =
      ([(exampleState (examplePodGroup 3), podA), (exampleState (examplePodGroup 3), podB),
        (exampleState (examplePodGroup 3), podC)] : List (CycleState × Pod)).length ∧
    permitInTurn (exampleGang 3 [] [])
      [(exampleState (examplePodGroup 3), podA), (exampleState (examplePodGroup 3), podB),
        (exampleState (examplePodGroup 3), podC)] =
      [waitResult, waitResult, { status := none, timeout := 0, allowed := [podA, podB] }] ∧
    (∀ c ∈ ([(exampleState (examplePodGroup 3), podA), (exampleState (examplePodGroup 3), podB),
        (exampleState (examplePodGroup 3), podC)] : List (CycleState × Pod)).dropLast,
      c.2 ∈ [podA, podB]) :=
  have h := gang_property (exampleGang 3 [] []) (examplePodGroup 3)
    [(exampleState (examplePodGroup 3), podA), (exampleState (examplePodGroup 3), podB),
      (exampleState (examplePodGroup 3), podC)]
    (by decide) (by decide) (by decide) (by decide) (by decide) (by decide) (by decide)
  ⟨by decide, by decide, h.1, h.2.1⟩

/-- C3. Permit decision: for every labelled pod whose per-attempt state holds a group
definition (whose name is a non-empty valid label value, as the label value of every pod
is), with `waitingPods` = 1 + the number of parked pods in
the namespace of the group carrying its label and `runningPods` = the number of snapshot
pods in that namespace carrying the label with phase Running or Succeeded: Permit returns
Wait with a timeout of exactly 10 seconds and calls Allow on nobody iff
`waitingPods + runningPods < MinMember`; otherwise it returns success with zero timeout
and calls Allow on every parked pod that carries the same group label. -/
theorem Permit_decision (g : Gang) (cycleState : CycleState) (pod : Pod) (pg : PodGroup)
    (hlab : pod.Labels.lookup GroupNameLabelKey ≠ none)
    (hst : cycleState.storage.lookup preFilterKey = some (StateData.preFilterStateData pg))
    (hname : pg.Name ≠ "") (hvalid : IsValidLabelValue pg.Name = true) :
    (((g.Permit cycleState pod).status = some (NewStatus Code.Wait "") ∧
        (g.Permit cycleState pod).timeout = 10 * timeSecond ∧
        (g.Permit cycleState pod).allowed = []) ↔
      specWaitingPods g.Handle pg + specRunningPods g.Handle pg < pg.Spec.MinMember) ∧
    (¬ specWaitingPods g.Handle pg + specRunningPods g.Handle pg < pg.Spec.MinMember →
      (g.Permit cycleState pod).status = none ∧ (g.Permit cycleState pod).timeout = 0 ∧
      (g.Permit cycleState pod).allowed =
        g.Handle.waitingPods.filter (carriesGroupLabel pg.Name)) ∧
    timeSecond = 1000000000 := by
  rw [Permit_eq g cycleState pod pg hlab hst hname hvalid]
  by_cases hlt : specWaitingPods g.Handle pg + specRunningPods g.Handle pg < pg.Spec.MinMember
  · rw [if_pos hlt]
    exact ⟨⟨fun _ => hlt, fun _ => ⟨rfl, rfl, rfl⟩⟩, fun h => absurd hlt h, rfl⟩
  · rw [if_neg hlt]
    refine ⟨⟨fun h => ?_, fun h => absurd h hlt⟩, fun _ => ⟨rfl, rfl, rfl⟩, rfl⟩
    cases h.1

theorem Permit_decision_witness :
    podC.Labels.lookup GroupNameLabelKey ≠ none ∧
    (exampleState (examplePodGroup 3)).storage.lookup preFilterKey =
      some (StateData.preFilterStateData (examplePodGroup 3)) ∧
    (examplePodGroup 3).Name ≠ "" ∧
    IsValidLabelValue (examplePodGroup 3).Name = true ∧
    (exampleGang 3 [podA, podB] []).Permit (exampleState (examplePodGroup 3)) podC =
      { status := none, timeout := 0, allowed := [podA, podB] } ∧
    (((exampleGang 3 [podA] []).Permit (exampleState (examplePodGroup 3)) podB).status =
        some (NewStatus Code.Wait "") ∧
      ((exampleGang 3 [podA] []).Permit (exampleState (examplePodGroup 3)) podB).timeout =
        10 * timeSecond ∧
      ((exampleGang 3 [podA] []).Permit (exampleState (examplePodGroup 3)) podB).allowed = []) :=
  ⟨by decide, by decide, by decide, by decide, by decide,
    (Permit_decision (exampleGang 3 [podA] []) (exampleState (examplePodGroup 3)) podB
      (examplePodGroup 3) (by decide) (by decide) (by decide) (by decide)).1.mpr (by decide)⟩

theorem length_ns_slash (ns v : String) : (ns ++ "/" ++ v).length ≠ 0 := by
  rw [String.length_append, String.length_append]
  have h : ("/" : String).length = 1 := by decide
  omega

theorem GetJobID_of_label (pod : Pod) (v : String)
    (hl : pod.Labels.lookup GroupNameLabelKey = some v) (hv : v ≠ "") :
    GetJobID pod = pod.Namespace ++ "/" ++ v := by
  have hlen : ¬ pod.Labels.length = 0 := by
    intro e
    rw [List.length_eq_zero] at e
    rw [e] at hl
    cases hl
  have hn : ¬ v.length = 0 := fun e => hv ((string_length_eq_zero _).mp e)
  unfold GetJobID
  simp [hlen, hl, hn]

theorem GetJobID_of_no_label (pod : Pod)
    (hl : pod.Labels.lookup GroupNameLabelKey = none ∨
      pod.Labels.lookup GroupNameLabelKey = some "") : GetJobID pod = "" := by
  unfold GetJobID
  rcases hl with h | h <;> simp [h]

theorem addTask_of_empty (sc : schedulerCache) (task : Task) (h : task.Job = "") :
    sc.addTask task = (sc, none) := by
  simp [schedulerCache.addTask, schedulerCache.getOrCreateJob, h]

theorem addTask_of_ne (sc : schedulerCache) (task : Task) (h : task.Job ≠ "") :
    sc.addTask task =
      ({ sc with jobs := sc.jobs.insert task.Job ((sc.jobOrNew task.Job).AddTask task) },
        none) := by
  have hn : ¬ task.Job.length = 0 := fun e => h ((string_length_eq_zero _).mp e)
  unfold schedulerCache.addTask schedulerCache.getOrCreateJob schedulerCache.jobOrNew
  rw [if_neg hn]
  cases hl : sc.jobs.lookup task.Job with
  | none => simp [AList.insert_insert]
  | some job => simp

theorem setPodGroup_eq (sc : schedulerCache) (podGroup : PodGroup) :
    sc.setPodGroup podGroup =
      { sc with
        jobs := sc.jobs.insert (getJobID podGroup)
          ((sc.jobOrNew (getJobID podGroup)).SetPodGroup podGroup) } := by
  unfold schedulerCache.setPodGroup schedulerCache.jobOrNew
  cases hl : sc.jobs.lookup (getJobID podGroup) with
  | none =>
    simp only [hl]
    simp [AList.insert_insert]
  | some job => simp [hl]

theorem deleteTask_of_tracked (sc : schedulerCache) (task : Task) (job : Job)
    (h : task.Job ≠ "") (hl : sc.jobs.lookup task.Job = some job) :
    sc.deleteTask task =
      ({ sc with jobs := sc.jobs.insert task.Job (job.DeleteTask task) }, none) := by
  have hn : ¬ task.Job.length = 0 := fun e => h ((string_length_eq_zero _).mp e)
  simp [schedulerCache.deleteTask, hn, hl]

theorem deleteTask_of_empty (sc : schedulerCache) (task : Task) (h : task.Job = "") :
    sc.deleteTask task = (sc, none) := by
  simp [schedulerCache.deleteTask, h]

theorem SetPodGroup_AddTask_comm (job : Job) (task : Task) (podGroup : PodGroup) :
    (job.AddTask task).SetPodGroup podGroup = (job.SetPodGroup podGroup).AddTask task := rfl

theorem foldl_AddTask_fields (tasks : List Task) (job : Job) :
    (tasks.foldl Job.AddTask job).MinAvailable = job.MinAvailable ∧
    (tasks.foldl Job.AddTask job).PodGroup = job.PodGroup := by
  induction tasks generalizing job with
  | nil => exact ⟨rfl, rfl⟩
  | cons t ts ih =>
    rw [List.foldl_cons]
    exact ih (job.AddTask t)

theorem NewJob_fields (uid : JobID) (tasks : List Task) :
    (NewJob uid tasks).MinAvailable = 0 ∧ (NewJob uid tasks).PodGroup = none := by
  unfold NewJob
  exact foldl_AddTask_fields tasks _

/-! ## Task classifier: precedence -/

/-- C11. Classifier precedence: for every task snapshot, `getTaskStatus` returns
`Releasing` iff a deletion marker is present and the phase is Running or Pending (so a
pending task with a deletion marker is `Releasing` even if it has a placement or an
unschedulable condition), and it returns `Unknown` for every phase that is not one of
Running, Pending, Succeeded, Failed. -/
theorem getTaskStatus_precedence (pod : Pod) :
    (getTaskStatus pod = Releasing ↔
      pod.DeletionTimestamp ≠ none ∧
        (pod.Status.Phase = PodRunning ∨ pod.Status.Phase = PodPending)) ∧
    ((pod.Status.Phase ≠ PodRunning ∧ pod.Status.Phase ≠ PodPending ∧
        pod.Status.Phase ≠ PodSucceeded ∧ pod.Status.Phase ≠ PodFailed) →
      getTaskStatus pod = Unknown) ∧
    getTaskStatus (examplePod "a" PodPending "node1" (some 5)) = Releasing ∧
    getTaskStatus (exampleUnschedulablePod (some 5)) = Releasing := by
  refine ⟨?_, ?_, by decide, by decide⟩
  · unfold getTaskStatus
    by_cases h1 : pod.Status.Phase = PodRunning
    · by_cases hd : pod.DeletionTimestamp = none <;> simp [h1, hd]
    · by_cases h2 : pod.Status.Phase = PodPending
      · by_cases hd : pod.DeletionTimestamp = none
        · simp only [h1, h2, hd, if_false, if_true, ne_eq, not_true_eq_false, false_and,
            iff_false]
          split_ifs <;> simp
        · simp [h1, h2, hd]
      · simp only [h1, h2, if_false, or_self, and_false, iff_false]
        split_ifs <;> simp
  · intro h
    unfold getTaskStatus
    simp [h.1, h.2.1, h.2.2.1, h.2.2.2]

/-! ## Group cache: task and definition events -/

/-- C12. Task-add postcondition: for every cache state and task snapshot, if the
snapshot has no group label (or an empty label value) `AddPod` leaves the group map
unchanged; otherwise after `AddPod` the group with id `<namespace>/<label value>` exists,
its member mapping maps the id of the task to a task whose status is the classification
of the snapshot, that task is in the bucket of that status, and every other group is
unchanged. -/
theorem AddPod_post (sc : schedulerCache) (pod : Pod) :
    ((pod.Labels.lookup GroupNameLabelKey = none ∨
        pod.Labels.lookup GroupNameLabelKey = some "") →
      sc.AddPod (Obj.pod pod) = (sc, none)) ∧
    (∀ v, pod.Labels.lookup GroupNameLabelKey = some v → v ≠ "" →
      ∃ job task,
        (sc.AddPod (Obj.pod pod)).1.jobs.lookup (pod.Namespace ++ "/" ++ v) = some job ∧
        job.Tasks.lookup pod.UID = some task ∧
        task.Status = getTaskStatus pod ∧
        job.bucketEntry (getTaskStatus pod) pod.UID = some task ∧
        ∀ id, id ≠ pod.Namespace ++ "/" ++ v →
          (sc.AddPod (Obj.pod pod)).1.jobs.lookup id = sc.jobs.lookup id) := by
  constructor
  · intro hl
    exact addTask_of_empty sc (NewTask pod) (GetJobID_of_no_label pod hl)
  · intro v hl hv
    have hid : (NewTask pod).Job = pod.Namespace ++ "/" ++ v := GetJobID_of_label pod v hl hv
    have hne : (NewTask pod).Job ≠ "" := by
      rw [hid]
      exact fun e => length_ns_slash _ _ ((string_length_eq_zero _).mpr e)
    have hA : sc.AddPod (Obj.pod pod) = _ := addTask_of_ne sc (NewTask pod) hne
    rw [hA, hid]
    refine ⟨_, NewTask pod, AList.lookup_insert _, ?_, rfl, ?_, ?_⟩
    · rw [lookup_AddTask]
      exact if_pos rfl
    · rw [bucketEntry_AddTask]
      exact if_pos ⟨rfl, rfl⟩
    · intro id hne2
      exact AList.lookup_insert_ne hne2

/-- C13. Duplicate-update dedup: for every cache state and every update event, for a
task or for a group definition, whose old and new objects carry the same version stamp,
the handler (`UpdatePod`, `UpdatePodGroup`) leaves the whole group map unchanged and
reports nothing, whatever the other fields of the two objects are. -/
theorem update_same_version_unchanged (sc : schedulerCache) :
    (∀ oldPod newPod : Pod, oldPod.ResourceVersion = newPod.ResourceVersion →
      sc.UpdatePod (Obj.pod oldPod) (Obj.pod newPod) = (sc, none)) ∧
    (∀ oldPg newPg : PodGroup, oldPg.ResourceVersion = newPg.ResourceVersion →
      sc.UpdatePodGroup (Obj.podGroup oldPg) (Obj.podGroup newPg) = (sc, none)) := by
  constructor
  · intro oldPod newPod h
    simp [schedulerCache.UpdatePod, h]
  · intro oldPg newPg h
    simp [schedulerCache.UpdatePodGroup, h]

/-- C16. Group-definition attach: a group created in memory has `MinAvailable = 0` and
no definition; for every cache state and definition record `d`, after `AddPodGroup(d)`
the group with id `<d.namespace>/<d.name>` exists, its `Name`, `Namespace`, `MinAvailable`
and `CreationTimestamp` equal the name, namespace, `minMember` and creation time of `d`,
its definition reference is `d`, and its member mapping and status index are the same as
before (empty if the group was just created). -/
theorem AddPodGroup_post (sc : schedulerCache) (d : PodGroup) :
    (∀ uid tasks, (NewJob uid tasks).MinAvailable = 0 ∧ (NewJob uid tasks).PodGroup = none) ∧
    ∃ job,
      (sc.AddPodGroup (Obj.podGroup d)).1.jobs.lookup (d.Namespace ++ "/" ++ d.Name) =
        some job ∧
      job.Name = d.Name ∧ job.Namespace = d.Namespace ∧
      job.MinAvailable = d.Spec.MinMember ∧
      job.CreationTimestamp = d.CreationTimestamp ∧
      job.PodGroup = some d ∧
      (∀ old, sc.jobs.lookup (d.Namespace ++ "/" ++ d.Name) = some old →
        job.Tasks = old.Tasks ∧ job.TaskStatusIndex = old.TaskStatusIndex) ∧
      (sc.jobs.lookup (d.Namespace ++ "/" ++ d.Name) = none →
        job.Tasks = ∅ ∧ ∀ s, job.TaskStatusIndex s = none) := by
  refine ⟨NewJob_fields, ?_⟩
  have hA : (sc.AddPodGroup (Obj.podGroup d)).1 = _ := setPodGroup_eq sc d
  rw [hA]
  refine ⟨_, AList.lookup_insert _, rfl, rfl, rfl, rfl, rfl, ?_, ?_⟩
  · intro old hold
    have : sc.jobOrNew (getJobID d) = old := by
      unfold schedulerCache.jobOrNew
      rw [show getJobID d = d.Namespace ++ "/" ++ d.Name from rfl, hold]
    rw [this]
    exact ⟨rfl, rfl⟩
  · intro hnone
    have : sc.jobOrNew (getJobID d) = NewJob (getJobID d) [] := by
      unfold schedulerCache.jobOrNew
      rw [show getJobID d = d.Namespace ++ "/" ++ d.Name from rfl, hnone]
    rw [this]
    exact ⟨rfl, fun _ => rfl⟩

/-- C17. Group-definition detach: for every cache state and delete event for a
definition (delivered as the definition itself or wrapped in a
`DeletedFinalStateUnknown`) whose group is tracked, after `DeletePodGroup` the group is
still in the map, its definition reference is absent, and its member mapping, its status
index and every other group are unchanged; if no group with that id is tracked, an error
is reported and the map is unchanged. -/
theorem DeletePodGroup_post (sc : schedulerCache) (d : PodGroup) (obj : Obj)
    (hobj : obj = Obj.podGroup d ∨
      ∃ key, obj = Obj.deletedFinalStateUnknown key (Obj.podGroup d)) :
    (∀ job, sc.jobs.lookup (getJobID d) = some job →
      (sc.DeletePodGroup obj).2 = none ∧
      ∃ job1, (sc.DeletePodGroup obj).1.jobs.lookup (getJobID d) = some job1 ∧
        job1.PodGroup = none ∧ job1.Tasks = job.Tasks ∧
        job1.TaskStatusIndex = job.TaskStatusIndex ∧
        ∀ id, id ≠ getJobID d →
          (sc.DeletePodGroup obj).1.jobs.lookup id = sc.jobs.lookup id) ∧
    (sc.jobs.lookup (getJobID d) = none →
      (sc.DeletePodGroup obj).2 ≠ none ∧ (sc.DeletePodGroup obj).1 = sc) := by
  have hD : sc.DeletePodGroup obj = sc.deletePodGroup (getJobID d) := by
    rcases hobj with h | ⟨key, h⟩ <;> rw [h] <;> rfl
  rw [hD]
  unfold schedulerCache.deletePodGroup
  constructor
  · intro job hl
    rw [hl]
    refine ⟨rfl, _, AList.lookup_insert _, rfl, rfl, rfl, ?_⟩
    intro id hne
    exact AList.lookup_insert_ne hne
  · intro hl
    rw [hl]
    exact ⟨by simp, rfl⟩

theorem DeletePodGroup_post_witness :
    (Obj.podGroup (examplePodGroup 3) = Obj.podGroup (examplePodGroup 3) ∨
      ∃ key, Obj.podGroup (examplePodGroup 3) =
        Obj.deletedFinalStateUnknown key (Obj.podGroup (examplePodGroup 3))) ∧
    ((NewSchedulerCache "coscheduler").DeletePodGroup
      (Obj.podGroup (examplePodGroup 3))).2 ≠ none ∧
    ((NewSchedulerCache "coscheduler").setPodGroup (examplePodGroup 3)).jobs.lookup
      (getJobID (examplePodGroup 3)) ≠ none ∧
    (((NewSchedulerCache "coscheduler").setPodGroup (examplePodGroup 3)).DeletePodGroup
      (Obj.podGroup (examplePodGroup 3))).2 = none :=
  ⟨Or.inl rfl,
    ((DeletePodGroup_post (NewSchedulerCache "coscheduler") (examplePodGroup 3)
      (Obj.podGroup (examplePodGroup 3)) (Or.inl rfl)).2 rfl).1,
    by rw [setPodGroup_eq]; simp,
    by rw [setPodGroup_eq]; simp [schedulerCache.DeletePodGroup, schedulerCache.deletePodGroup]⟩

theorem jobOrNew_insert (sc : schedulerCache) (id : JobID) (job : Job) :
    schedulerCache.jobOrNew { sc with jobs := sc.jobs.insert id job } id = job := by
  simp [schedulerCache.jobOrNew]

/-- C18. Event arrival order does not matter: for every cache state, every labelled task
snapshot `p` and every definition record `d` with `d.namespace = p.namespace` and
`d.name` equal to the group label value of `p`, `AddPod(p)` followed by `AddPodGroup(d)`
yields the same cache state as `AddPodGroup(d)` followed by `AddPod(p)`; for a non-empty
name (as every stored definition has) the id derived from the label and the id derived
from the definition coincide, and the single group under this id holds the task and has
`MinAvailable = d.minMember`. -/
theorem AddPod_AddPodGroup_any_order (sc : schedulerCache) (p : Pod) (d : PodGroup)
    (v : String) (hl : p.Labels.lookup GroupNameLabelKey = some v)
    (hns : d.Namespace = p.Namespace) (hname : d.Name = v) :
    ((sc.AddPod (Obj.pod p)).1.AddPodGroup (Obj.podGroup d)).1 =
      ((sc.AddPodGroup (Obj.podGroup d)).1.AddPod (Obj.pod p)).1 ∧
    (v ≠ "" →
      GetJobID p = getJobID d ∧
      ∃ job,
        ((sc.AddPod (Obj.pod p)).1.AddPodGroup (Obj.podGroup d)).1.jobs.lookup (getJobID d) =
          some job ∧
        job.Tasks.lookup p.UID = some (NewTask p) ∧
        job.MinAvailable = d.Spec.MinMember ∧ job.PodGroup = some d) := by
  have hL : ∀ sc1 : schedulerCache,
      ((sc1.AddPod (Obj.pod p)).1.AddPodGroup (Obj.podGroup d)).1 =
        (sc1.addTask (NewTask p)).1.setPodGroup d := fun _ => rfl
  have hR : ∀ sc1 : schedulerCache,
      ((sc1.AddPodGroup (Obj.podGroup d)).1.AddPod (Obj.pod p)).1 =
        ((sc1.setPodGroup d).addTask (NewTask p)).1 := fun _ => rfl
  rw [hL, hR]
  by_cases hv : v = ""
  · have hid : (NewTask p).Job = "" := GetJobID_of_no_label p (Or.inr (hv ▸ hl))
    rw [addTask_of_empty _ _ hid, addTask_of_empty _ _ hid]
    exact ⟨rfl, fun h => absurd hv h⟩
  · have hid : (NewTask p).Job = getJobID d := by
      show GetJobID p = _
      rw [GetJobID_of_label p v hl hv]
      unfold getJobID
      rw [hns, hname]
    have hne : (NewTask p).Job ≠ "" := by
      rw [hid]
      exact fun e => length_ns_slash _ _ ((string_length_eq_zero _).mpr e)
    rw [addTask_of_ne _ _ hne, addTask_of_ne _ _ hne, setPodGroup_eq, setPodGroup_eq, hid]
    simp only [jobOrNew_insert, AList.insert_insert, SetPodGroup_AddTask_comm]
    refine ⟨trivial, fun _ => ⟨hid, _, AList.lookup_insert _, ?_, rfl, rfl⟩⟩
    rw [lookup_AddTask]
    exact if_pos rfl

theorem AddPod_AddPodGroup_any_order_witness :
    podA.Labels.lookup GroupNameLabelKey = some "g1" ∧
    (examplePodGroup 3).Namespace = podA.Namespace ∧ (examplePodGroup 3).Name = "g1" ∧
    (((NewSchedulerCache "coscheduler").AddPod (Obj.pod podA)).1.AddPodGroup
      (Obj.podGroup (examplePodGroup 3))).1 =
      (((NewSchedulerCache "coscheduler").AddPodGroup
        (Obj.podGroup (examplePodGroup 3))).1.AddPod (Obj.pod podA)).1 ∧
    GetJobID podA = getJobID (examplePodGroup 3) :=
  have h := AddPod_AddPodGroup_any_order (NewSchedulerCache "coscheduler") podA
    (examplePodGroup 3) "g1" (by decide) rfl rfl
  ⟨by decide, rfl, rfl, h.1, (h.2 (by decide)).1⟩

/-! ## Group cache: tasks are stored under their own id and group -/

theorem tasksWellKeyed_insert (sc : schedulerCache) (id : JobID) (job : Job)
    (hw : sc.TasksWellKeyed)
    (hjob : ∀ k t, job.Tasks.lookup k = some t → t.UID = k ∧ t.Job = id) :
    schedulerCache.TasksWellKeyed { sc with jobs := sc.jobs.insert id job } := by
  intro id1 job1 k t hl ht
  by_cases hid : id1 = id
  · subst hid
    simp only [AList.lookup_insert, Option.some.injEq] at hl
    subst hl
    exact hjob k t ht
  · simp only [AList.lookup_insert_ne hid] at hl
    exact hw id1 job1 k t hl ht

theorem jobOrNew_wellKeyed (sc : schedulerCache) (id : JobID) (hw : sc.TasksWellKeyed) :
    ∀ k t, (sc.jobOrNew id).Tasks.lookup k = some t → t.UID = k ∧ t.Job = id := by
  intro k t ht
  unfold schedulerCache.jobOrNew at ht
  cases hl : sc.jobs.lookup id with
  | none =>
    rw [hl] at ht
    simp [NewJob] at ht
  | some job =>
    rw [hl] at ht
    exact hw id job k t hl ht

theorem tasksWellKeyed_NewSchedulerCache (name : String) :
    (NewSchedulerCache name).TasksWellKeyed := by
  intro id job k t hl
  simp [NewSchedulerCache] at hl

theorem tasksWellKeyed_addTask (sc : schedulerCache) (task : Task) (hw : sc.TasksWellKeyed) :
    (sc.addTask task).1.TasksWellKeyed := by
  by_cases h : task.Job = ""
  · rw [addTask_of_empty sc task h]
    exact hw
  · rw [addTask_of_ne sc task h]
    apply tasksWellKeyed_insert sc _ _ hw
    intro k t ht
    rw [lookup_AddTask] at ht
    by_cases hk : k = task.UID
    · simp only [hk, if_true, Option.some.injEq] at ht
      subst ht
      exact ⟨hk.symm, rfl⟩
    · simp only [hk, if_false] at ht
      exact jobOrNew_wellKeyed sc _ hw k t ht

theorem tasksWellKeyed_deleteTask (sc : schedulerCache) (task : Task)
    (hw : sc.TasksWellKeyed) : (sc.deleteTask task).1.TasksWellKeyed := by
  unfold schedulerCache.deleteTask
  by_cases h : task.Job.length ≠ 0
  · rw [if_pos h]
    cases hl : sc.jobs.lookup task.Job with
    | none => exact hw
    | some job =>
      apply tasksWellKeyed_insert sc _ _ hw
      intro k t ht
      rw [lookup_DeleteTask] at ht
      by_cases hk : k = task.UID
      · simp [hk] at ht
      · simp only [hk, if_false] at ht
        exact hw _ job k t hl ht
  · rw [if_neg h]
    exact hw

theorem tasksWellKeyed_setPodGroup (sc : schedulerCache) (podGroup : PodGroup)
    (hw : sc.TasksWellKeyed) : (sc.setPodGroup podGroup).TasksWellKeyed := by
  rw [setPodGroup_eq]
  apply tasksWellKeyed_insert sc _ _ hw
  intro k t ht
  exact jobOrNew_wellKeyed sc _ hw k t ht

theorem tasksWellKeyed_deletePodGroup (sc : schedulerCache) (jobID : JobID)
    (hw : sc.TasksWellKeyed) : (sc.deletePodGroup jobID).1.TasksWellKeyed := by
  unfold schedulerCache.deletePodGroup
  cases hl : sc.jobs.lookup jobID with
  | none => exact hw
  | some job =>
    apply tasksWellKeyed_insert sc _ _ hw
    intro k t ht
    exact hw _ job k t hl ht

theorem tasksWellKeyed_handlers (sc : schedulerCache) (hw : sc.TasksWellKeyed)
    (obj obj1 : Obj) :
    (sc.AddPod obj).1.TasksWellKeyed ∧ (sc.UpdatePod obj obj1).1.TasksWellKeyed ∧
    (sc.DeletePod obj).1.TasksWellKeyed ∧ (sc.AddPodGroup obj).1.TasksWellKeyed ∧
    (sc.UpdatePodGroup obj obj1).1.TasksWellKeyed ∧
    (sc.DeletePodGroup obj).1.TasksWellKeyed := by
  have hdel : ∀ (sc1 : schedulerCache) (pod : Pod), sc1.TasksWellKeyed →
      (sc1.deletePod pod).1.TasksWellKeyed := by
    intro sc1 pod h1
    unfold schedulerCache.deletePod
    exact tasksWellKeyed_deleteTask sc1 _ h1
  refine ⟨?_, ?_, ?_, ?_, ?_, ?_⟩
  · cases obj with
    | pod pod => exact tasksWellKeyed_addTask sc _ hw
    | _ => exact hw
  · cases obj with
    | pod oldPod =>
      cases obj1 with
      | pod newPod =>
        unfold schedulerCache.UpdatePod
        by_cases hrv : oldPod.ResourceVersion = newPod.ResourceVersion
        · simp only [hrv, if_true]
          exact hw
        · simp only [hrv, if_false]
          unfold schedulerCache.updatePod
          have h1 := hdel sc oldPod hw
          cases hd : sc.deletePod oldPod with
          | mk sc1 err =>
            rw [hd] at h1
            cases err with
            | none => exact tasksWellKeyed_addTask sc1 _ h1
            | some e => exact h1
      | _ => exact hw
    | _ => exact hw
  · cases obj with
    | pod pod => exact hdel sc pod hw
    | deletedFinalStateUnknown key inner =>
      cases inner with
      | pod pod => exact hdel sc pod hw
      | _ => exact hw
    | _ => exact hw
  · cases obj with
    | podGroup pg => exact tasksWellKeyed_setPodGroup sc pg hw
    | _ => exact hw
  · cases obj with
    | podGroup oldPg =>
      cases obj1 with
      | podGroup newPg =>
        unfold schedulerCache.UpdatePodGroup
        by_cases hrv : oldPg.ResourceVersion = newPg.ResourceVersion
        · simp only [hrv, if_true]
          exact hw
        · simp only [hrv, if_false]
          exact tasksWellKeyed_setPodGroup sc newPg hw
      | _ => exact hw
    | _ => exact hw
  · cases obj with
    | podGroup pg => exact tasksWellKeyed_deletePodGroup sc _ hw
    | deletedFinalStateUnknown key inner =>
      cases inner with
      | podGroup pg => exact tasksWellKeyed_deletePodGroup sc _ hw
      | _ => exact hw
    | _ => exact hw

/-! ## Group cache: task delete and task update -/

theorem deletePod_of_member (sc : schedulerCache) (pod : Pod) (job : Job) (t : Task)
    (hg : sc.jobs.lookup (GetJobID pod) = some job)
    (hm : job.Tasks.lookup pod.UID = some t) : sc.deletePod pod = sc.deleteTask t := by
  unfold schedulerCache.deletePod
  have h1 : sc.jobs.lookup (NewTask pod).Job = some job := hg
  have h2 : job.Tasks.lookup (NewTask pod).UID = some t := hm
  simp only [h1, h2]

theorem deletePod_cases (sc : schedulerCache) (pod : Pod) :
    sc.deletePod pod = sc.deleteTask (NewTask pod) ∨
    ∃ job t, sc.jobs.lookup (GetJobID pod) = some job ∧ job.Tasks.lookup pod.UID = some t ∧
      sc.deletePod pod = sc.deleteTask t := by
  cases hg : sc.jobs.lookup (GetJobID pod) with
  | none =>
    left
    unfold schedulerCache.deletePod
    have h1 : sc.jobs.lookup (NewTask pod).Job = none := hg
    simp only [h1]
  | some job =>
    cases hm : job.Tasks.lookup pod.UID with
    | none =>
      left
      unfold schedulerCache.deletePod
      have h1 : sc.jobs.lookup (NewTask pod).Job = some job := hg
      have h2 : job.Tasks.lookup (NewTask pod).UID = none := hm
      simp only [h1, h2]
    | some t => exact Or.inr ⟨job, t, rfl, hm, deletePod_of_member sc pod job t hg hm⟩

theorem lookup_deleteTask (sc : schedulerCache) (task : Task) (id : JobID) :
    (sc.deleteTask task).1.jobs.lookup id = sc.jobs.lookup id ∨
    ∃ job, sc.jobs.lookup id = some job ∧
      (sc.deleteTask task).1.jobs.lookup id = some (job.DeleteTask task) := by
  unfold schedulerCache.deleteTask
  by_cases h : task.Job.length ≠ 0
  · rw [if_pos h]
    cases hl : sc.jobs.lookup task.Job with
    | none => exact Or.inl rfl
    | some job =>
      by_cases hid : id = task.Job
      · right
        subst hid
        exact ⟨job, hl, AList.lookup_insert _⟩
      · left
        exact AList.lookup_insert_ne hid
  · rw [if_neg h]
    exact Or.inl rfl

theorem bucketEntry_DeleteTask_none (job : Job) (task : Task) (s : TaskStatus) (k : TaskID)
    (h : job.bucketEntry s k = none) : (job.DeleteTask task).bucketEntry s k = none := by
  cases ht : job.Tasks.lookup task.UID with
  | none =>
    rw [DeleteTask_of_not_member job task ht]
    exact h
  | some t =>
    rw [bucketEntry_DeleteTask job task t s k ht]
    split_ifs
    · rfl
    · exact h

theorem bucketEntry_none_of_not_member (job : Job) (hp : job.StatusPartition) (k : TaskID)
    (h : job.Tasks.lookup k = none) (s : TaskStatus) : job.bucketEntry s k = none := by
  cases hb : job.bucketEntry s k with
  | none => rfl
  | some t =>
    have := hp.entry_is_member s k t hb
    rw [h] at this
    cases this

/-- C15. Task-delete removes the tracked instance: for every cache state whose tasks are
stored under their own id and group, in which the index of the group is a
status-partition of its members, and every delete event (delivered as the pod itself or
wrapped in a `DeletedFinalStateUnknown`) for a task whose group is tracked and whose id
is a member, after `DeletePod` the id is absent from the member mapping of the group and
from every status bucket, whatever status the delete payload is classified as; all other
members, bucket entries and groups are unchanged. -/
theorem DeletePod_removes_tracked (sc : schedulerCache) (pod : Pod) (obj : Obj) (job : Job)
    (t : Task)
    (hobj : obj = Obj.pod pod ∨ ∃ key, obj = Obj.deletedFinalStateUnknown key (Obj.pod pod))
    (hw : sc.TasksWellKeyed)
    (hne : GetJobID pod ≠ "")
    (hg : sc.jobs.lookup (GetJobID pod) = some job)
    (hp : job.StatusPartition)
    (hm : job.Tasks.lookup pod.UID = some t) :
    (sc.DeletePod obj).2 = none ∧
    ∃ job1, (sc.DeletePod obj).1.jobs.lookup (GetJobID pod) = some job1 ∧
      job1.Tasks.lookup pod.UID = none ∧
      (∀ s, job1.bucketEntry s pod.UID = none) ∧
      (∀ k, k ≠ pod.UID → job1.Tasks.lookup k = job.Tasks.lookup k) ∧
      (∀ s k, k ≠ pod.UID → job1.bucketEntry s k = job.bucketEntry s k) ∧
      (∀ id, id ≠ GetJobID pod →
        (sc.DeletePod obj).1.jobs.lookup id = sc.jobs.lookup id) := by
  have hD : sc.DeletePod obj = sc.deletePod pod := by
    rcases hobj with h | ⟨key, h⟩ <;> rw [h] <;> rfl
  obtain ⟨hu, hj⟩ := hw _ job _ t hg hm
  have hne1 : t.Job ≠ "" := by
    rw [hj]
    exact hne
  have hg1 : sc.jobs.lookup t.Job = some job := by
    rw [hj]
    exact hg
  have hm1 : job.Tasks.lookup t.UID = some t := by
    rw [hu]
    exact hm
  rw [hD, deletePod_of_member sc pod job t hg hm, deleteTask_of_tracked sc t job hne1 hg1, hj]
  refine ⟨rfl, _, AList.lookup_insert _, ?_, ?_, ?_, ?_, ?_⟩
  · rw [lookup_DeleteTask, hu]
    exact if_pos rfl
  · intro s
    rw [bucketEntry_DeleteTask job t t s pod.UID hm1]
    by_cases hs : s = t.Status
    · rw [if_pos ⟨hs, hu.symm⟩]
    · have hc : ¬ (s = t.Status ∧ pod.UID = t.UID) := fun e => hs e.1
      rw [if_neg hc]
      exact hp.member_in_no_other _ _ _ hm hs
  · intro k hk
    rw [lookup_DeleteTask, hu]
    exact if_neg hk
  · intro s k hk
    rw [bucketEntry_DeleteTask job t t s k hm1]
    have hc : ¬ (s = t.Status ∧ k = t.UID) := fun e => hk (e.2.trans hu)
    exact if_neg hc
  · intro id hid
    exact AList.lookup_insert_ne hid

theorem statusPartition_exampleJobWithA : exampleJobWithA.StatusPartition := by
  unfold exampleJobWithA
  apply statusPartition_AddTask
  · exact statusPartition_empty _ (fun _ => rfl) rfl
  · intro t h
    simp [NewJob] at h

theorem lookup_exampleCacheWithA :
    exampleCacheWithA.jobs.lookup (GetJobID podARunning) = some exampleJobWithA := by
  have h1 : GetJobID podARunning = "ns/g1" := by decide
  have h2 : (NewTask podA).Job ≠ "" := by decide
  have h3 : (NewTask podA).Job = "ns/g1" := by decide
  have hA : exampleCacheWithA = _ :=
    congrArg Prod.fst (addTask_of_ne (NewSchedulerCache "coscheduler") (NewTask podA) h2)
  rw [hA, h1, h3]
  simp only [AList.lookup_insert]
  rfl

theorem DeletePod_removes_tracked_witness :
    (Obj.pod podARunning = Obj.pod podARunning ∨
      ∃ key, Obj.pod podARunning = Obj.deletedFinalStateUnknown key (Obj.pod podARunning)) ∧
    exampleCacheWithA.TasksWellKeyed ∧ GetJobID podARunning ≠ "" ∧
    exampleCacheWithA.jobs.lookup (GetJobID podARunning) = some exampleJobWithA ∧
    exampleJobWithA.StatusPartition ∧
    exampleJobWithA.Tasks.lookup podARunning.UID = some (NewTask podA) ∧
    (NewTask podA).Status = Pending ∧ getTaskStatus podARunning = Running ∧
    (exampleCacheWithA.DeletePod (Obj.pod podARunning)).2 = none ∧
    ∃ job1,
      (exampleCacheWithA.DeletePod (Obj.pod podARunning)).1.jobs.lookup
        (GetJobID podARunning) = some job1 ∧
      job1.Tasks.lookup podARunning.UID = none ∧
      ∀ s, job1.bucketEntry s podARunning.UID = none :=
  have hw : exampleCacheWithA.TasksWellKeyed :=
    (tasksWellKeyed_handlers (NewSchedulerCache "coscheduler")
      (tasksWellKeyed_NewSchedulerCache _) (Obj.pod podA) (Obj.pod podA)).1
  have h := DeletePod_removes_tracked exampleCacheWithA podARunning (Obj.pod podARunning)
    exampleJobWithA (NewTask podA) (Or.inl rfl) hw (by decide) lookup_exampleCacheWithA
    statusPartition_exampleJobWithA (by decide)
  ⟨Or.inl rfl, hw, by decide, lookup_exampleCacheWithA, statusPartition_exampleJobWithA,
    by decide, by decide, by decide, h.1,
    h.2.elim (fun job1 hj => ⟨job1, hj.1, hj.2.1, hj.2.2.1⟩)⟩

theorem addTask_no_error (sc : schedulerCache) (task : Task) : (sc.addTask task).2 = none := by
  by_cases h : task.Job = ""
  · rw [addTask_of_empty sc task h]
  · rw [addTask_of_ne sc task h]

theorem updatePod_ok (sc : schedulerCache) (oldPod newPod : Pod)
    (hok : (sc.updatePod oldPod newPod).2 = none) :
    (sc.deletePod oldPod).2 = none ∧
    sc.updatePod oldPod newPod = (sc.deletePod oldPod).1.addTask (NewTask newPod) := by
  unfold schedulerCache.updatePod at hok ⊢
  cases hd : sc.deletePod oldPod with
  | mk sc1 err =>
    rw [hd] at hok
    cases err with
    | none => exact ⟨rfl, rfl⟩
    | some e => cases hok

theorem deletePod_clears_id (sc : schedulerCache) (oldPod : Pod) (G : JobID) (uid : TaskID)
    (hG : G ≠ "")
    (hP : ∀ old, sc.jobs.lookup G = some old → old.StatusPartition ∧
      ∀ t, old.Tasks.lookup uid = some t →
        oldPod.UID = uid ∧ GetJobID oldPod = G ∧ t.UID = uid ∧ t.Job = G) :
    ∀ s, ((sc.deletePod oldPod).1.jobOrNew G).bucketEntry s uid = none := by
  intro s
  unfold schedulerCache.jobOrNew
  cases hg : sc.jobs.lookup G with
  | none =>
    have hsame : ∀ task, (sc.deleteTask task).1.jobs.lookup G = none := by
      intro task
      rcases lookup_deleteTask sc task G with h | ⟨job, h, _⟩
      · rw [h, hg]
      · rw [hg] at h
        cases h
    have hl : (sc.deletePod oldPod).1.jobs.lookup G = none := by
      rcases deletePod_cases sc oldPod with h | ⟨job, t, _, _, h⟩ <;> rw [h] <;> exact hsame _
    rw [hl]
    rfl
  | some old =>
    obtain ⟨hp, hT⟩ := hP old hg
    cases hm : old.Tasks.lookup uid with
    | none =>
      have h0 : old.bucketEntry s uid = none := bucketEntry_none_of_not_member old hp uid hm s
      have hsame : ∀ task, ∃ job1, (sc.deleteTask task).1.jobs.lookup G = some job1 ∧
          job1.bucketEntry s uid = none := by
        intro task
        rcases lookup_deleteTask sc task G with h | ⟨job, h, h2⟩
        · exact ⟨old, by rw [h, hg], h0⟩
        · rw [hg] at h
          cases h
          exact ⟨_, h2, bucketEntry_DeleteTask_none _ _ _ _ h0⟩
      have hl : ∃ job1, (sc.deletePod oldPod).1.jobs.lookup G = some job1 ∧
          job1.bucketEntry s uid = none := by
        rcases deletePod_cases sc oldPod with h | ⟨job, t, _, _, h⟩ <;> rw [h] <;> exact hsame _
      obtain ⟨job1, h1, h2⟩ := hl
      rw [h1]
      exact h2
    | some t =>
      obtain ⟨hu, hj, htu, htj⟩ := hT t hm
      have hg1 : sc.jobs.lookup (GetJobID oldPod) = some old := by
        rw [hj]
        exact hg
      have hm1 : old.Tasks.lookup oldPod.UID = some t := by
        rw [hu]
        exact hm
      have hne1 : t.Job ≠ "" := by
        rw [htj]
        exact hG
      have hg2 : sc.jobs.lookup t.Job = some old := by
        rw [htj]
        exact hg
      have hm2 : old.Tasks.lookup t.UID = some t := by
        rw [htu]
        exact hm
      rw [deletePod_of_member sc oldPod old t hg1 hm1, deleteTask_of_tracked sc t old hne1 hg2,
        htj]
      simp only [AList.lookup_insert]
      rw [bucketEntry_DeleteTask old t t s uid hm2]
      by_cases hs : s = t.Status
      · rw [if_pos ⟨hs, htu.symm⟩]
      · have hc : ¬ (s = t.Status ∧ uid = t.UID) := fun e => hs e.1
        rw [if_neg hc]
        exact hp.member_in_no_other _ _ _ hm hs

theorem deletePod_no_error (sc : schedulerCache) (oldPod : Pod) (hw : sc.TasksWellKeyed)
    (hold : GetJobID oldPod = "" ∨ sc.jobs.lookup (GetJobID oldPod) ≠ none) :
    (sc.deletePod oldPod).2 = none := by
  have hfresh : (sc.deleteTask (NewTask oldPod)).2 = none := by
    rcases hold with h | h
    · rw [deleteTask_of_empty sc _ h]
    · by_cases he : GetJobID oldPod = ""
      · rw [deleteTask_of_empty sc _ he]
      · cases hl : sc.jobs.lookup (GetJobID oldPod) with
        | none => exact absurd hl h
        | some job => rw [deleteTask_of_tracked sc (NewTask oldPod) job he hl]
  rcases deletePod_cases sc oldPod with h | ⟨job, t, hg, hm, h⟩
  · rw [h]
    exact hfresh
  · rw [h]
    obtain ⟨_, hj⟩ := hw _ job _ t hg hm
    by_cases he : t.Job = ""
    · rw [deleteTask_of_empty sc _ he]
    · rw [deleteTask_of_tracked sc t job he (by rw [hj]; exact hg)]

/-- C14 (as stated) fails. (1) On the empty cache an update event whose old and new
snapshots both carry the label `g1` reports an error (the group of the old snapshot is
not tracked) and adds nothing: no group exists afterwards. (2) After the add event of the
pending pod A, an update event whose old snapshot carries no label and whose new
snapshot is A in phase Running leaves the id of A in the `Pending` bucket as well as in
the `Running` bucket. -/
theorem UpdatePod_counterexample :
    (podA.ResourceVersion ≠ podARunning.ResourceVersion ∧
      podARunning.Labels.lookup GroupNameLabelKey = some "g1" ∧
      ((NewSchedulerCache "coscheduler").UpdatePod (Obj.pod podA) (Obj.pod podARunning)).2 ≠
        none ∧
      ((NewSchedulerCache "coscheduler").UpdatePod (Obj.pod podA)
        (Obj.pod podARunning)).1.jobs.keys = []) ∧
    (podAUnlabelled.ResourceVersion ≠ podARunning.ResourceVersion ∧
      (exampleCacheWithA.UpdatePod (Obj.pod podAUnlabelled) (Obj.pod podARunning)).2 = none ∧
      ((exampleCacheWithA.UpdatePod (Obj.pod podAUnlabelled)
        (Obj.pod podARunning)).1.jobs.lookup "ns/g1").bind
          (fun job => job.bucketEntry Running "A") = some (NewTask podARunning) ∧
      ((exampleCacheWithA.UpdatePod (Obj.pod podAUnlabelled)
        (Obj.pod podARunning)).1.jobs.lookup "ns/g1").bind
          (fun job => job.bucketEntry Pending "A") = some (NewTask podA)) := by
  refine ⟨⟨by decide, by decide, by decide, by decide⟩, by decide, by decide, by decide,
    by decide⟩

/-- C14 (amended). Task-update postcondition: for every cache state and every
task-update event (old, new) with different version stamps in which the new snapshot
carries a non-empty group label: if `UpdatePod` reports no error, then afterwards the id
of the new snapshot is a member of the group `<namespace>/<label value>` with the status
classified fresh from the new snapshot and is in that status bucket; it is in no other
bucket of that group provided the index of the group was a status-partition and, if the
id was already a member, the old snapshot has the same id and group and the tracked task
records them.  No error is reported when the tasks are stored under their own id and
group and the old snapshot carries no group or its group is tracked. -/
theorem UpdatePod_post (sc : schedulerCache) (oldPod newPod : Pod) (v : String)
    (hrv : oldPod.ResourceVersion ≠ newPod.ResourceVersion)
    (hl : newPod.Labels.lookup GroupNameLabelKey = some v) (hv : v ≠ "") :
    ((sc.UpdatePod (Obj.pod oldPod) (Obj.pod newPod)).2 = none →
      ∃ job task,
        (sc.UpdatePod (Obj.pod oldPod) (Obj.pod newPod)).1.jobs.lookup
          (newPod.Namespace ++ "/" ++ v) = some job ∧
        job.Tasks.lookup newPod.UID = some task ∧
        task.Status = getTaskStatus newPod ∧
        job.bucketEntry (getTaskStatus newPod) newPod.UID = some task ∧
        ((∀ old, sc.jobs.lookup (newPod.Namespace ++ "/" ++ v) = some old →
            old.StatusPartition ∧
            ∀ t, old.Tasks.lookup newPod.UID = some t →
              oldPod.UID = newPod.UID ∧ GetJobID oldPod = newPod.Namespace ++ "/" ++ v ∧
              t.UID = newPod.UID ∧ t.Job = newPod.Namespace ++ "/" ++ v) →
          ∀ s, s ≠ getTaskStatus newPod → job.bucketEntry s newPod.UID = none)) ∧
    (sc.TasksWellKeyed →
      (GetJobID oldPod = "" ∨ sc.jobs.lookup (GetJobID oldPod) ≠ none) →
      (sc.UpdatePod (Obj.pod oldPod) (Obj.pod newPod)).2 = none) := by
  have hU : sc.UpdatePod (Obj.pod oldPod) (Obj.pod newPod) = sc.updatePod oldPod newPod := by
    simp [schedulerCache.UpdatePod, hrv]
  rw [hU]
  have hid : (NewTask newPod).Job = newPod.Namespace ++ "/" ++ v :=
    GetJobID_of_label newPod v hl hv
  have hG : newPod.Namespace ++ "/" ++ v ≠ "" :=
    fun e => length_ns_slash _ _ ((string_length_eq_zero _).mpr e)
  have hne : (NewTask newPod).Job ≠ "" := by
    rw [hid]
    exact hG
  constructor
  · intro hok
    obtain ⟨_, hup⟩ := updatePod_ok sc oldPod newPod hok
    rw [hup, addTask_of_ne _ _ hne, hid]
    refine ⟨_, NewTask newPod, AList.lookup_insert _, ?_, rfl, ?_, ?_⟩
    · rw [lookup_AddTask]
      exact if_pos rfl
    · rw [bucketEntry_AddTask]
      exact if_pos ⟨rfl, rfl⟩
    · intro hP s hs
      rw [bucketEntry_AddTask]
      have hc : ¬ (s = (NewTask newPod).Status ∧ newPod.UID = (NewTask newPod).UID) :=
        fun e => hs e.1
      rw [if_neg hc]
      exact deletePod_clears_id sc oldPod _ newPod.UID hG hP s
  · intro hw hold
    have hd := deletePod_no_error sc oldPod hw hold
    unfold schedulerCache.updatePod
    cases hdel : sc.deletePod oldPod with
    | mk sc1 err =>
      rw [hdel] at hd
      cases err with
      | none => exact addTask_no_error sc1 _
      | some e => cases hd

theorem UpdatePod_post_witness :
    podA.ResourceVersion ≠ podARunning.ResourceVersion ∧
    podARunning.Labels.lookup GroupNameLabelKey = some "g1" ∧ "g1" ≠ "" ∧
    (exampleCacheWithA.UpdatePod (Obj.pod podA) (Obj.pod podARunning)).2 = none ∧
    ∃ job task,
      (exampleCacheWithA.UpdatePod (Obj.pod podA) (Obj.pod podARunning)).1.jobs.lookup
        (podARunning.Namespace ++ "/" ++ "g1") = some job ∧
      job.Tasks.lookup podARunning.UID = some task ∧
      task.Status = getTaskStatus podARunning ∧
      job.bucketEntry (getTaskStatus podARunning) podARunning.UID = some task :=
  have h := UpdatePod_post exampleCacheWithA podA podARunning "g1" (by decide) (by decide)
    (by decide)
  have hok : (exampleCacheWithA.UpdatePod (Obj.pod podA) (Obj.pod podARunning)).2 = none :=
    by decide
  ⟨by decide, by decide, by decide, hok,
    (h.1 hok).elim (fun job hj => hj.elim (fun task ht =>
      ⟨job, task, ht.1, ht.2.1, ht.2.2.1, ht.2.2.2.1⟩))⟩

/-! ## Reconciliation: the recomputed status -/

theorem mem_removePodGroupCondition (conditions : List PodGroupCondition) (ty : String)
    (c : PodGroupCondition) :
    c ∈ removePodGroupCondition conditions ty ↔ c ∈ conditions ∧ c.CondType ≠ ty := by
  induction conditions with
  | nil => simp [removePodGroupCondition]
  | cons d ds ih =>
    unfold removePodGroupCondition
    by_cases hd : d.CondType = ty
    · rw [if_pos hd, ih, List.mem_cons]
      constructor
      · intro h
        exact ⟨Or.inr h.1, h.2⟩
      · intro h
        rcases h.1 with rfl | hm
        · exact absurd hd h.2
        · exact ⟨hm, h.2⟩
    · rw [if_neg hd, List.mem_cons, ih, List.mem_cons]
      constructor
      · intro h
        rcases h with rfl | hm
        · exact ⟨Or.inl rfl, hd⟩
        · exact ⟨Or.inr hm.1, hm.2⟩
      · intro h
        rcases h.1 with rfl | hm
        · exact Or.inl rfl
        · exact Or.inr ⟨hm, h.2⟩

theorem bucketLen_pos_of_entry (job : Job) (s : TaskStatus) (k : TaskID) (t : Task)
    (h : job.bucketEntry s k = some t) :
    job.bucketLen s > 0 ∧ ∃ tasks, job.TaskStatusIndex s = some tasks := by
  unfold Job.bucketEntry at h
  unfold Job.bucketLen
  cases hb : job.TaskStatusIndex s with
  | none =>
    rw [hb] at h
    cases h
  | some tasks =>
    rw [hb] at h
    have h1 : tasks.lookup k = some t := h
    refine ⟨?_, tasks, rfl⟩
    have hne : taskMap.len tasks ≠ 0 := by
      intro e
      have := (taskMap_len_eq_zero tasks).mp e k
      rw [h1] at this
      cases this
    show taskMap.len tasks > 0
    omega

theorem tasks_len_pos_of_member (job : Job) (k : TaskID) (t : Task)
    (h : job.Tasks.lookup k = some t) : taskMap.len job.Tasks ≠ 0 := by
  intro e
  have := (taskMap_len_eq_zero job.Tasks).mp e k
  rw [h] at this
  cases this

/-- C20 (as stated) fails on groups whose index is not a status-partition. (1) In the
group whose only member is `b` and whose `Unschedulable` bucket still holds an entry for
the deleted id `a`, the group is not ready, member `b` is bucketed `Unschedulable`, and
the message of the recomputed `Unschedulable` condition names `a` as well as `b`. (2) In
the group without members whose `Unschedulable` bucket still holds an entry for the
deleted id `a`, the group is not ready, the bucket is not empty, and the recomputed
status has no condition at all. -/
theorem recomputeStatus_counterexample :
    (exampleStaleEntryJob.Ready = false ∧
      exampleStaleEntryJob.Tasks.keys = ["b"] ∧
      exampleStaleEntryJob.Tasks.lookup "b" = some (exampleTask "b" Unschedulable) ∧
      exampleStaleEntryJob.bucketEntry Unschedulable "b" =
        some (exampleTask "b" Unschedulable) ∧
      exampleStaleEntryJob.Tasks.lookup "a" = none ∧
      (recomputeStatus exampleStaleEntryJob (examplePodGroup 5).Status 7).Conditions =
        [unschedulableCondition ["a", "b"] 7] ∧
      (unschedulableCondition ["a", "b"] 7).Message =
        "There are `a,b` tasks which are unschedulable") ∧
    (exampleStaleOnlyJob.Ready = false ∧
      exampleStaleOnlyJob.Tasks.keys = [] ∧
      exampleStaleOnlyJob.bucketEntry Unschedulable "a" =
        some (exampleTask "a" Unschedulable) ∧
      (recomputeStatus exampleStaleOnlyJob (examplePodGroup 5).Status 7).Conditions = []) := by
  refine ⟨⟨by decide, by decide, by decide, by decide, by decide, by decide, by decide⟩,
    by decide, by decide, by decide, by decide⟩

/-- C20 (amended). Recomputed status: for every group and fetched definition status, the
status computed by the reconciliation step has phase Running if the group is `Ready()`
and Pending otherwise; when ready it contains no `Unschedulable` condition and exactly one
`Scheduled` condition, which is last; when not ready, the index is a status-partition of
the member mapping and at least one member is bucketed `Unschedulable`, it contains
exactly one `Unschedulable` condition, which is last and whose message lists the names of
the entries of the `Unschedulable` bucket, which are exactly the members of status
`Unschedulable`; when not ready and the group has zero members it contains no conditions;
and its `Running`, `Succeeded` and `Failed` counters equal the sizes of the `Running`,
`Succeeded` and `Failed` buckets. -/
theorem recomputeStatus_spec (job : Job) (fetched : PodGroupStatus) (now : Nat) :
    (job.Ready = true → (recomputeStatus job fetched now).Phase = PodGroupRunning) ∧
    (job.Ready = false → (recomputeStatus job fetched now).Phase = PodGroupPending) ∧
    (job.Ready = true →
      (∀ c ∈ (recomputeStatus job fetched now).Conditions,
        c.CondType ≠ PodGroupUnschedulable) ∧
      ∃ pre, (recomputeStatus job fetched now).Conditions = pre ++ [scheduledCondition now] ∧
        (scheduledCondition now).CondType = PodGroupScheduled ∧
        ∀ c ∈ pre, c.CondType ≠ PodGroupScheduled) ∧
    (job.Ready = false → job.StatusPartition →
      (∃ k t, job.Tasks.lookup k = some t ∧ job.bucketEntry Unschedulable k = some t) →
      ∃ pre tasks,
        job.TaskStatusIndex Unschedulable = some tasks ∧
        (recomputeStatus job fetched now).Conditions =
          pre ++ [unschedulableCondition (tasks.entries.map (fun e => e.2.Name)) now] ∧
        (unschedulableCondition (tasks.entries.map (fun e => e.2.Name)) now).CondType =
          PodGroupUnschedulable ∧
        (unschedulableCondition (tasks.entries.map (fun e => e.2.Name)) now).Message =
          "There are `" ++ String.intercalate "," (tasks.entries.map (fun e => e.2.Name)) ++
            "` tasks which are unschedulable" ∧
        (∀ c ∈ pre, c.CondType ≠ PodGroupUnschedulable) ∧
        (∀ k t, tasks.lookup k = some t ↔
          (job.Tasks.lookup k = some t ∧ t.Status = Unschedulable))) ∧
    (job.Ready = false → taskMap.len job.Tasks = 0 →
      (recomputeStatus job fetched now).Conditions = []) ∧
    ((recomputeStatus job fetched now).Running = (job.bucketLen Running : Nat) ∧
      (recomputeStatus job fetched now).Succeeded = (job.bucketLen Succeeded : Nat) ∧
      (recomputeStatus job fetched now).Failed = (job.bucketLen Failed : Nat)) := by
  refine ⟨?_, ?_, ?_, ?_, ?_, rfl, rfl, rfl⟩
  · intro hr
    simp [recomputeStatus, hr]
  · intro hr
    simp [recomputeStatus, hr]
  · intro hr
    simp only [recomputeStatus, hr, if_true]
    refine ⟨?_, _, rfl, rfl, ?_⟩
    · intro c hc
      rw [List.mem_append] at hc
      rcases hc with hc | hc
      · rw [mem_removePodGroupCondition, mem_removePodGroupCondition] at hc
        exact hc.1.2
      · rw [List.mem_singleton] at hc
        rw [hc]
        exact (by decide : PodGroupScheduled ≠ PodGroupUnschedulable)
    · intro c hc
      rw [mem_removePodGroupCondition] at hc
      exact hc.2
  · intro hr hp hmem
    obtain ⟨k, t, hm, hb⟩ := hmem
    obtain ⟨hpos, tasks, hidx⟩ := bucketLen_pos_of_entry job Unschedulable k t hb
    have hlen := tasks_len_pos_of_member job k t hm
    have hbt : job.bucketTasks Unschedulable = tasks.entries.map (fun e => e.2) := by
      simp [Job.bucketTasks, hidx]
    refine ⟨removePodGroupCondition fetched.Conditions PodGroupUnschedulable, tasks, hidx,
      ?_, rfl, rfl, ?_, ?_⟩
    · simp only [recomputeStatus, hr, hpos, hlen, if_true, if_false, hbt, List.map_map,
        Bool.false_eq_true]
      rfl
    · intro c hc
      rw [mem_removePodGroupCondition] at hc
      exact hc.2
    · intro k1 t1
      have hbe : job.bucketEntry Unschedulable k1 = tasks.lookup k1 := by
        simp [Job.bucketEntry, hidx]
      rw [← hbe]
      constructor
      · intro h
        exact ⟨hp.entry_is_member _ _ _ h, StatusPartition.status_eq hp h⟩
      · intro h
        have := hp.member_in_bucket k1 t1 h.1
        rw [h.2] at this
        exact this
  · intro hr hz
    simp [recomputeStatus, hr, hz]

theorem recomputeStatus_spec_witness :
    (recomputeStatus exampleReadyJob (examplePodGroup 3).Status 7).Phase = PodGroupRunning ∧
    (recomputeStatus exampleReadyJob (examplePodGroup 3).Status 7).Conditions =
      [scheduledCondition 7] ∧
    (recomputeStatus exampleReadyJob (examplePodGroup 3).Status 7).Running = 1 :=
  ⟨(recomputeStatus_spec exampleReadyJob (examplePodGroup 3).Status 7).1 (by decide),
    by decide, by decide⟩

/-! ## Reconciliation: two runs in a row -/

/-- C19 fails on the code. The cache tracks the ready group `ns/g1` (quorum 1, pod A
running) with its definition attached, and the lister holds that definition.  A first
run at clock reading 1 writes back the status with a `Scheduled` condition stamped 1.
A second run at clock reading 2, with no event in between, recomputes the condition with
the stamp 2, finds the status different from the one of the definition reference and
writes back again; this happens whether or not the definition reference of the group is
the object held by the lister. -/
theorem reconciliation_writes_back_twice :
    (syncPodGroupStatus true exampleReadyCache (exampleLister 1) 1).outcomes =
      [("ns/g1", SyncOutcome.writeBack "ns" (examplePodGroup 1) (exampleReadyStatus 1))] ∧
    (syncPodGroupStatus true
      (syncPodGroupStatus true exampleReadyCache (exampleLister 1) 1).cache
      (syncPodGroupStatus true exampleReadyCache (exampleLister 1) 1).lister 2).outcomes =
      [("ns/g1", SyncOutcome.writeBack "ns"
        { examplePodGroup 1 with Status := exampleReadyStatus 1 } (exampleReadyStatus 2))] ∧
    (syncPodGroupStatus false exampleReadyCache (exampleLister 1) 1).outcomes =
      [("ns/g1", SyncOutcome.writeBack "ns" (examplePodGroup 1) (exampleReadyStatus 1))] ∧
    (syncPodGroupStatus false
      (syncPodGroupStatus false exampleReadyCache (exampleLister 1) 1).cache
      (syncPodGroupStatus false exampleReadyCache (exampleLister 1) 1).lister 2).outcomes =
      [("ns/g1", SyncOutcome.writeBack "ns"
        { examplePodGroup 1 with Status := exampleReadyStatus 1 } (exampleReadyStatus 2))] ∧
    exampleReadyStatus 1 ≠ exampleReadyStatus 2 := by
  refine ⟨by decide, by decide, by decide, by decide, by decide⟩

/-! ## Group cache: the postconditions at concrete events -/

theorem AddPod_post_witness :
    (NewSchedulerCache "coscheduler").AddPod (Obj.pod podAUnlabelled) =
      (NewSchedulerCache "coscheduler", none) ∧
    ∃ job task,
      ((NewSchedulerCache "coscheduler").AddPod (Obj.pod podARunning)).1.jobs.lookup
        (podARunning.Namespace ++ "/" ++ "g1") = some job ∧
      job.Tasks.lookup podARunning.UID = some task ∧
      task.Status = getTaskStatus podARunning ∧
      job.bucketEntry (getTaskStatus podARunning) podARunning.UID = some task :=
  ⟨(AddPod_post (NewSchedulerCache "coscheduler") podAUnlabelled).1 (Or.inl (by decide)),
    ((AddPod_post (NewSchedulerCache "coscheduler") podARunning).2 "g1" (by decide)
      (by decide)).elim (fun job hj => hj.elim (fun task ht =>
        ⟨job, task, ht.1, ht.2.1, ht.2.2.1, ht.2.2.2.1⟩))⟩

theorem update_same_version_unchanged_witness :
    podA.ResourceVersion = (examplePod "A" PodRunning "node1" none).ResourceVersion ∧
    podA ≠ examplePod "A" PodRunning "node1" none ∧
    exampleCacheWithA.UpdatePod (Obj.pod podA)
      (Obj.pod (examplePod "A" PodRunning "node1" none)) = (exampleCacheWithA, none) ∧
    exampleCacheWithA.UpdatePodGroup (Obj.podGroup (examplePodGroup 3))
      (Obj.podGroup (examplePodGroup 5)) = (exampleCacheWithA, none) :=
  ⟨rfl, by decide,
    (update_same_version_unchanged exampleCacheWithA).1 podA
      (examplePod "A" PodRunning "node1" none) rfl,
    (update_same_version_unchanged exampleCacheWithA).2 (examplePodGroup 3)
      (examplePodGroup 5) rfl⟩

theorem AddPodGroup_post_witness :
    ∃ job,
      (exampleCacheWithA.AddPodGroup (Obj.podGroup (examplePodGroup 3))).1.jobs.lookup
        ((examplePodGroup 3).Namespace ++ "/" ++ (examplePodGroup 3).Name) = some job ∧
      job.MinAvailable = 3 ∧ job.PodGroup = some (examplePodGroup 3) ∧
      job.Tasks = exampleJobWithA.Tasks :=
  (AddPodGroup_post exampleCacheWithA (examplePodGroup 3)).2.elim (fun job hj =>
    ⟨job, hj.1, hj.2.2.2.1, hj.2.2.2.2.2.1,
      (hj.2.2.2.2.2.2.1 exampleJobWithA (by
        have h := lookup_exampleCacheWithA
        have h1 : GetJobID podARunning =
            (examplePodGroup 3).Namespace ++ "/" ++ (examplePodGroup 3).Name := by decide
        rw [h1] at h
        exact h)).1⟩)

/-! ## Group cache: errors and the key set -/

theorem deleteTask_unchanged_of_error (sc : schedulerCache) (task : Task)
    (h : (sc.deleteTask task).2 ≠ none) : (sc.deleteTask task).1 = sc := by
  unfold schedulerCache.deleteTask at h ⊢
  by_cases hn : task.Job.length ≠ 0
  · rw [if_pos hn] at h ⊢
    cases hl : sc.jobs.lookup task.Job with
    | none => rfl
    | some job =>
      rw [hl] at h
      exact absurd rfl h
  · rw [if_neg hn]

theorem deletePod_unchanged_of_error (sc : schedulerCache) (pod : Pod)
    (h : (sc.deletePod pod).2 ≠ none) : (sc.deletePod pod).1 = sc := by
  rcases deletePod_cases sc pod with hd | ⟨job, t, _, _, hd⟩
  · rw [hd] at h ⊢
    exact deleteTask_unchanged_of_error sc _ h
  · rw [hd] at h ⊢
    exact deleteTask_unchanged_of_error sc _ h

theorem updatePod_unchanged_of_error (sc : schedulerCache) (oldPod newPod : Pod)
    (h : (sc.updatePod oldPod newPod).2 ≠ none) : (sc.updatePod oldPod newPod).1 = sc := by
  have hd := deletePod_unchanged_of_error sc oldPod
  unfold schedulerCache.updatePod at h ⊢
  cases hdel : sc.deletePod oldPod with
  | mk sc1 err =>
    rw [hdel] at h hd
    cases err with
    | none => exact absurd (addTask_no_error sc1 (NewTask newPod)) h
    | some e => exact hd (by simp)

theorem deletePodGroup_unchanged_of_error (sc : schedulerCache) (jobID : JobID)
    (h : (sc.deletePodGroup jobID).2 ≠ none) : (sc.deletePodGroup jobID).1 = sc := by
  unfold schedulerCache.deletePodGroup at h ⊢
  cases hl : sc.jobs.lookup jobID with
  | none => rfl
  | some job =>
    rw [hl] at h
    exact absurd rfl h

/-- C21. Errors leave the cache unchanged: for every cache state and every event,
whenever the event handler (`AddPod`, `UpdatePod`, `DeletePod`, `AddPodGroup`,
`UpdatePodGroup`, `DeletePodGroup`) reports an error, whether for a payload of unexpected
type or for a delete or update whose group is not tracked, the cache after the handler
is equal to the cache before it. -/
theorem errors_leave_cache_unchanged (sc : schedulerCache) (e : Event)
    (h : (sc.handle e).2 ≠ none) : (sc.handle e).1 = sc := by
  cases e with
  | AddPod obj =>
    cases obj with
    | pod pod => exact absurd (addTask_no_error sc (NewTask pod)) h
    | _ => rfl
  | UpdatePod oldObj newObj =>
    cases oldObj with
    | pod oldPod =>
      cases newObj with
      | pod newPod =>
        simp only [schedulerCache.handle, schedulerCache.UpdatePod] at h ⊢
        by_cases hrv : oldPod.ResourceVersion = newPod.ResourceVersion
        · simp [hrv]
        · simp only [hrv, if_false] at h ⊢
          exact updatePod_unchanged_of_error sc oldPod newPod h
      | _ => rfl
    | _ => rfl
  | DeletePod obj =>
    cases obj with
    | pod pod => exact deletePod_unchanged_of_error sc pod h
    | deletedFinalStateUnknown key inner =>
      cases inner with
      | pod pod => exact deletePod_unchanged_of_error sc pod h
      | _ => rfl
    | _ => rfl
  | AddPodGroup obj =>
    cases obj with
    | podGroup pg => exact absurd rfl h
    | _ => rfl
  | UpdatePodGroup oldObj newObj =>
    cases oldObj with
    | podGroup oldPg =>
      cases newObj with
      | podGroup newPg =>
        simp only [schedulerCache.handle, schedulerCache.UpdatePodGroup] at h ⊢
        by_cases hrv : oldPg.ResourceVersion = newPg.ResourceVersion
        · simp [hrv]
        · simp [hrv] at h
      | _ => rfl
    | _ => rfl
  | DeletePodGroup obj =>
    cases obj with
    | podGroup pg => exact deletePodGroup_unchanged_of_error sc _ h
    | deletedFinalStateUnknown key inner =>
      cases inner with
      | podGroup pg => exact deletePodGroup_unchanged_of_error sc _ h
      | _ => rfl
    | _ => rfl

theorem errors_leave_cache_unchanged_witness :
    (exampleCacheWithA.handle (Event.DeletePod (Obj.pod podAOtherGroup))).2 ≠ none ∧
    (exampleCacheWithA.handle (Event.DeletePod (Obj.pod podAOtherGroup))).1 =
      exampleCacheWithA ∧
    (exampleCacheWithA.handle (Event.AddPod (Obj.other "node"))).2 ≠ none ∧
    (exampleCacheWithA.handle (Event.AddPod (Obj.other "node"))).1 = exampleCacheWithA :=
  ⟨by decide,
    errors_leave_cache_unchanged exampleCacheWithA (Event.DeletePod (Obj.pod podAOtherGroup))
      (by decide),
    by decide,
    errors_leave_cache_unchanged exampleCacheWithA (Event.AddPod (Obj.other "node"))
      (by decide)⟩

/-! ## Gang plugin: Permit without PreFilter state -/

/-- C22. Permit without PreFilter state is an internal error: for every pod that carries
the group label and every per-attempt state that holds no group definition under the key
of the plugin (nothing, or a value of another type), `Permit` returns the `Error` status
with zero timeout, so neither Wait nor success, and calls `Allow` on no parked pod. -/
theorem Permit_without_state (g : Gang) (cycleState : CycleState) (pod : Pod)
    (hlab : pod.Labels.lookup GroupNameLabelKey ≠ none)
    (hst : ∀ pg, cycleState.storage.lookup preFilterKey ≠
      some (StateData.preFilterStateData pg)) :
    (∃ msg, (g.Permit cycleState pod).status = some (NewStatus Code.Error msg)) ∧
    (g.Permit cycleState pod).timeout = 0 ∧
    (g.Permit cycleState pod).allowed = [] ∧
    (g.Permit cycleState pod).status ≠ some (NewStatus Code.Wait "") ∧
    (g.Permit cycleState pod).status ≠ none := by
  have hP : ∃ msg, g.Permit cycleState pod =
      { status := some (NewStatus Code.Error msg), timeout := 0, allowed := [] } := by
    unfold Gang.Permit
    rw [Skip_eq_false g pod hlab]
    unfold getPreFilterStateData CycleState.Read
    cases hl : cycleState.storage.lookup preFilterKey with
    | none => exact ⟨_, rfl⟩
    | some val =>
      cases val with
      | preFilterStateData pg => exact absurd hl (hst pg)
      | other tag => exact ⟨_, rfl⟩
  obtain ⟨msg, hmsg⟩ := hP
  rw [hmsg]
  refine ⟨⟨msg, rfl⟩, rfl, rfl, ?_, ?_⟩
  · simp [NewStatus]
  · simp

theorem Permit_without_state_witness :
    podA.Labels.lookup GroupNameLabelKey ≠ none ∧
    (∃ msg, ((exampleGang 3 [podB] []).Permit (CycleState.mk []) podA).status =
      some (NewStatus Code.Error msg)) ∧
    ((exampleGang 3 [podB] []).Permit
      (CycleState.mk [(preFilterKey, StateData.other "x")]) podA).allowed = [] :=
  ⟨by decide,
    (Permit_without_state (exampleGang 3 [podB] []) (CycleState.mk []) podA (by decide)
      (fun pg h => by simp at h)).1,
    (Permit_without_state (exampleGang 3 [podB] [])
      (CycleState.mk [(preFilterKey, StateData.other "x")]) podA (by decide)
      (fun pg h => by
        have h1 : (CycleState.mk [(preFilterKey, StateData.other "x")]).storage.lookup
            preFilterKey = some (StateData.other "x") := by decide
        rw [h1] at h
        cases h)).2.2.1⟩

/-! ## Group cache: the key set only grows -/

theorem mem_jobs_addTask (sc : schedulerCache) (task : Task) (id : JobID) (h : id ∈ sc.jobs) :
    id ∈ (sc.addTask task).1.jobs := by
  by_cases hj : task.Job = ""
  · rw [addTask_of_empty sc task hj]
    exact h
  · rw [addTask_of_ne sc task hj]
    exact (AList.mem_insert _).mpr (Or.inr h)

theorem mem_jobs_deleteTask (sc : schedulerCache) (task : Task) (id : JobID)
    (h : id ∈ sc.jobs) : id ∈ (sc.deleteTask task).1.jobs := by
  unfold schedulerCache.deleteTask
  by_cases hn : task.Job.length ≠ 0
  · rw [if_pos hn]
    cases hl : sc.jobs.lookup task.Job with
    | none => exact h
    | some job => exact (AList.mem_insert _).mpr (Or.inr h)
  · rw [if_neg hn]
    exact h

theorem mem_jobs_deletePod (sc : schedulerCache) (pod : Pod) (id : JobID)
    (h : id ∈ sc.jobs) : id ∈ (sc.deletePod pod).1.jobs := by
  unfold schedulerCache.deletePod
  exact mem_jobs_deleteTask sc _ id h

theorem mem_jobs_updatePod (sc : schedulerCache) (oldPod newPod : Pod) (id : JobID)
    (h : id ∈ sc.jobs) : id ∈ (sc.updatePod oldPod newPod).1.jobs := by
  have hd := mem_jobs_deletePod sc oldPod id h
  unfold schedulerCache.updatePod
  cases hdel : sc.deletePod oldPod with
  | mk sc1 err =>
    rw [hdel] at hd
    cases err with
    | none => exact mem_jobs_addTask sc1 _ id hd
    | some e => exact hd

theorem mem_jobs_setPodGroup (sc : schedulerCache) (podGroup : PodGroup) (id : JobID)
    (h : id ∈ sc.jobs) : id ∈ (sc.setPodGroup podGroup).jobs := by
  rw [setPodGroup_eq]
  exact (AList.mem_insert _).mpr (Or.inr h)

theorem mem_jobs_deletePodGroup (sc : schedulerCache) (jobID : JobID) (id : JobID)
    (h : id ∈ sc.jobs) : id ∈ (sc.deletePodGroup jobID).1.jobs := by
  unfold schedulerCache.deletePodGroup
  cases hl : sc.jobs.lookup jobID with
  | none => exact h
  | some job => exact (AList.mem_insert _).mpr (Or.inr h)

theorem mem_jobs_handle (sc : schedulerCache) (e : Event) (id : JobID) (h : id ∈ sc.jobs) :
    id ∈ (sc.handle e).1.jobs := by
  cases e with
  | AddPod obj =>
    cases obj with
    | pod pod => exact mem_jobs_addTask sc _ id h
    | _ => exact h
  | UpdatePod oldObj newObj =>
    cases oldObj with
    | pod oldPod =>
      cases newObj with
      | pod newPod =>
        simp only [schedulerCache.handle, schedulerCache.UpdatePod]
        by_cases hrv : oldPod.ResourceVersion = newPod.ResourceVersion
        · rw [if_pos hrv]
          exact h
        · rw [if_neg hrv]
          exact mem_jobs_updatePod sc oldPod newPod id h
      | _ => exact h
    | _ => exact h
  | DeletePod obj =>
    cases obj with
    | pod pod => exact mem_jobs_deletePod sc pod id h
    | deletedFinalStateUnknown key inner =>
      cases inner with
      | pod pod => exact mem_jobs_deletePod sc pod id h
      | _ => exact h
    | _ => exact h
  | AddPodGroup obj =>
    cases obj with
    | podGroup pg => exact mem_jobs_setPodGroup sc pg id h
    | _ => exact h
  | UpdatePodGroup oldObj newObj =>
    cases oldObj with
    | podGroup oldPg =>
      cases newObj with
      | podGroup newPg =>
        simp only [schedulerCache.handle, schedulerCache.UpdatePodGroup]
        by_cases hrv : oldPg.ResourceVersion = newPg.ResourceVersion
        · rw [if_pos hrv]
          exact h
        · rw [if_neg hrv]
          exact mem_jobs_setPodGroup sc newPg id h
      | _ => exact h
    | _ => exact h
  | DeletePodGroup obj =>
    cases obj with
    | podGroup pg => exact mem_jobs_deletePodGroup sc _ id h
    | deletedFinalStateUnknown key inner =>
      cases inner with
      | podGroup pg => exact mem_jobs_deletePodGroup sc _ id h
      | _ => exact h
    | _ => exact h

theorem mem_jobs_handleAll (events : List Event) (sc : schedulerCache) (id : JobID)
    (h : id ∈ sc.jobs) : id ∈ (sc.handleAll events).jobs := by
  induction events generalizing sc with
  | nil => exact h
  | cons e events ih => exact ih (sc.handle e).1 (mem_jobs_handle sc e id h)

/-- C25. Groups are never removed: for every cache state and every event handled by any of
the six event handlers, every group id present in the group map before the event is
still present after it, and so it is after every sequence of events (the key set only
grows), including after the deletion of the last task of the group and of its
definition. -/
theorem groups_never_removed (sc : schedulerCache) (e : Event) (id : JobID)
    (h : id ∈ sc.jobs) :
    id ∈ (sc.handle e).1.jobs ∧ ∀ events, id ∈ (sc.handleAll events).jobs :=
  ⟨mem_jobs_handle sc e id h, fun events => mem_jobs_handleAll events sc id h⟩

theorem groups_never_removed_witness :
    "ns/g1" ∈ (((NewSchedulerCache "coscheduler").handleAll
      [Event.AddPod (Obj.pod podA), Event.AddPodGroup (Obj.podGroup (examplePodGroup 1)),
        Event.DeletePod (Obj.pod podA)]).jobs) ∧
    "ns/g1" ∈ ((((NewSchedulerCache "coscheduler").handleAll
      [Event.AddPod (Obj.pod podA), Event.AddPodGroup (Obj.podGroup (examplePodGroup 1)),
        Event.DeletePod (Obj.pod podA)]).handle
      (Event.DeletePodGroup (Obj.podGroup (examplePodGroup 1)))).1.jobs) ∧
    ((((NewSchedulerCache "coscheduler").handleAll
      [Event.AddPod (Obj.pod podA), Event.AddPodGroup (Obj.podGroup (examplePodGroup 1)),
        Event.DeletePod (Obj.pod podA)]).handle
      (Event.DeletePodGroup (Obj.podGroup (examplePodGroup 1)))).1.jobs.lookup "ns/g1").map
        (fun job => (taskMap.len job.Tasks, job.PodGroup)) = some (0, none) :=
  ⟨by decide,
    (groups_never_removed _ (Event.DeletePodGroup (Obj.podGroup (examplePodGroup 1))) "ns/g1"
      (by decide)).1,
    by decide⟩

/-! ## Divergences between the checkpoints and in the reconciliation loop -/

/-- C27. Reconciliation and groups without an attached definition: in the cache obtained
by the add event of pod A, the group `ns/g1` is tracked with no definition reference;
when the lister finds the definition `ns/g1`, the run of `syncPodGroupStatus` reaches the
comparison with `job.PodGroup.Status` for this group, dereferences the nil reference and
ends there, whatever the clock reading and the sharing of objects. -/
theorem sync_without_definition_fails (shared : Bool) (now : Nat) :
    (exampleCacheWithA.jobs.lookup "ns/g1").map (fun job => job.PodGroup) = some none ∧
    (syncPodGroupStatus shared exampleCacheWithA (exampleLister 1) now).crashed = true ∧
    (syncPodGroupStatus shared exampleCacheWithA (exampleLister 1) now).outcomes =
      [("ns/g1", SyncOutcome.nilDereference)] :=
  ⟨by decide, rfl, rfl⟩

/-- C28. The two checkpoints on a pod whose group label is present with an empty value:
for every plugin instance, `PreFilter` on the fresh per-attempt state returns success and
leaves the state as it was, `GetJobID` is empty, yet `Skip` is false and the following
`Permit` on that state returns the internal `Error` status. -/
theorem empty_label_PreFilter_then_Permit (g : Gang) :
    (g.PreFilter (CycleState.mk []) podEmptyLabel).1 = none ∧
    (g.PreFilter (CycleState.mk []) podEmptyLabel).2.storage = [] ∧
    GetJobID podEmptyLabel = "" ∧
    g.Skip podEmptyLabel = false ∧
    (g.Permit (g.PreFilter (CycleState.mk []) podEmptyLabel).2 podEmptyLabel).status =
      some (NewStatus Code.Error "not found") :=
  ⟨rfl, rfl, by decide, rfl, rfl⟩

/-- C29. Permit and parked pods of another namespace: with the definition `ns/g1` of
quorum 2 in the per-attempt state and a waiting pool holding pod A of namespace `ns` and
a pod of namespace `other`, both with group label `g1`, `calcWaitingPods` counts the pod
in hand and pod A only, the quorum is reached, and `Permit` calls `Allow` on both parked
pods, the one of namespace `other` included. -/
theorem Permit_releases_other_namespace :
    (exampleGang 2 [podA, podOtherNamespace] []).calcWaitingPods "ns" "g1" = 2 ∧
    ((exampleGang 2 [podA, podOtherNamespace] []).Permit (exampleState (examplePodGroup 2))
      podB).status = none ∧
    ((exampleGang 2 [podA, podOtherNamespace] []).Permit (exampleState (examplePodGroup 2))
      podB).allowed = [podA, podOtherNamespace] ∧
    podOtherNamespace.Namespace ≠ (examplePodGroup 2).Namespace ∧
    groupLabelValue podOtherNamespace = (examplePodGroup 2).Name := by
  decide

/-! ## Gang plugin: lower counts -/

theorem calcRunningPods_nonneg (g : Gang) (ns name : String) :
    0 ≤ g.calcRunningPods ns name := by
  unfold Gang.calcRunningPods
  split
  · exact le_refl _
  · exact Int.natCast_nonneg _

theorem calcTotalPods_nonneg (g : Gang) (ns name : String) :
    0 ≤ g.calcTotalPods ns name := by
  unfold Gang.calcTotalPods
  split
  · exact le_refl _
  · exact Int.natCast_nonneg _

theorem calcRunningPods_of_error (g : Gang) (ns name err : String)
    (h : g.Handle.snapshotPods = Except.error err) : g.calcRunningPods ns name = 0 := by
  simp [Gang.calcRunningPods, FrameworkHandle.FilteredList, h]

theorem calcTotalPods_of_error (g : Gang) (ns name err : String)
    (h : g.Handle.clientPods = Except.error err) : g.calcTotalPods ns name = 0 := by
  simp [Gang.calcTotalPods, FrameworkHandle.ListPods, h]

theorem Permit_status_eq (g : Gang) (cycleState : CycleState) (pod : Pod) :
    (g.Permit cycleState pod).status =
      if g.Skip pod then none
      else
        match getPreFilterStateData cycleState with
        | Except.error err => some (NewStatus Code.Error err)
        | Except.ok stateData =>
          if g.calcWaitingPods stateData.Namespace stateData.Name +
              g.calcRunningPods stateData.Namespace stateData.Name <
                stateData.Spec.MinMember then
            some (NewStatus Code.Wait "")
          else none := by
  unfold Gang.Permit
  by_cases hs : g.Skip pod = true
  · simp [hs]
  · rw [if_neg hs, if_neg hs]
    cases getPreFilterStateData cycleState with
    | error err => rfl
    | ok stateData => exact apply_ite PermitResult.status _ _ _

theorem PreFilter_status_eq (g : Gang) (cycleState : CycleState) (pod : Pod) :
    (g.PreFilter cycleState pod).1 =
      if pod.Labels.length = 0 then none
      else
        match pod.Labels.lookup GroupNameLabelKey with
        | some pgName =>
          if pgName.length ≠ 0 then
            match g.getPodGroup pod.Namespace pgName with
            | Except.error err => some (NewStatus Code.UnschedulableAndUnresolvable err)
            | Except.ok pg =>
              if g.calcTotalPods pg.Namespace pg.Name < pg.Spec.MinMember then
                some (NewStatus Code.UnschedulableAndUnresolvable
                  ("The total pods of PodGroup " ++ pgName ++ " less than minMember " ++
                    toString pg.Spec.MinMember))
              else none
          else none
        | none => none := by
  unfold Gang.PreFilter
  split
  · rfl
  · split
    · split
      · split
        · rfl
        · split <;> rfl
      · rfl
    · rfl

/-- C26. Undercounting fails closed: for every per-attempt state and pod, and every two
plugin instances with the same definitions where the waiting, running and total counts
of the first are at most those of the second (as they are when a listing of the first
fails and its count is zero): if `Permit` releases with the lower counts it releases with
the higher ones, if `Permit` answers Wait with the higher counts it answers Wait with the
lower ones, if `PreFilter` admits with the lower total it admits with the higher one, and
if `PreFilter` rejects with the higher total it rejects with the lower one. -/
theorem undercounting_fails_closed (g1 g : Gang) (cycleState : CycleState) (pod : Pod)
    (hl : g1.PodGroupLister = g.PodGroupLister)
    (hw : ∀ ns name, g1.calcWaitingPods ns name ≤ g.calcWaitingPods ns name)
    (hr : ∀ ns name, g1.calcRunningPods ns name ≤ g.calcRunningPods ns name)
    (ht : ∀ ns name, g1.calcTotalPods ns name ≤ g.calcTotalPods ns name) :
    ((g1.Permit cycleState pod).status = none → (g.Permit cycleState pod).status = none) ∧
    ((g.Permit cycleState pod).status = some (NewStatus Code.Wait "") →
      (g1.Permit cycleState pod).status = some (NewStatus Code.Wait "")) ∧
    ((g1.PreFilter cycleState pod).1 = none → (g.PreFilter cycleState pod).1 = none) ∧
    ((g.PreFilter cycleState pod).1 ≠ none → (g1.PreFilter cycleState pod).1 ≠ none) := by
  have hskip : g1.Skip pod = g.Skip pod := rfl
  have hget : ∀ ns name, g1.getPodGroup ns name = g.getPodGroup ns name := by
    intro ns name
    unfold Gang.getPodGroup
    rw [hl]
  have hpermit : (g1.Permit cycleState pod).status = none →
      (g.Permit cycleState pod).status = none := by
    rw [Permit_status_eq, Permit_status_eq, hskip]
    by_cases hs : g.Skip pod = true
    · simp [hs]
    · simp only [hs]
      cases getPreFilterStateData cycleState with
      | error err => exact id
      | ok stateData =>
        simp only
        have h1 := hw stateData.Namespace stateData.Name
        have h2 := hr stateData.Namespace stateData.Name
        intro h
        by_cases hc1 : g1.calcWaitingPods stateData.Namespace stateData.Name +
            g1.calcRunningPods stateData.Namespace stateData.Name < stateData.Spec.MinMember
        · simp [hc1] at h
        · have hc : ¬ g.calcWaitingPods stateData.Namespace stateData.Name +
              g.calcRunningPods stateData.Namespace stateData.Name <
                stateData.Spec.MinMember := by omega
          simp [hc]
  have hwait : (g.Permit cycleState pod).status = some (NewStatus Code.Wait "") →
      (g1.Permit cycleState pod).status = some (NewStatus Code.Wait "") := by
    rw [Permit_status_eq, Permit_status_eq, hskip]
    by_cases hs : g.Skip pod = true
    · simp [hs]
    · simp only [hs]
      cases getPreFilterStateData cycleState with
      | error err => exact id
      | ok stateData =>
        simp only
        have h1 := hw stateData.Namespace stateData.Name
        have h2 := hr stateData.Namespace stateData.Name
        intro h
        by_cases hc : g.calcWaitingPods stateData.Namespace stateData.Name +
            g.calcRunningPods stateData.Namespace stateData.Name < stateData.Spec.MinMember
        · have hc1 : g1.calcWaitingPods stateData.Namespace stateData.Name +
              g1.calcRunningPods stateData.Namespace stateData.Name <
                stateData.Spec.MinMember := by omega
          simp [hc1]
        · simp [hc] at h
  have hpre : (g1.PreFilter cycleState pod).1 = none →
      (g.PreFilter cycleState pod).1 = none := by
    rw [PreFilter_status_eq, PreFilter_status_eq]
    by_cases h0 : pod.Labels.length = 0
    · simp [h0]
    · rw [if_neg h0, if_neg h0]
      cases pod.Labels.lookup GroupNameLabelKey with
      | none => exact id
      | some pgName =>
        simp only
        by_cases hn : pgName.length ≠ 0
        · rw [if_pos hn, if_pos hn, hget]
          cases g.getPodGroup pod.Namespace pgName with
          | error err => exact id
          | ok pg =>
            simp only
            have h3 := ht pg.Namespace pg.Name
            intro h
            by_cases hc1 : g1.calcTotalPods pg.Namespace pg.Name < pg.Spec.MinMember
            · rw [if_pos hc1] at h
              cases h
            · have hc : ¬ g.calcTotalPods pg.Namespace pg.Name < pg.Spec.MinMember := by
                omega
              rw [if_neg hc]
        · rw [if_neg hn, if_neg hn]
          exact id
  exact ⟨hpermit, hwait, hpre, fun h h1 => h (hpre h1)⟩

theorem undercounting_fails_closed_witness :
    (exampleGangListingFails 3 [podB]).calcTotalPods "ns" "g1" = 0 ∧
    (exampleGang 3 [podB] [podA, podB]).calcTotalPods "ns" "g1" = 2 ∧
    ((exampleGang 3 [podB] [podA, podB]).Permit (exampleState (examplePodGroup 3))
      podA).status = some (NewStatus Code.Wait "") ∧
    ((exampleGangListingFails 3 [podB]).Permit (exampleState (examplePodGroup 3))
      podA).status = some (NewStatus Code.Wait "") ∧
    ((exampleGang 3 [podB] [podA, podB]).PreFilter (exampleState (examplePodGroup 3))
      podA).1 ≠ none ∧
    ((exampleGangListingFails 3 [podB]).PreFilter (exampleState (examplePodGroup 3))
      podA).1 ≠ none ∧
    ((exampleGangListingFails 2 [podB]).Permit (exampleState (examplePodGroup 2))
      podA).status = none ∧
    ((exampleGang 2 [podB] [podA, podB]).Permit (exampleState (examplePodGroup 2))
      podA).status = none :=
  ⟨by decide, by decide, by decide,
    (undercounting_fails_closed (exampleGangListingFails 3 [podB])
      (exampleGang 3 [podB] [podA, podB]) (exampleState (examplePodGroup 3)) podA rfl
      (fun _ _ => le_refl _)
      (fun ns name => by
        rw [calcRunningPods_of_error _ ns name "timeout" rfl]
        exact calcRunningPods_nonneg _ ns name)
      (fun ns name => by
        rw [calcTotalPods_of_error _ ns name "timeout" rfl]
        exact calcTotalPods_nonneg _ ns name)).2.1 (by decide),
    by decide,
    (undercounting_fails_closed (exampleGangListingFails 3 [podB])
      (exampleGang 3 [podB] [podA, podB]) (exampleState (examplePodGroup 3)) podA rfl
      (fun _ _ => le_refl _)
      (fun ns name => by
        rw [calcRunningPods_of_error _ ns name "timeout" rfl]
        exact calcRunningPods_nonneg _ ns name)
      (fun ns name => by
        rw [calcTotalPods_of_error _ ns name "timeout" rfl]
        exact calcTotalPods_nonneg _ ns name)).2.2.2 (by decide),
    by decide,
    (undercounting_fails_closed (exampleGangListingFails 2 [podB])
      (exampleGang 2 [podB] [podA, podB]) (exampleState (examplePodGroup 2)) podA rfl
      (fun _ _ => le_refl _)
      (fun ns name => by
        rw [calcRunningPods_of_error _ ns name "timeout" rfl]
        exact calcRunningPods_nonneg _ ns name)
      (fun ns name => by
        rw [calcTotalPods_of_error _ ns name "timeout" rfl]
        exact calcTotalPods_nonneg _ ns name)).1 (by decide)⟩

/-! ## Group index: no empty bucket -/

theorem noEmptyBucket_addTaskIndex (job : Job) (task : Task) (h : job.NoEmptyBucket) :
    (job.addTaskIndex task).NoEmptyBucket := by
  intro s tasks hs
  unfold Job.addTaskIndex at hs
  by_cases hst : s = task.Status
  · subst hst
    simp only [Function.update_same, Option.some.injEq] at hs
    intro hlen
    have hnone := (taskMap_len_eq_zero tasks).mp hlen task.UID
    rw [← hs, AList.lookup_insert] at hnone
    cases hnone
  · simp only [Function.update_noteq hst] at hs
    exact h s tasks hs

theorem noEmptyBucket_AddTask (job : Job) (task : Task) (h : job.NoEmptyBucket) :
    (job.AddTask task).NoEmptyBucket :=
  noEmptyBucket_addTaskIndex { job with Tasks := job.Tasks.insert task.UID task } task h

theorem noEmptyBucket_deleteTaskIndex (job : Job) (task : Task) (h : job.NoEmptyBucket) :
    (job.deleteTaskIndex task).NoEmptyBucket := by
  intro s tasks hs
  unfold Job.deleteTaskIndex at hs
  cases hb : job.TaskStatusIndex task.Status with
  | none =>
    rw [hb] at hs
    exact h s tasks hs
  | some bucket =>
    rw [hb] at hs
    simp only at hs
    by_cases hlen : taskMap.len (bucket.erase task.UID) = 0
    · rw [if_pos hlen] at hs
      by_cases hst : s = task.Status
      · subst hst
        simp only [Function.update_same] at hs
        cases hs
      · simp only [Function.update_noteq hst] at hs
        exact h s tasks hs
    · rw [if_neg hlen] at hs
      by_cases hst : s = task.Status
      · subst hst
        simp only [Function.update_same, Option.some.injEq] at hs
        rw [← hs]
        exact hlen
      · simp only [Function.update_noteq hst] at hs
        exact h s tasks hs

theorem noEmptyBucket_DeleteTask (job : Job) (task : Task) (h : job.NoEmptyBucket) :
    (job.DeleteTask task).NoEmptyBucket := by
  unfold Job.DeleteTask
  cases job.Tasks.lookup task.UID with
  | none => exact h
  | some t =>
    exact noEmptyBucket_deleteTaskIndex { job with Tasks := job.Tasks.erase task.UID } t h

theorem noEmptyBucket_call (job : Job) (c : JobCall) (h : job.NoEmptyBucket) :
    (job.call c).NoEmptyBucket := by
  cases c with
  | AddTask task => exact noEmptyBucket_AddTask job task h
  | DeleteTask task => exact noEmptyBucket_DeleteTask job task h
  | UpdateTaskStatus task status =>
    exact noEmptyBucket_AddTask _ _ (noEmptyBucket_DeleteTask job task h)

theorem noEmptyBucket_foldl_AddTask (tasks : List Task) (job : Job) (h : job.NoEmptyBucket) :
    (tasks.foldl Job.AddTask job).NoEmptyBucket := by
  induction tasks generalizing job with
  | nil => exact h
  | cons t tasks ih => exact ih (job.AddTask t) (noEmptyBucket_AddTask job t h)

theorem noEmptyBucket_calls (calls : List JobCall) (job : Job) (h : job.NoEmptyBucket) :
    (job.calls calls).NoEmptyBucket := by
  induction calls generalizing job with
  | nil => exact h
  | cons c calls ih => exact ih (job.call c) (noEmptyBucket_call job c h)

/-- C24. No empty bucket lingers: in every group built by `NewJob` from any list of tasks
and any sequence of `AddTask`, `DeleteTask` and `UpdateTaskStatus` calls, every bucket
present in the status index holds at least one task. -/
theorem no_empty_bucket_lingers (uid : JobID) (tasks : List Task) (calls : List JobCall)
    (s : TaskStatus) (bucket : taskMap) :
    ((NewJob uid tasks).calls calls).TaskStatusIndex s = some bucket →
      1 ≤ taskMap.len bucket := by
  intro hs
  have h0 : (NewJob uid tasks).NoEmptyBucket := by
    unfold NewJob
    apply noEmptyBucket_foldl_AddTask
    intro s1 tasks1 h1
    cases h1
  have h := noEmptyBucket_calls calls (NewJob uid tasks) h0 s bucket hs
  omega

theorem no_empty_bucket_lingers_witness :
    ((((NewJob "ns/g1" [exampleTask "a" Running, exampleTask "b" Pending]).calls
      [JobCall.UpdateTaskStatus (exampleTask "a" Running) Pending,
        JobCall.DeleteTask (exampleTask "b" Pending)]).TaskStatusIndex Running).isNone = true ∧
    (((NewJob "ns/g1" [exampleTask "a" Running, exampleTask "b" Pending]).calls
      [JobCall.UpdateTaskStatus (exampleTask "a" Running) Pending,
        JobCall.DeleteTask (exampleTask "b" Pending)]).TaskStatusIndex Pending).map
          taskMap.len = some 1) ∧
    1 ≤ taskMap.len (AList.singleton "a" (exampleTask "a" Pending) : taskMap) :=
  ⟨by decide,
    no_empty_bucket_lingers "ns/g1" [exampleTask "a" Running, exampleTask "b" Pending]
      [JobCall.UpdateTaskStatus (exampleTask "a" Running) Pending,
        JobCall.DeleteTask (exampleTask "b" Pending)] Pending
      (AList.singleton "a" (exampleTask "a" Pending)) rfl⟩

/-! ## Group cache: ownership of task ids -/

theorem memberOf_insert (sc : schedulerCache) (id0 : JobID) (job0 : Job) (k : TaskID)
    (id : JobID)
    (h : schedulerCache.MemberOf { sc with jobs := sc.jobs.insert id0 job0 } k id) :
    (id = id0 ∧ ∃ t, job0.Tasks.lookup k = some t) ∨ (id ≠ id0 ∧ sc.MemberOf k id) := by
  obtain ⟨job, t, hl, ht⟩ := h
  by_cases hid : id = id0
  · subst hid
    simp only [AList.lookup_insert, Option.some.injEq] at hl
    subst hl
    exact Or.inl ⟨rfl, t, ht⟩
  · simp only [AList.lookup_insert_ne hid] at hl
    exact Or.inr ⟨hid, job, t, hl, ht⟩

theorem memberOf_jobOrNew (sc : schedulerCache) (id : JobID) (k : TaskID) (t : Task)
    (h : (sc.jobOrNew id).Tasks.lookup k = some t) : sc.MemberOf k id := by
  unfold schedulerCache.jobOrNew at h
  cases hl : sc.jobs.lookup id with
  | none =>
    rw [hl] at h
    simp [NewJob] at h
  | some job =>
    rw [hl] at h
    exact ⟨job, t, hl, h⟩

theorem memberOf_addTask (sc : schedulerCache) (task : Task) (k : TaskID) (id : JobID)
    (h : (sc.addTask task).1.MemberOf k id) :
    sc.MemberOf k id ∨ (k = task.UID ∧ id = task.Job) := by
  by_cases hj : task.Job = ""
  · rw [addTask_of_empty sc task hj] at h
    exact Or.inl h
  · rw [addTask_of_ne sc task hj] at h
    rcases memberOf_insert sc _ _ k id h with ⟨hid, t, ht⟩ | ⟨_, hm⟩
    · rw [lookup_AddTask] at ht
      by_cases hk : k = task.UID
      · exact Or.inr ⟨hk, hid⟩
      · rw [if_neg hk] at ht
        rw [hid]
        exact Or.inl (memberOf_jobOrNew sc _ k t ht)
    · exact Or.inl hm

theorem memberOf_deleteTask (sc : schedulerCache) (task : Task) (k : TaskID) (id : JobID)
    (h : (sc.deleteTask task).1.MemberOf k id) :
    sc.MemberOf k id ∧ (task.Job ≠ "" → ¬ (k = task.UID ∧ id = task.Job)) := by
  by_cases hj : task.Job = ""
  · rw [deleteTask_of_empty sc task hj] at h
    exact ⟨h, fun hne => absurd hj hne⟩
  · cases hl : sc.jobs.lookup task.Job with
    | none =>
      have hd : sc.deleteTask task = (sc, some ("failed to find Job <" ++ task.Job ++
          "> for Task " ++ task.Namespace ++ "/" ++ task.Name)) := by
        have hn : ¬ task.Job.length = 0 := fun e => hj ((string_length_eq_zero _).mp e)
        simp [schedulerCache.deleteTask, hn, hl]
      rw [hd] at h
      refine ⟨h, fun _ hc => ?_⟩
      obtain ⟨job, t, hl1, _⟩ := h
      rw [hc.2, hl] at hl1
      cases hl1
    | some job =>
      rw [deleteTask_of_tracked sc task job hj hl] at h
      rcases memberOf_insert sc _ _ k id h with ⟨hid, t, ht⟩ | ⟨hid, hm⟩
      · rw [lookup_DeleteTask] at ht
        by_cases hk : k = task.UID
        · rw [if_pos hk] at ht
          cases ht
        · rw [if_neg hk] at ht
          refine ⟨⟨job, t, ?_, ht⟩, fun _ hc => hk hc.1⟩
          rw [hid]
          exact hl
      · exact ⟨hm, fun _ hc => hid hc.2⟩

theorem memberOf_deletePod (sc : schedulerCache) (hw : sc.TasksWellKeyed) (pod : Pod)
    (k : TaskID) (id : JobID) (h : (sc.deletePod pod).1.MemberOf k id) :
    sc.MemberOf k id ∧ (GetJobID pod ≠ "" → ¬ (k = pod.UID ∧ id = GetJobID pod)) := by
  rcases deletePod_cases sc pod with hd | ⟨job, t, hl, ht, hd⟩
  · rw [hd] at h
    exact memberOf_deleteTask sc (NewTask pod) k id h
  · rw [hd] at h
    have hkey := hw _ job _ t hl ht
    have hm := memberOf_deleteTask sc t k id h
    rw [hkey.1, hkey.2] at hm
    exact hm

theorem memberOf_setPodGroup (sc : schedulerCache) (podGroup : PodGroup) (k : TaskID)
    (id : JobID) (h : (sc.setPodGroup podGroup).MemberOf k id) : sc.MemberOf k id := by
  rw [setPodGroup_eq] at h
  rcases memberOf_insert sc _ _ k id h with ⟨hid, t, ht⟩ | ⟨_, hm⟩
  · rw [hid]
    exact memberOf_jobOrNew sc _ k t ht
  · exact hm

theorem memberOf_deletePodGroup (sc : schedulerCache) (jobID : JobID) (k : TaskID)
    (id : JobID) (h : (sc.deletePodGroup jobID).1.MemberOf k id) : sc.MemberOf k id := by
  unfold schedulerCache.deletePodGroup at h
  cases hl : sc.jobs.lookup jobID with
  | none =>
    rw [hl] at h
    exact h
  | some job =>
    rw [hl] at h
    rcases memberOf_insert sc _ _ k id h with ⟨hid, t, ht⟩ | ⟨_, hm⟩
    · rw [hid]
      exact ⟨job, t, hl, ht⟩
    · exact hm

theorem exclusive_of_subset (sc sc1 : schedulerCache) (hex : sc.ExclusiveOwnership)
    (h : ∀ k id, sc1.MemberOf k id → sc.MemberOf k id) : sc1.ExclusiveOwnership :=
  fun k id1 id2 h1 h2 => hex k id1 id2 (h k id1 h1) (h k id2 h2)

theorem exclusive_addTask (sc : schedulerCache) (task : Task) (hex : sc.ExclusiveOwnership)
    (hk : ∀ id, sc.MemberOf task.UID id → id = task.Job) :
    (sc.addTask task).1.ExclusiveOwnership := by
  intro k id1 id2 h1 h2
  rcases memberOf_addTask sc task k id1 h1 with m1 | ⟨e1, f1⟩
  · rcases memberOf_addTask sc task k id2 h2 with m2 | ⟨e2, f2⟩
    · exact hex k id1 id2 m1 m2
    · rw [e2] at m1
      rw [f2]
      exact hk id1 m1
  · rcases memberOf_addTask sc task k id2 h2 with m2 | ⟨e2, f2⟩
    · rw [e1] at m2
      rw [f1]
      exact (hk id2 m2).symm
    · rw [f1, f2]

theorem exclusive_updatePod (sc : schedulerCache) (hw : sc.TasksWellKeyed)
    (oldPod newPod : Pod) (hex : sc.ExclusiveOwnership)
    (hk : ∀ id, sc.MemberOf newPod.UID id →
      id = GetJobID newPod ∨
        (id = GetJobID oldPod ∧ oldPod.UID = newPod.UID ∧ GetJobID oldPod ≠ "")) :
    (sc.updatePod oldPod newPod).1.ExclusiveOwnership := by
  have hsub := memberOf_deletePod sc hw oldPod
  unfold schedulerCache.updatePod
  cases hdel : sc.deletePod oldPod with
  | mk sc1 err =>
    rw [hdel] at hsub
    have hex1 : sc1.ExclusiveOwnership :=
      exclusive_of_subset sc sc1 hex (fun k id h => (hsub k id h).1)
    cases err with
    | some e => exact hex1
    | none =>
      apply exclusive_addTask sc1 (NewTask newPod) hex1
      intro id hm
      have hm1 : sc1.MemberOf newPod.UID id := hm
      obtain ⟨hm0, hnot⟩ := hsub newPod.UID id hm1
      rcases hk id hm0 with h | ⟨h1, h2, h3⟩
      · exact h
      · exact absurd ⟨h2.symm, h1⟩ (hnot h3)

theorem exclusive_handle (sc : schedulerCache) (e : Event) (hex : sc.ExclusiveOwnership)
    (hw : sc.TasksWellKeyed) (hk : sc.KeepsOwner e) : (sc.handle e).1.ExclusiveOwnership := by
  cases e with
  | AddPod obj =>
    cases obj with
    | pod pod => exact exclusive_addTask sc (NewTask pod) hex hk
    | _ => exact hex
  | UpdatePod oldObj newObj =>
    cases oldObj with
    | pod oldPod =>
      cases newObj with
      | pod newPod =>
        simp only [schedulerCache.handle, schedulerCache.UpdatePod]
        by_cases hrv : oldPod.ResourceVersion = newPod.ResourceVersion
        · rw [if_pos hrv]
          exact hex
        · rw [if_neg hrv]
          exact exclusive_updatePod sc hw oldPod newPod hex hk
      | _ => exact hex
    | _ => exact hex
  | DeletePod obj =>
    cases obj with
    | pod pod =>
      exact exclusive_of_subset sc _ hex (fun k id h => (memberOf_deletePod sc hw pod k id h).1)
    | deletedFinalStateUnknown key inner =>
      cases inner with
      | pod pod =>
        exact exclusive_of_subset sc _ hex
          (fun k id h => (memberOf_deletePod sc hw pod k id h).1)
      | _ => exact hex
    | _ => exact hex
  | AddPodGroup obj =>
    cases obj with
    | podGroup pg => exact exclusive_of_subset sc _ hex (memberOf_setPodGroup sc pg)
    | _ => exact hex
  | UpdatePodGroup oldObj newObj =>
    cases oldObj with
    | podGroup oldPg =>
      cases newObj with
      | podGroup newPg =>
        simp only [schedulerCache.handle, schedulerCache.UpdatePodGroup]
        by_cases hrv : oldPg.ResourceVersion = newPg.ResourceVersion
        · rw [if_pos hrv]
          exact hex
        · rw [if_neg hrv]
          exact exclusive_of_subset sc _ hex (memberOf_setPodGroup sc newPg)
      | _ => exact hex
    | _ => exact hex
  | DeletePodGroup obj =>
    cases obj with
    | podGroup pg => exact exclusive_of_subset sc _ hex (memberOf_deletePodGroup sc _)
    | deletedFinalStateUnknown key inner =>
      cases inner with
      | podGroup pg => exact exclusive_of_subset sc _ hex (memberOf_deletePodGroup sc _)
      | _ => exact hex
    | _ => exact hex

theorem tasksWellKeyed_handle (sc : schedulerCache) (e : Event) (hw : sc.TasksWellKeyed) :
    (sc.handle e).1.TasksWellKeyed := by
  cases e with
  | AddPod obj => exact (tasksWellKeyed_handlers sc hw obj obj).1
  | UpdatePod oldObj newObj => exact (tasksWellKeyed_handlers sc hw oldObj newObj).2.1
  | DeletePod obj => exact (tasksWellKeyed_handlers sc hw obj obj).2.2.1
  | AddPodGroup obj => exact (tasksWellKeyed_handlers sc hw obj obj).2.2.2.1
  | UpdatePodGroup oldObj newObj => exact (tasksWellKeyed_handlers sc hw oldObj newObj).2.2.2.2.1
  | DeletePodGroup obj => exact (tasksWellKeyed_handlers sc hw obj obj).2.2.2.2.2

theorem exclusive_handleAll (events : List Event) (sc : schedulerCache)
    (hex : sc.ExclusiveOwnership) (hw : sc.TasksWellKeyed) (hk : sc.KeepsOwnerAll events) :
    (sc.handleAll events).ExclusiveOwnership := by
  induction events generalizing sc with
  | nil => exact hex
  | cons e events ih =>
    exact ih (sc.handle e).1 (exclusive_handle sc e hex hw hk.1) (tasksWellKeyed_handle sc e hw)
      hk.2

theorem not_memberOf_NewSchedulerCache (name : String) (k : TaskID) (id : JobID) :
    ¬ (NewSchedulerCache name).MemberOf k id := by
  rintro ⟨job, t, hl, _⟩
  simp [NewSchedulerCache] at hl

/-- C23, as the code has it. Exclusive ownership: in every cache state reached from the
empty cache by a sequence of events in which every task-add event carries an id that is
a member of no group other than the one its label names, and the new snapshot of every
task-update event carries an id that is a member of no group other than the one named by
its own label or, for the same id, by the label of the old snapshot, each task id is in
the member mapping of at most one group. -/
theorem exclusive_ownership (name : String) (events : List Event)
    (hk : (NewSchedulerCache name).KeepsOwnerAll events) :
    ((NewSchedulerCache name).handleAll events).ExclusiveOwnership :=
  exclusive_handleAll events (NewSchedulerCache name)
    (fun k id1 _ h1 _ => absurd h1 (not_memberOf_NewSchedulerCache name k id1))
    (tasksWellKeyed_NewSchedulerCache name) hk

theorem exclusive_ownership_witness :
    ((NewSchedulerCache "coscheduler").handleAll
      [Event.AddPod (Obj.pod podA), Event.UpdatePod (Obj.pod podA) (Obj.pod podAMoved),
        Event.AddPodGroup (Obj.podGroup (examplePodGroup 1))]).ExclusiveOwnership ∧
    (((NewSchedulerCache "coscheduler").handleAll
      [Event.AddPod (Obj.pod podA), Event.UpdatePod (Obj.pod podA) (Obj.pod podAMoved),
        Event.AddPodGroup (Obj.podGroup (examplePodGroup 1))]).jobs.lookup "ns/g1").map
          (fun job => job.Tasks.keys) = some [] ∧
    (((NewSchedulerCache "coscheduler").handleAll
      [Event.AddPod (Obj.pod podA), Event.UpdatePod (Obj.pod podA) (Obj.pod podAMoved),
        Event.AddPodGroup (Obj.podGroup (examplePodGroup 1))]).jobs.lookup "ns/g2").map
          (fun job => job.Tasks.keys) = some ["A"] :=
  ⟨exclusive_ownership "coscheduler"
      [Event.AddPod (Obj.pod podA), Event.UpdatePod (Obj.pod podA) (Obj.pod podAMoved),
        Event.AddPodGroup (Obj.podGroup (examplePodGroup 1))]
      ⟨fun id h => absurd h (not_memberOf_NewSchedulerCache "coscheduler" "A" id),
        fun id h => by
          have h1 : ((NewSchedulerCache "coscheduler").addTask (NewTask podA)).1.MemberOf
              "A" id := h
          rcases memberOf_addTask _ _ _ _ h1 with h2 | ⟨_, h2⟩
          · exact absurd h2 (not_memberOf_NewSchedulerCache "coscheduler" "A" id)
          · exact Or.inr ⟨h2, rfl, by decide⟩,
        trivial, trivial⟩,
    by decide, by decide⟩

/-- C23, as stated, fails: after the add event of pod A with group label `g1` and a second
add event of the same task id with group label `g2`, with no delete in between, the id
`A` is in the member mapping of the group `ns/g1` and of the group `ns/g2`. -/
theorem exclusive_ownership_counterexample :
    ¬ ((NewSchedulerCache "coscheduler").handleAll
      [Event.AddPod (Obj.pod podA), Event.AddPod (Obj.pod podAOtherGroup)]).ExclusiveOwnership := by
  intro h
  have h1 := h "A" "ns/g1" "ns/g2"
    ⟨(NewJob "ns/g1" []).AddTask (NewTask podA), NewTask podA, rfl, rfl⟩
    ⟨(NewJob "ns/g2" []).AddTask (NewTask podAOtherGroup), NewTask podAOtherGroup, rfl, rfl⟩
  exact absurd h1 (by decide)

end Coscheduling
